import Mathlib

/-!
M-NET sniffer (`rs232log.c`): framing, checksum and format dispatch

A shallow embedding of the M-NET part of `rs232log.c`.  The global variables of
the program become the fields of `State`; one turn of the `while(1)` loop of
`main` that concerns the M-NET port becomes `poll`, which is given what
`ReadFile` delivered (`some c` when `bytes_read == 1`, `none` otherwise) and
returns the next state together with what was printed in that turn.

Bytes (`unsigned char`) are natural numbers below 256; the only arithmetic that
can wrap, `crc += c`, is taken `% 256` explicitly.

Left out: the serial port set-up, the CoolMaster port (it has its own buffer
and touches none of the globals below), the keyboard, and the clock: `delta`
and `delta_time()` only supply the number that `showtime` prints.
-/

namespace MNet

/-! ## Constants (`#define`s) -/

/-- Constant `#define MAX_DATA 20`. -/
def MAX_DATA : Nat := 20

/-- Constant `#define COOLMASTER_ADDR 0xfb`. -/
def COOLMASTER_ADDR : Nat := 0xfb

/-- Constant `#define ACK 0x06`. -/
def ACK : Nat := 0x06

/-- Constant `#define NAK 0x21`. -/
def NAK : Nat := 0x21

/-- Constant `#define MAX_CMDSIZE 6`. -/
def MAX_CMDSIZE : Nat := 6

/-- Constant `#define M 0xff`, the complete match mask. -/
def M : Nat := 0xff

/-- Size of `packet.rawdata`, `MAX_DATA+4+2`. -/
def RAW_SIZE : Nat := MAX_DATA + 4 + 2

/-! ## What `output` prints -/

/-- One argument of an `output` call. A `float` argument is kept as the exact
value of the expression that computes it. -/
inductive Arg where
  | int (n : Int)
  | str (s : String)
  | flt (q : ℚ)
  deriving DecidableEq

/-- One call `output(fmt, args...)`: the format string and its arguments. -/
structure Tok where
  fmt : String
  args : List Arg
  deriving DecidableEq

/-- What `decode_packet` prints for one packet: the precision given for the
leading blanks, the two address fields and the output of the command decode. -/
structure Decoded where
  pad : Int
  src : Tok
  dst : Tok
  text : List Tok
  deriving DecidableEq

/-- What one turn of the loop prints for the M-NET port.
* `overflow`: `printf("***too much data ")`;
* `badChecksum bytes`: `"*** bad CRC *** "` followed by the raw bytes;
* `frameReady timed bytes dec`: `showtime` (which printed the time iff `timed`),
  the raw bytes, then `decode_packet`;
* `nak`: `"*** Received NAK\n"`;
* `missingHandshake`: `"Missing ACK or NAK\n"`;
* `idleBreak`: the `newline(); showtime(..); newline();` of the no-data branch. -/
inductive Event where
  | overflow
  | badChecksum (bytes : List Nat)
  | frameReady (timed : Bool) (bytes : List Nat) (dec : Decoded)
  | nak
  | missingHandshake
  | idleBreak
  deriving DecidableEq

/-! ## The global state -/

/-- The global variables the M-NET code reads and writes. -/
structure State where
  rawdata : List Nat
  raw_datacount : Nat
  crc : Nat
  prev_from_addr : Nat
  prev_to_addr : Nat
  filter_unit : Int
  skipping_packet : Bool
  filtering_packet : Bool
  did_newline : Bool
  deriving DecidableEq

/-- The state at program start: the initialisers of the globals, with
`filter_unit` as left by `HandleOptions` (`-1` when no `-U` option is given). -/
def init (unit : Int) : State :=
  { rawdata := List.replicate RAW_SIZE 0
    raw_datacount := 0
    crc := 0
    prev_from_addr := 0
    prev_to_addr := 0
    filter_unit := unit
    skipping_packet := false
    filtering_packet := false
    did_newline := true }

/-- Field `packet.rawdata[i]`. -/
def State.byte (s : State) (i : Nat) : Nat := s.rawdata.getD i 0

/-- Field `packet.from_addr`, the second byte of the union. -/
def State.from_addr (s : State) : Nat := s.byte 1

/-- Field `packet.to_addr`, the third byte of the union. -/
def State.to_addr (s : State) : Nat := s.byte 2

/-- Field `packet.data_length`, the fifth byte of the union. -/
def State.data_length (s : State) : Nat := s.byte 4

/-- Field `packet.data[pos]`; `data` starts at offset 5 of the union. -/
def State.data (s : State) (pos : Nat) : Nat := s.byte (5 + pos)

/-- The bytes printed by `for (int i=0; i<raw_datacount; ++i) output("%02X ", packet.rawdata[i])`. -/
def dump (s : State) : List Nat := (List.range s.raw_datacount).map s.byte

/-- Function `newline()`. -/
def newline (s : State) : State :=
  { s with did_newline := true, raw_datacount := 0, crc := 0 }

/-- Function `showtime(delta)`: prints only when `did_newline` is set, and clears it. -/
def showtime (s : State) : State :=
  if s.did_newline = true then { s with did_newline := false } else s

/-- Function `print_addr(addr)`. -/
def print_addr (addr : Nat) : Tok :=
  if addr = COOLMASTER_ADDR then ⟨"CM", []⟩ else ⟨"%02X", [Arg.int addr]⟩

/-! ## Detailed command decodes -/

/-- Function `showtemp(pos)`. The `float degc` is initialised from an `int` expression,
so `(.. & 0xf)/10` is an integer division. -/
def showtemp (s : State) (pos : Nat) : List Tok :=
  let degc : Nat := s.data pos * 10 + (s.data (pos + 1) >>> 4) + (s.data (pos + 1) &&& 0xf) / 10
  [ ⟨" %d.%d deg C", [Arg.int (s.data pos * 10 + (s.data (pos + 1) >>> 4) : Nat),
                       Arg.int (s.data (pos + 1) &&& 0xf : Nat)]⟩,
    ⟨", %.1f deg F", [Arg.flt ((degc : ℚ) * 9 / 5 + 32)]⟩ ]

/-- Function `showfanspeed(pos)`. -/
def showfanspeed (s : State) (pos : Nat) : List Tok :=
  let parm := s.data pos
  [ ⟨if parm = 4 then " low" else if parm = 5 then " medium" else if parm = 6 then " high"
      else if parm = 0x0b then " auto" else "???", []⟩ ]

/-- The functions the format table points to. -/
inductive Variant where
  | poweron | poweron_ack | setmode | setmode_ack | settemp | settemp_ack
  | setfanspeed | setfanspeed_ack | getstatus | getstatus_ack | getmode | getmode_ack
  | getsetpoint | getsetpoint_ack | getfanspeed | getfanspeed_ack
  | getcurrenttemp | getcurrenttemp_ack
  deriving DecidableEq

/-- The body of each command decode function, as the list of its `output` calls. -/
def Variant.run (v : Variant) (s : State) : List Tok :=
  match v with
  | .poweron =>
      let parm := s.data 2
      [⟨"turn %s", [Arg.str (if parm = 1 then "on" else if parm = 0 then "off" else "??")]⟩]
  | .poweron_ack => [⟨" ok", []⟩]
  | .getstatus => [⟨"get status", []⟩]
  | .getstatus_ack =>
      let parm := s.data 2
      [⟨if parm = 0 then " stopped" else if parm = 1 then " running" else "???", []⟩]
  | .getmode => [⟨"get mode", []⟩]
  | .getmode_ack =>
      let parm := s.data 2
      [⟨if parm = 7 then " heat" else if parm = 8 then " cool" else "???", []⟩]
  | .getsetpoint => [⟨"get setpoint temp", []⟩]
  | .getsetpoint_ack => showtemp s 2
  | .getfanspeed => [⟨"get fan speed", []⟩]
  | .getfanspeed_ack => showfanspeed s 2
  | .setfanspeed => ⟨"set fan speed", []⟩ :: showfanspeed s 2
  | .setfanspeed_ack => [⟨" ok", []⟩]
  | .getcurrenttemp => [⟨"get current temp", []⟩]
  | .getcurrenttemp_ack => showtemp s 3
  | .setmode =>
      let parm := s.data 2
      [⟨"set mode %s", [Arg.str (if parm = 7 then "heat" else if parm = 8 then "cool"
          else if parm = 32 then "auto" else "???")]⟩]
  | .setmode_ack => [⟨" ok", []⟩]
  | .settemp => ⟨"set temp ", []⟩ :: showtemp s 2
  | .settemp_ack => [⟨" ok", []⟩]

/-! ## The packet format matching table -/

/-- One entry of `pkt_formats`. The C initialisers give fewer than `MAX_CMDSIZE`
bytes; the rest of each array is zero, which is what `getD _ 0` reads. `fct` is
`none` for the `NULL` of the end-of-table entry. -/
structure Format where
  mask : List Nat
  val : List Nat
  fct : Option Variant
  deriving DecidableEq

/-- Table `pkt_formats[]`, in declaration order, the end-of-table entry included. -/
def pkt_formats : List Format :=
  [ ⟨[M,M,M],   [5,0x0d,0x01],      some .poweron⟩,
    ⟨[M,M,M,M], [3,0x0d,0x81,0x00], some .poweron_ack⟩,
    ⟨[M,M,M],   [3,0x0d,0x02],      some .setmode⟩,
    ⟨[M,M,M,M], [3,0x0d,0x82,0x00], some .setmode_ack⟩,
    ⟨[M,M,M],   [5,0x05,0x01],      some .settemp⟩,
    ⟨[M,M,M,M], [3,0x05,0x81,0x00], some .settemp_ack⟩,
    ⟨[M,M,M],   [3,0x0d,0x0e],      some .setfanspeed⟩,
    ⟨[M,M,M,M], [3,0x0d,0x8e,0x00], some .setfanspeed_ack⟩,
    ⟨[M,M,M],   [2,0x2d,0x01],      some .getstatus⟩,
    ⟨[M,M,M],   [5,0x2d,0x81],      some .getstatus_ack⟩,
    ⟨[M,M,M],   [2,0x2d,0x02],      some .getmode⟩,
    ⟨[M,M,M],   [3,0x2d,0x82],      some .getmode_ack⟩,
    ⟨[M,M,M],   [2,0x25,0x01],      some .getsetpoint⟩,
    ⟨[M,M,M],   [5,0x25,0x81],      some .getsetpoint_ack⟩,
    ⟨[M,M,M],   [2,0x2d,0x0e],      some .getfanspeed⟩,
    ⟨[M,M,M],   [3,0x2d,0x8e],      some .getfanspeed_ack⟩,
    ⟨[M,M,M,M], [3,0x35,0x03,0x22], some .getcurrenttemp⟩,
    ⟨[M,M,M,M], [5,0x35,0x83,0x22], some .getcurrenttemp_ack⟩,
    ⟨[0],       [0],                none⟩ ]

/-- The inner loop of the search: all `MAX_CMDSIZE` bytes from `rawdata[4]` on
agree with the entry, `(packet.rawdata[4+i] & mask[i]) == val[i]`. -/
def Format.hit (f : Format) (rawdata : List Nat) : Bool :=
  (List.range MAX_CMDSIZE).all
    (fun i => (rawdata.getD (4 + i) 0 &&& f.mask.getD i 0) == f.val.getD i 0)

/-- How the search loop of `decode_packet` ends: it calls the function of an
entry, or prints `"???"` at the end-of-table entry; `overrun` stands for
walking past the last element of the array, which the C loop itself does not
exclude. -/
inductive Dispatch where
  | call (v : Variant)
  | unknown
  | overrun
  deriving DecidableEq

/-- The loop `for (int fmt=0; ; ++fmt)` of `decode_packet`, started at the
entry that heads `table`. -/
def search (rawdata : List Nat) : List Format → Dispatch
  | [] => .overrun
  | f :: rest =>
    match f.fct with
    | none => .unknown
    | some v => if f.hit rawdata then .call v else search rawdata rest

/-- What the search loop prints. -/
def Dispatch.text (d : Dispatch) (s : State) : List Tok :=
  match d with
  | .call v => v.run s
  | .unknown => [⟨"???", []⟩]
  | .overrun => []

/-- The first statement of `decode_packet`,
`packet.data_length = min(16,packet.data_length)`. -/
def clamp_length (s : State) : State :=
  { s with rawdata := s.rawdata.set 4 (min 16 s.data_length) }

/-- The search of `decode_packet` over the whole table, which runs after the
data length has been clamped. -/
def dispatch (s : State) : Dispatch := search (clamp_length s).rawdata pkt_formats

/-- Function `decode_packet()`: the new state and what was printed. -/
def decode_packet (s : State) : State × Decoded :=
  let s1 : State := clamp_length s
  let pad : Int := 18 - 3 * (s1.data_length : Int)
  let src : Tok :=
    if s1.from_addr = s1.prev_to_addr ∧ s1.to_addr = s1.prev_from_addr then ⟨"  ", []⟩
    else print_addr s1.from_addr
  let dst : Tok := print_addr s1.to_addr
  let text := (dispatch s).text s1
  let s2 := newline s1
  ({ s2 with prev_from_addr := s1.from_addr, prev_to_addr := s1.to_addr },
   { pad := pad, src := src, dst := dst, text := text })

/-! ## One turn of the main loop -/

/-- Lines 473-478: add the byte to the checksum, then store it or report that
there is too much data. -/
def accept (s : State) (c : Nat) : State × List Event :=
  let s0 : State := { s with crc := (s.crc + c) % 256 }
  if s0.raw_datacount < MAX_DATA then
    ({ s0 with rawdata := s0.rawdata.set s0.raw_datacount c,
               raw_datacount := s0.raw_datacount + 1 }, [])
  else if s0.skipping_packet = false then
    ({ s0 with skipping_packet := true }, [Event.overflow])
  else (s0, [])

/-- Lines 479-484: the unit filter, applied when the header is complete. The
passing branch only reads the clock (`delta = delta_time()`). -/
def do_filters (s : State) : State :=
  if s.skipping_packet = false ∧ s.raw_datacount = 4 then
    if s.filter_unit = -1 ∨
        ((s.from_addr : Int) = s.filter_unit ∨ (s.to_addr : Int) = s.filter_unit) then s
    else { s with filtering_packet := true }
  else s

/-- Lines 486-494: the checksum test at byte `6 + data_length`. -/
def check_crc (s : State) : State × List Event :=
  if s.raw_datacount = 6 + s.data_length then
    if s.crc ≠ 0 then
      ({ s with skipping_packet := true, crc := 0 }, [Event.badChecksum (dump s)])
    else (s, [])
  else (s, [])

/-- Lines 495-512: the byte after the checksum, which should be ACK or NAK. -/
def handshake (s : State) (c : Nat) : State × List Event :=
  if s.raw_datacount = 7 + s.data_length then
    let shown : State × List Event :=
      if s.filtering_packet = false then
        ((decode_packet (showtime s)).1,
         [Event.frameReady s.did_newline (dump (showtime s)) (decode_packet (showtime s)).2])
      else (s, [])
    let s2 : State := { shown.1 with filtering_packet := false, crc := 0, raw_datacount := 0 }
    if c = NAK then (s2, shown.2 ++ [Event.nak])
    else if c ≠ ACK then
      ({ s2 with rawdata := s2.rawdata.set 0 c, raw_datacount := 1, crc := c },
       shown.2 ++ [Event.missingHandshake])
    else (s2, shown.2)
  else (s, [])

/-- Lines 472-514: the branch `bytes_read == 1`. -/
def mnet_byte (s : State) (c : Nat) : State × List Event :=
  let a := accept s c
  let s2 := do_filters a.1
  if s2.skipping_packet = false ∧ 5 ≤ s2.raw_datacount then
    let k := check_crc s2
    let h := handshake k.1 c
    (h.1, a.2 ++ k.2 ++ h.2)
  else (s2, a.2)

/-- Lines 515-522: the branch taken when no byte came in. -/
def mnet_idle (s : State) : State × List Event :=
  if s.did_newline = false then
    ({ newline (showtime (newline s)) with skipping_packet := false }, [Event.idleBreak])
  else (s, [])

/-- One turn of the `while(1)` loop, given what `ReadFile` delivered. -/
def poll (s : State) : Option Nat → State × List Event
  | some c => mnet_byte s c
  | none => mnet_idle s

/-- Consecutive turns of the loop; the printed events are concatenated. -/
def run (s : State) : List (Option Nat) → State × List Event
  | [] => (s, [])
  | i :: rest => ((run (poll s i).1 rest).1, (poll s i).2 ++ (run (poll s i).1 rest).2)

/-- Consecutive turns in each of which one byte came in. -/
def feed (s : State) (bs : List Nat) : State × List Event := run s (bs.map some)

/-- Every byte delivered is an `unsigned char`. -/
def Bytes (ins : List (Option Nat)) : Prop := ∀ c, some c ∈ ins → c < 256

/-- The states the program can be in at the top of the loop when started with
`filter_unit = unit`. -/
def Reachable (unit : Int) (s : State) : Prop :=
  ∃ ins : List (Option Nat), Bytes ins ∧ s = (run (init unit) ins).1

/-- The checksum accumulator alone: `crc += c` on an `unsigned char`. -/
def crc_add (crc c : Nat) : Nat := (crc + c) % 256

/-! ## Predicates used in the proofs -/

/-- The filter latch after the header bytes `src`, `dst` have been seen. -/
def latched (s0 : State) (src dst : Nat) : Bool :=
  if s0.filter_unit = -1 ∨ ((src : Int) = s0.filter_unit ∨ (dst : Int) = s0.filter_unit)
  then s0.filtering_packet else true

/-- The state while the bytes `bs` of a packet have been stored and nothing has
been printed yet. -/
structure Mid (s0 : State) (bs : List Nat) (s : State) : Prop where
  count : s.raw_datacount = bs.length
  crc : s.crc = bs.sum % 256
  buf : s.rawdata.take bs.length = bs
  len : s.rawdata.length = s0.rawdata.length
  skip : s.skipping_packet = false
  unit : s.filter_unit = s0.filter_unit
  pf : s.prev_from_addr = s0.prev_from_addr
  pt : s.prev_to_addr = s0.prev_to_addr
  nl : s.did_newline = s0.did_newline

/-- The filter latch while the bytes `bs` of a packet have been stored: it is
decided when the fourth byte is stored. -/
def Latch (s0 : State) (bs : List Nat) (s : State) : Prop :=
  s.filtering_packet =
    if 4 ≤ bs.length then latched s0 (bs.getD 1 0) (bs.getD 2 0) else s0.filtering_packet

/-- What holds of the globals at the top of every turn of the loop when the
program was started with `filter_unit = u`. -/
structure Inv (u : Int) (s : State) : Prop where
  len : s.rawdata.length = RAW_SIZE
  cnt : s.raw_datacount ≤ MAX_DATA
  unit : s.filter_unit = u
  nl : s.did_newline = true
  bytes : ∀ b ∈ s.rawdata, b < 256
  crcb : s.crc < 256
  latch : u = -1 → s.filtering_packet = false
  sum : s.skipping_packet = false → s.crc = (s.rawdata.take s.raw_datacount).sum % 256
  pos : s.skipping_packet = false → 5 ≤ s.raw_datacount →
    s.raw_datacount ≤ 6 + s.data_length
  chk : s.skipping_packet = false → s.raw_datacount = 6 + s.data_length → s.crc = 0

/-- A byte sequence is a complete packet with a valid checksum: it has
`7 + data_length` bytes and its first `6 + data_length` bytes, the role byte
through the checksum byte, sum to 0 modulo 256. -/
def Sound (bytes : List Nat) : Prop :=
  bytes.length = 7 + bytes.getD 4 0 ∧ (bytes.take (6 + bytes.getD 4 0)).sum % 256 = 0


/-- How a state `t` relates to an earlier state `s` when only skipped bytes came
in between: still skipping, nothing of the packet state restarted. -/
structure Skip (s t : State) : Prop where
  skip : t.skipping_packet = true
  latch : t.filtering_packet = s.filtering_packet
  pf : t.prev_from_addr = s.prev_from_addr
  pt : t.prev_to_addr = s.prev_to_addr
  unit : t.filter_unit = s.filter_unit
  nl : t.did_newline = s.did_newline
  count : s.raw_datacount ≤ t.raw_datacount
  kept : t.rawdata.take s.raw_datacount = s.rawdata.take s.raw_datacount
  full : ¬ s.raw_datacount < MAX_DATA →
    t.rawdata = s.rawdata ∧ t.raw_datacount = s.raw_datacount

/-- Entry `k` of `pkt_formats`, counted from 0 in declaration order. -/
def entry (k : Nat) : Format := pkt_formats.getD k ⟨[0], [0], none⟩

/-- In the words of the specification: entry `k` of the table matches the
buffer when `(rawdata[4+i] & mask_k[i]) == val_k[i]` for all `i` in 0..5. -/
def Matches (rawdata : List Nat) (k : Nat) : Prop :=
  ∀ i, i < 6 → rawdata.getD (4 + i) 0 &&& (entry k).mask.getD i 0 = (entry k).val.getD i 0

instance (rawdata : List Nat) (k : Nat) : Decidable (Matches rawdata k) := by
  unfold Matches; infer_instance

/-- The filter latch is clear while the header of a packet is being read: it is
set when the fourth byte is stored and cleared at the handshake position. -/
def LatchClear (s : State) : Prop :=
  s.skipping_packet = false → s.raw_datacount < 4 → s.filtering_packet = false

/-! ## The same code with every array access checked

A second embedding of the same statements, in which each access to
`packet.rawdata` and each step of the table search can fail: `none` stands for
an index outside the 26-byte buffer, or for walking past the end of
`pkt_formats`. -/

/-- A checked read of `packet.rawdata[i]`. -/
def rd (a : List Nat) (i : Nat) : Option Nat := if i < RAW_SIZE then a[i]? else none

/-- A checked write `packet.rawdata[i] = v`. -/
def wr (a : List Nat) (i v : Nat) : Option (List Nat) :=
  if i < RAW_SIZE ∧ i < a.length then some (a.set i v) else none

/-- Checked reads of `packet.rawdata[i]` for each `i` of a list, in order. -/
def rd_all (a : List Nat) : List Nat → Option (List Nat)
  | [] => some []
  | i :: rest => (rd a i).bind fun x => (rd_all a rest).bind fun xs => some (x :: xs)

/-- The raw dump loop, checked. -/
def dump_chk (s : State) : Option (List Nat) := rd_all s.rawdata (List.range s.raw_datacount)

/-- Function `showtemp(pos)`, checked: it reads `data[pos]` and `data[pos+1]`. -/
def showtemp_chk (s : State) (pos : Nat) : Option (List Tok) :=
  (rd s.rawdata (5 + pos)).bind fun b0 =>
  (rd s.rawdata (5 + (pos + 1))).bind fun b1 =>
  let degc : Nat := b0 * 10 + (b1 >>> 4) + (b1 &&& 0xf) / 10
  some [ ⟨" %d.%d deg C", [Arg.int (b0 * 10 + (b1 >>> 4) : Nat), Arg.int (b1 &&& 0xf : Nat)]⟩,
         ⟨", %.1f deg F", [Arg.flt ((degc : ℚ) * 9 / 5 + 32)]⟩ ]

/-- Function `showfanspeed(pos)`, checked: it reads `data[pos]`. -/
def showfanspeed_chk (s : State) (pos : Nat) : Option (List Tok) :=
  (rd s.rawdata (5 + pos)).bind fun parm =>
  some [ ⟨if parm = 4 then " low" else if parm = 5 then " medium" else if parm = 6 then " high"
          else if parm = 0x0b then " auto" else "???", []⟩ ]

/-- The command decode functions, checked: those that look at a parameter read
`data[2]`. -/
def Variant.run_chk (v : Variant) (s : State) : Option (List Tok) :=
  match v with
  | .poweron =>
      (rd s.rawdata (5 + 2)).bind fun parm =>
      some [⟨"turn %s", [Arg.str (if parm = 1 then "on" else if parm = 0 then "off" else "??")]⟩]
  | .poweron_ack => some [⟨" ok", []⟩]
  | .getstatus => some [⟨"get status", []⟩]
  | .getstatus_ack =>
      (rd s.rawdata (5 + 2)).bind fun parm =>
      some [⟨if parm = 0 then " stopped" else if parm = 1 then " running" else "???", []⟩]
  | .getmode => some [⟨"get mode", []⟩]
  | .getmode_ack =>
      (rd s.rawdata (5 + 2)).bind fun parm =>
      some [⟨if parm = 7 then " heat" else if parm = 8 then " cool" else "???", []⟩]
  | .getsetpoint => some [⟨"get setpoint temp", []⟩]
  | .getsetpoint_ack => showtemp_chk s 2
  | .getfanspeed => some [⟨"get fan speed", []⟩]
  | .getfanspeed_ack => showfanspeed_chk s 2
  | .setfanspeed => (showfanspeed_chk s 2).bind fun t => some (⟨"set fan speed", []⟩ :: t)
  | .setfanspeed_ack => some [⟨" ok", []⟩]
  | .getcurrenttemp => some [⟨"get current temp", []⟩]
  | .getcurrenttemp_ack => showtemp_chk s 3
  | .setmode =>
      (rd s.rawdata (5 + 2)).bind fun parm =>
      some [⟨"set mode %s", [Arg.str (if parm = 7 then "heat" else if parm = 8 then "cool"
          else if parm = 32 then "auto" else "???")]⟩]
  | .setmode_ack => some [⟨" ok", []⟩]
  | .settemp => (showtemp_chk s 2).bind fun t => some (⟨"set temp ", []⟩ :: t)
  | .settemp_ack => some [⟨" ok", []⟩]

/-- The inner loop of the search, checked: it reads `rawdata[4+i]` for the
positions `i` of the list, in order, and stops at the first mismatch. -/
def hit_chk (f : Format) (rawdata : List Nat) : List Nat → Option Bool
  | [] => some true
  | i :: rest =>
    (rd rawdata (4 + i)).bind fun x =>
    if (x &&& f.mask.getD i 0) == f.val.getD i 0 then hit_chk f rawdata rest else some false

/-- The search loop of `decode_packet`, checked: walking past the last element
of the table is a failure. -/
def search_chk (rawdata : List Nat) : List Format → Option Dispatch
  | [] => none
  | f :: rest =>
    match f.fct with
    | none => some .unknown
    | some v =>
      (hit_chk f rawdata (List.range MAX_CMDSIZE)).bind fun h =>
      if h then some (.call v) else search_chk rawdata rest

/-- What the search loop prints, checked. -/
def Dispatch.text_chk (d : Dispatch) (s : State) : Option (List Tok) :=
  match d with
  | .call v => v.run_chk s
  | .unknown => some [⟨"???", []⟩]
  | .overrun => none

/-- Function `decode_packet()`, checked. -/
def decode_packet_chk (s : State) : Option (State × Decoded) :=
  (rd s.rawdata 4).bind fun dl =>
  (wr s.rawdata 4 (min 16 dl)).bind fun raw1 =>
  let s1 : State := { s with rawdata := raw1 }
  (rd raw1 4).bind fun dl1 =>
  (rd raw1 1).bind fun fr =>
  (rd raw1 2).bind fun dst =>
  (search_chk raw1 pkt_formats).bind fun disp =>
  (disp.text_chk s1).bind fun text =>
  some ({ newline s1 with prev_from_addr := fr, prev_to_addr := dst },
        { pad := 18 - 3 * (dl1 : Int),
          src := if fr = s1.prev_to_addr ∧ dst = s1.prev_from_addr then ⟨"  ", []⟩
                 else print_addr fr,
          dst := print_addr dst,
          text := text })

/-- Lines 473-478, checked. -/
def accept_chk (s : State) (c : Nat) : Option (State × List Event) :=
  let s0 : State := { s with crc := (s.crc + c) % 256 }
  if s0.raw_datacount < MAX_DATA then
    (wr s0.rawdata s0.raw_datacount c).bind fun raw =>
    some ({ s0 with rawdata := raw, raw_datacount := s0.raw_datacount + 1 }, [])
  else if s0.skipping_packet = false then
    some ({ s0 with skipping_packet := true }, [Event.overflow])
  else some (s0, [])

/-- Lines 479-484, checked: `packet.from_addr` is read when a unit is
configured, `packet.to_addr` when the source is not that unit. -/
def do_filters_chk (s : State) : Option State :=
  if s.skipping_packet = false ∧ s.raw_datacount = 4 then
    if s.filter_unit = -1 then some s
    else
      (rd s.rawdata 1).bind fun fr =>
      if (fr : Int) = s.filter_unit then some s
      else
        (rd s.rawdata 2).bind fun dst =>
        if (dst : Int) = s.filter_unit then some s
        else some { s with filtering_packet := true }
  else some s

/-- Lines 486-494, checked. -/
def check_crc_chk (s : State) : Option (State × List Event) :=
  (rd s.rawdata 4).bind fun dl =>
  if s.raw_datacount = 6 + dl then
    if s.crc ≠ 0 then
      (dump_chk s).bind fun d =>
      some ({ s with skipping_packet := true, crc := 0 }, [Event.badChecksum d])
    else some (s, [])
  else some (s, [])

/-- Lines 495-512, checked. -/
def handshake_chk (s : State) (c : Nat) : Option (State × List Event) :=
  (rd s.rawdata 4).bind fun dl =>
  if s.raw_datacount = 7 + dl then
    (if s.filtering_packet = false then
        (dump_chk (showtime s)).bind fun d =>
        (decode_packet_chk (showtime s)).bind fun r =>
        some (r.1, [Event.frameReady s.did_newline d r.2])
      else some (s, [])).bind fun shown =>
    let s2 : State := { shown.1 with filtering_packet := false, crc := 0, raw_datacount := 0 }
    if c = NAK then some (s2, shown.2 ++ [Event.nak])
    else if c ≠ ACK then
      (wr s2.rawdata 0 c).bind fun raw =>
      some ({ s2 with rawdata := raw, raw_datacount := 1, crc := c },
            shown.2 ++ [Event.missingHandshake])
    else some (s2, shown.2)
  else some (s, [])

/-- Lines 472-514, checked. -/
def mnet_byte_chk (s : State) (c : Nat) : Option (State × List Event) :=
  (accept_chk s c).bind fun a =>
  (do_filters_chk a.1).bind fun s2 =>
  if s2.skipping_packet = false ∧ 5 ≤ s2.raw_datacount then
    (check_crc_chk s2).bind fun k =>
    (handshake_chk k.1 c).bind fun h =>
    some (h.1, a.2 ++ k.2 ++ h.2)
  else some (s2, a.2)

/-- One turn of the loop, checked; the no-data branch touches no array. -/
def poll_chk (s : State) : Option Nat → Option (State × List Event)
  | some c => mnet_byte_chk s c
  | none => some (mnet_idle s)

/-- Consecutive turns of the loop, checked. -/
def run_chk (s : State) : List (Option Nat) → Option (State × List Event)
  | [] => some (s, [])
  | i :: rest =>
    (poll_chk s i).bind fun p =>
    (run_chk p.1 rest).bind fun r => some (r.1, p.2 ++ r.2)

/-! # Lemmas -/

/-! ## Buffer lemmas -/

theorem getD_set_eq (l : List Nat) (n v : Nat) (h : n < l.length) :
    (l.set n v).getD n 0 = v := by
  simp [List.getD_eq_getElem?_getD, List.getElem?_set, h]

theorem getD_set_ne (l : List Nat) (n i v : Nat) (h : i ≠ n) :
    (l.set n v).getD i 0 = l.getD i 0 := by
  simp [List.getD_eq_getElem?_getD, List.getElem?_set, Ne.symm h]

theorem take_set_succ (l : List Nat) (n v : Nat) (h : n < l.length) :
    (l.set n v).take (n + 1) = l.take n ++ [v] := by
  induction l generalizing n with
  | nil => simp at h
  | cons a t ih =>
    cases n with
    | zero => simp
    | succ m =>
      have hm : m < t.length := by simpa using h
      simp [List.set, ih m hm]

theorem take_set_ge (l : List Nat) (n m v : Nat) (h : m ≤ n) :
    (l.set n v).take m = l.take m := by
  induction l generalizing n m with
  | nil => simp
  | cons a t ih =>
    cases m with
    | zero => simp
    | succ k =>
      cases n with
      | zero => omega
      | succ j => simp [List.set, ih j k (by omega)]

theorem map_range_getD (l : List Nat) (n : Nat) (h : n ≤ l.length) :
    (List.range n).map (fun i => l.getD i 0) = l.take n := by
  apply List.ext_getElem?
  intro i
  by_cases hi : i < n
  · have hl : i < l.length := by omega
    simp [List.getElem?_take, hi, hl, List.getElem?_range]
  · have : n ≤ i := by omega
    simp [List.getElem?_take, hi, this]

theorem getD_of_take (l bs : List Nat) (n i : Nat) (h : l.take n = bs) (hi : i < n) :
    l.getD i 0 = bs.getD i 0 := by
  subst h
  simp [List.getD_eq_getElem?_getD, List.getElem?_take, hi]

/-! ## Runs -/

theorem run_append (s : State) (a b : List (Option Nat)) :
    run s (a ++ b) = ((run (run s a).1 b).1, (run s a).2 ++ (run (run s a).1 b).2) := by
  induction a generalizing s with
  | nil => simp [run]
  | cons i rest ih => simp [run, ih, List.append_assoc]

theorem feed_append (s : State) (a b : List Nat) :
    feed s (a ++ b) = ((feed (feed s a).1 b).1, (feed s a).2 ++ (feed (feed s a).1 b).2) := by
  simp [feed, run_append]

theorem feed_one (s : State) (c : Nat) : feed s [c] = mnet_byte s c := by
  simp [feed, run, poll]

theorem feed_nil (s : State) : feed s [] = (s, []) := rfl

/-! ## The unit filter leaves everything but its latch alone -/

@[simp] theorem do_filters_rawdata (t : State) : (do_filters t).rawdata = t.rawdata := by
  unfold do_filters; split_ifs <;> rfl

@[simp] theorem do_filters_count (t : State) :
    (do_filters t).raw_datacount = t.raw_datacount := by
  unfold do_filters; split_ifs <;> rfl

@[simp] theorem do_filters_crc (t : State) : (do_filters t).crc = t.crc := by
  unfold do_filters; split_ifs <;> rfl

@[simp] theorem do_filters_skipping (t : State) :
    (do_filters t).skipping_packet = t.skipping_packet := by
  unfold do_filters; split_ifs <;> rfl

@[simp] theorem do_filters_unit (t : State) : (do_filters t).filter_unit = t.filter_unit := by
  unfold do_filters; split_ifs <;> rfl

@[simp] theorem do_filters_prev_from (t : State) :
    (do_filters t).prev_from_addr = t.prev_from_addr := by
  unfold do_filters; split_ifs <;> rfl

@[simp] theorem do_filters_prev_to (t : State) :
    (do_filters t).prev_to_addr = t.prev_to_addr := by
  unfold do_filters; split_ifs <;> rfl

@[simp] theorem do_filters_newline (t : State) :
    (do_filters t).did_newline = t.did_newline := by
  unfold do_filters; split_ifs <;> rfl

@[simp] theorem do_filters_byte (t : State) (i : Nat) : (do_filters t).byte i = t.byte i := by
  simp [State.byte]

@[simp] theorem do_filters_data_length (t : State) :
    (do_filters t).data_length = t.data_length := by
  simp [State.data_length]

theorem do_filters_off (t : State) (h : t.skipping_packet = true ∨ t.raw_datacount ≠ 4) :
    do_filters t = t := by
  unfold do_filters
  rcases h with h | h
  · simp [h]
  · simp [h]

/-- A turn in which a byte is stored and neither the checksum nor the
handshake position is reached prints nothing beyond what `accept` printed. -/
theorem mnet_byte_pass (s : State) (c : Nat)
    (h : (accept s c).1.skipping_packet = true ∨ (accept s c).1.raw_datacount < 5 ∨
      ((accept s c).1.raw_datacount ≠ 6 + (accept s c).1.data_length ∧
       (accept s c).1.raw_datacount ≠ 7 + (accept s c).1.data_length)) :
    mnet_byte s c = (do_filters (accept s c).1, (accept s c).2) := by
  unfold mnet_byte
  by_cases hg : (do_filters (accept s c).1).skipping_packet = false ∧
      5 ≤ (do_filters (accept s c).1).raw_datacount
  · simp only [do_filters_skipping, do_filters_count] at hg
    rcases h with h | h | ⟨h6, h7⟩
    · rw [h] at hg; simp at hg
    · omega
    · simp [check_crc, handshake, h6, h7, hg]
  · simp only [hg]; simp

theorem accept_store (s : State) (c : Nat) (h : s.raw_datacount < MAX_DATA) :
    accept s c =
      ({ s with crc := (s.crc + c) % 256, rawdata := s.rawdata.set s.raw_datacount c,
                raw_datacount := s.raw_datacount + 1 }, []) := by
  simp [accept, h]

theorem accept_full (s : State) (c : Nat) (h : ¬ s.raw_datacount < MAX_DATA) :
    accept s c =
      ({ s with crc := (s.crc + c) % 256, skipping_packet := true },
       if s.skipping_packet = false then [Event.overflow] else []) := by
  cases hs : s.skipping_packet <;> simp [accept, h, hs]

theorem getD_append_left (bs : List Nat) (c i : Nat) (h : i < bs.length) :
    (bs ++ [c]).getD i 0 = bs.getD i 0 := by
  simp [List.getD_eq_getElem?_getD, List.getElem?_append_left h]

theorem mid_data_length (s0 s : State) (bs : List Nat) (h : Mid s0 bs s) (h5 : 5 ≤ bs.length) :
    s.data_length = bs.getD 4 0 :=
  getD_of_take s.rawdata bs bs.length 4 h.buf (by omega)

theorem mid_dump (s0 s : State) (bs : List Nat) (h : Mid s0 bs s)
    (hl : bs.length ≤ s.rawdata.length) : dump s = bs := by
  unfold dump State.byte
  rw [h.count, map_range_getD _ _ hl, h.buf]

/-- Storing one more byte keeps the description of the stored bytes. -/
theorem mid_accept (s0 s : State) (bs : List Nat) (c : Nat) (h : Mid s0 bs s)
    (hlen : s0.rawdata.length = RAW_SIZE) (hlt : bs.length < MAX_DATA) :
    Mid s0 (bs ++ [c]) (do_filters (accept s c).1) ∧ (accept s c).2 = [] := by
  have hlt2 : s.raw_datacount < MAX_DATA := by rw [h.count]; exact hlt
  have hl : bs.length < s.rawdata.length := by
    rw [h.len, hlen]; simp [RAW_SIZE, MAX_DATA] at *; omega
  have hbuf : (s.rawdata.set bs.length c).take (bs.length + 1) = bs ++ [c] := by
    rw [take_set_succ _ _ _ hl, h.buf]
  have hb : ∀ i, i < bs.length + 1 →
      (s.rawdata.set bs.length c).getD i 0 = (bs ++ [c]).getD i 0 :=
    fun i hi => getD_of_take _ _ _ i hbuf hi
  have ha := accept_store s c hlt2
  rw [ha]
  refine ⟨?_, rfl⟩
  constructor
  · simp [h.count]
  · simp [h.crc, List.sum_append]
  · simpa [h.count] using hbuf
  · simp [h.len]
  · simp [h.skip]
  · simp [h.unit]
  · simp [h.pf]
  · simp [h.pt]
  · simp [h.nl]

/-- Storing one more byte decides the filter latch at the fourth byte and keeps
it otherwise. -/
theorem latch_accept (s0 s : State) (bs : List Nat) (c : Nat) (h : Mid s0 bs s)
    (hL : Latch s0 bs s) (hlen : s0.rawdata.length = RAW_SIZE) (hlt : bs.length < MAX_DATA) :
    Latch s0 (bs ++ [c]) (do_filters (accept s c).1) := by
  have hlt2 : s.raw_datacount < MAX_DATA := by rw [h.count]; exact hlt
  have hl : bs.length < s.rawdata.length := by
    rw [h.len, hlen]; simp [RAW_SIZE, MAX_DATA] at *; omega
  have hbuf : (s.rawdata.set bs.length c).take (bs.length + 1) = bs ++ [c] := by
    rw [take_set_succ _ _ _ hl, h.buf]
  have hb : ∀ i, i < bs.length + 1 →
      (s.rawdata.set bs.length c).getD i 0 = (bs ++ [c]).getD i 0 :=
    fun i hi => getD_of_take _ _ _ i hbuf hi
  have ha := accept_store s c hlt2
  rw [ha]
  unfold Latch at hL ⊢
  by_cases h4 : bs.length + 1 = 4
  · have h3 : bs.length = 3 := by omega
    have e1 := hb 1 (by omega)
    have e2 := hb 2 (by omega)
    rw [h3] at e1 e2
    have hl0 := hL
    simp only [h3] at hl0
    simp only [do_filters, h.skip, h.count, h3, State.from_addr, State.to_addr, State.byte,
      latched, e1, e2, h.unit]
    have hl1 : s.filtering_packet = s0.filtering_packet := by simpa using hl0
    have hlen4 : 4 ≤ (bs ++ [c]).length := by simp; omega
    rw [if_pos hlen4, if_pos ⟨trivial, trivial⟩]
    split_ifs <;> simp [hl1]
  · rw [do_filters_off _ (Or.inr (by simp [h.count, h4]))]
    have hl0 := hL
    by_cases h5 : 4 ≤ bs.length
    · have e1 := getD_append_left bs c 1 (by omega)
      have e2 := getD_append_left bs c 2 (by omega)
      show s.filtering_packet = _
      rw [hl0, if_pos h5, if_pos (by simp; omega), e1, e2]
    · show s.filtering_packet = _
      rw [hl0, if_neg h5, if_neg (by simp; omega)]

/-- A byte before the checksum position is stored and nothing is printed. -/
theorem mid_step (s0 s : State) (bs : List Nat) (c : Nat) (h : Mid s0 bs s)
    (hlen : s0.rawdata.length = RAW_SIZE) (hlt : bs.length < MAX_DATA)
    (hd : 5 ≤ bs.length + 1 → bs.length + 1 ≤ 5 + (bs ++ [c]).getD 4 0) :
    mnet_byte s c = (do_filters (accept s c).1, []) := by
  have hm := mid_accept s0 s bs c h hlen hlt
  have hcount : (accept s c).1.raw_datacount = bs.length + 1 := by
    have := hm.1.count; simpa using this
  have hpass : mnet_byte s c = (do_filters (accept s c).1, (accept s c).2) := by
    apply mnet_byte_pass
    by_cases h5 : 5 ≤ bs.length + 1
    · right; right
      have hdl := mid_data_length s0 _ _ hm.1 (by simp; omega)
      rw [do_filters_data_length] at hdl
      rw [hcount, hdl]
      have := hd h5
      omega
    · right; left
      omega
  rw [hpass, hm.2]

theorem mid_init (s0 : State) (hc : s0.raw_datacount = 0) (hcrc : s0.crc = 0)
    (hs : s0.skipping_packet = false) : Mid s0 [] s0 := by
  constructor <;> simp [hc, hcrc, hs]

theorem feed_snoc (s : State) (bs : List Nat) (c : Nat) :
    feed s (bs ++ [c]) =
      ((mnet_byte (feed s bs).1 c).1, (feed s bs).2 ++ (mnet_byte (feed s bs).1 c).2) := by
  rw [feed_append, feed_one]

/-- From an idle state, the bytes of a packet up to and excluding its checksum
byte are stored and nothing is printed. -/
theorem feed_mid (s0 : State) (hc : s0.raw_datacount = 0) (hcrc : s0.crc = 0)
    (hs : s0.skipping_packet = false) (hlen : s0.rawdata.length = RAW_SIZE) (bs : List Nat) :
    bs.length ≤ MAX_DATA → (5 ≤ bs.length → bs.length ≤ 5 + bs.getD 4 0) →
    Mid s0 bs (feed s0 bs).1 ∧ Latch s0 bs (feed s0 bs).1 ∧ (feed s0 bs).2 = [] := by
  induction bs using List.reverseRecOn with
  | nil => intro _ _; exact ⟨mid_init s0 hc hcrc hs, by simp [Latch, feed_nil], rfl⟩
  | append_singleton bs c ih =>
    intro h1 h2
    have hl : (bs ++ [c]).length = bs.length + 1 := by simp
    rw [hl] at h1 h2
    have hprev := ih (by omega) (by
      intro h5
      have := h2 (by omega)
      rw [getD_append_left bs c 4 (by omega)] at this
      omega)
    have hstep := mid_step s0 (feed s0 bs).1 bs c hprev.1 hlen (by omega) h2
    have hacc := mid_accept s0 (feed s0 bs).1 bs c hprev.1 hlen (by omega)
    have hlat := latch_accept s0 (feed s0 bs).1 bs c hprev.1 hprev.2.1 hlen (by omega)
    rw [feed_snoc, hstep, hprev.2.2]
    exact ⟨hacc.1, hlat, rfl⟩

theorem mnet_byte_eq (s : State) (c : Nat) :
    mnet_byte s c =
      if (do_filters (accept s c).1).skipping_packet = false ∧
          5 ≤ (do_filters (accept s c).1).raw_datacount then
        ((handshake (check_crc (do_filters (accept s c).1)).1 c).1,
         (accept s c).2 ++ (check_crc (do_filters (accept s c).1)).2 ++
           (handshake (check_crc (do_filters (accept s c).1)).1 c).2)
      else (do_filters (accept s c).1, (accept s c).2) := rfl

theorem check_crc_off (t : State) (h : t.raw_datacount ≠ 6 + t.data_length) :
    check_crc t = (t, []) := by
  simp [check_crc, h]

theorem check_crc_at (t : State) (h : t.raw_datacount = 6 + t.data_length) :
    check_crc t =
      if t.crc = 0 then (t, [])
      else ({ t with skipping_packet := true, crc := 0 }, [Event.badChecksum (dump t)]) := by
  unfold check_crc
  rw [if_pos h]
  by_cases hz : t.crc = 0 <;> simp [hz]

theorem handshake_off (t : State) (c : Nat) (h : t.raw_datacount ≠ 7 + t.data_length) :
    handshake t c = (t, []) := by
  simp [handshake, h]

theorem check_crc_count (t : State) : (check_crc t).1.raw_datacount = t.raw_datacount := by
  unfold check_crc; split_ifs <;> rfl

theorem check_crc_rawdata (t : State) : (check_crc t).1.rawdata = t.rawdata := by
  unfold check_crc; split_ifs <;> rfl

theorem check_crc_data_length (t : State) : (check_crc t).1.data_length = t.data_length := by
  simp [State.data_length, State.byte, check_crc_rawdata]

/-- A turn that reaches the checksum position does the checksum test only. -/
theorem mnet_byte_checksum (s : State) (c : Nat)
    (hs : (accept s c).1.skipping_packet = false)
    (h6 : (accept s c).1.raw_datacount = 6 + (accept s c).1.data_length) :
    mnet_byte s c =
      ((check_crc (accept s c).1).1, (accept s c).2 ++ (check_crc (accept s c).1).2) := by
  rw [mnet_byte_eq, do_filters_off _ (Or.inr (by omega)), if_pos ⟨hs, by omega⟩,
    handshake_off _ c (by rw [check_crc_count, check_crc_data_length]; omega)]
  simp

/-- A turn that reaches the handshake position skips the checksum test. -/
theorem mnet_byte_handshake (s : State) (c : Nat)
    (hs : (accept s c).1.skipping_packet = false)
    (h7 : (accept s c).1.raw_datacount = 7 + (accept s c).1.data_length) :
    mnet_byte s c =
      ((handshake (accept s c).1 c).1, (accept s c).2 ++ (handshake (accept s c).1 c).2) := by
  rw [mnet_byte_eq, do_filters_off _ (Or.inr (by omega)), if_pos ⟨hs, by omega⟩,
    check_crc_off _ (by omega)]
  simp

/-- The turn that stores the byte at the checksum position `6 + data_length`. -/
theorem checksum_step (s0 s : State) (bs : List Nat) (c : Nat) (h : Mid s0 bs s)
    (hlen : s0.rawdata.length = RAW_SIZE) (hlt : bs.length < MAX_DATA)
    (hd : bs.length = 5 + bs.getD 4 0) :
    mnet_byte s c =
      if (bs ++ [c]).sum % 256 = 0 then (do_filters (accept s c).1, [])
      else ({ do_filters (accept s c).1 with skipping_packet := true, crc := 0 },
            [Event.badChecksum (bs ++ [c])]) := by
  have hm := mid_accept s0 s bs c h hlen hlt
  have hoff : do_filters (accept s c).1 = (accept s c).1 :=
    do_filters_off _ (Or.inr (by have := hm.1.count; simp at this; omega))
  rw [hoff] at hm ⊢
  have hl : (bs ++ [c]).length ≤ (accept s c).1.rawdata.length := by
    rw [hm.1.len, hlen]; simp [RAW_SIZE, MAX_DATA] at *; omega
  have htd := mid_data_length s0 _ _ hm.1 (by simp; omega)
  rw [getD_append_left bs c 4 (by omega)] at htd
  have hlen1 : (bs ++ [c]).length = bs.length + 1 := by simp
  have h6 : (accept s c).1.raw_datacount = 6 + (accept s c).1.data_length := by
    rw [hm.1.count, htd, hlen1]; omega
  rw [mnet_byte_checksum s c hm.1.skip h6, hm.2, check_crc_at _ h6, hm.1.crc,
    mid_dump s0 _ _ hm.1 hl]
  by_cases hz : (bs ++ [c]).sum % 256 = 0
  · simp only [if_pos hz, List.append_nil]
  · simp only [if_neg hz, List.nil_append]

/-- The turn that stores the byte at the handshake position `7 + data_length`. -/
theorem handshake_step (s0 s : State) (bs : List Nat) (c : Nat) (h : Mid s0 bs s)
    (hlen : s0.rawdata.length = RAW_SIZE) (hlt : bs.length < MAX_DATA)
    (hd : bs.length = 6 + bs.getD 4 0) :
    mnet_byte s c = handshake (accept s c).1 c ∧
      Mid s0 (bs ++ [c]) (accept s c).1 ∧
      (accept s c).1.raw_datacount = 7 + (accept s c).1.data_length := by
  have hm := mid_accept s0 s bs c h hlen hlt
  have hoff : do_filters (accept s c).1 = (accept s c).1 :=
    do_filters_off _ (Or.inr (by have := hm.1.count; simp at this; omega))
  rw [hoff] at hm
  have htd := mid_data_length s0 _ _ hm.1 (by simp; omega)
  rw [getD_append_left bs c 4 (by omega)] at htd
  have hlen1 : (bs ++ [c]).length = bs.length + 1 := by simp
  have h7 : (accept s c).1.raw_datacount = 7 + (accept s c).1.data_length := by
    rw [hm.1.count, htd, hlen1]; omega
  refine ⟨?_, hm.1, h7⟩
  rw [mnet_byte_handshake s c hm.1.skip h7, hm.2]
  rfl

theorem search_getsetpoint (rd : List Nat) (h4 : rd.getD 4 0 = 2) (h5 : rd.getD 5 0 = 0x25)
    (h6 : rd.getD 6 0 = 0x01) : search rd pkt_formats = Dispatch.call Variant.getsetpoint := by
  simp only [List.getD_eq_getElem?_getD] at h4 h5 h6
  simp +decide [search, pkt_formats, Format.hit, MAX_CMDSIZE, M, List.range_succ, h4, h5, h6]

/-! ## The handshake position -/

theorem showtime_dump (t : State) : dump (showtime t) = dump t := by
  unfold showtime; split_ifs <;> rfl

theorem showtime_byte (t : State) (i : Nat) : (showtime t).byte i = t.byte i := by
  unfold showtime; split_ifs <;> rfl

theorem showtime_rawdata (t : State) : (showtime t).rawdata = t.rawdata := by
  unfold showtime; split_ifs <;> rfl

theorem decode_packet_count (t : State) : (decode_packet t).1.raw_datacount = 0 := rfl

theorem decode_packet_newline (t : State) : (decode_packet t).1.did_newline = true := rfl

theorem decode_packet_rawdata (t : State) :
    (decode_packet t).1.rawdata = t.rawdata.set 4 (min 16 t.data_length) := rfl

theorem decode_packet_text (t : State) :
    (decode_packet t).2.text =
      (search (t.rawdata.set 4 (min 16 t.data_length)) pkt_formats).text
        { t with rawdata := t.rawdata.set 4 (min 16 t.data_length) } := rfl

theorem handshake_events (t : State) (c : Nat) (h7 : t.raw_datacount = 7 + t.data_length) :
    (handshake t c).2 =
      (if t.filtering_packet = false then
        [Event.frameReady t.did_newline (dump t) (decode_packet (showtime t)).2] else []) ++
      (if c = NAK then [Event.nak] else if c = ACK then [] else [Event.missingHandshake]) := by
  unfold handshake
  rw [if_pos h7]
  simp only [ACK, NAK]
  by_cases hf : t.filtering_packet = false <;> by_cases hn : c = 33 <;>
    by_cases hk : c = 6 <;> simp [ACK, NAK, hf, hn, hk, showtime_dump]

theorem handshake_count (t : State) (c : Nat) (h7 : t.raw_datacount = 7 + t.data_length) :
    (handshake t c).1.raw_datacount = if c = NAK ∨ c = ACK then 0 else 1 := by
  unfold handshake
  rw [if_pos h7]
  simp only [ACK, NAK]
  by_cases hn : c = 33 <;> by_cases hk : c = 6 <;> simp [ACK, NAK, hn, hk]

theorem handshake_crc (t : State) (c : Nat) (h7 : t.raw_datacount = 7 + t.data_length) :
    (handshake t c).1.crc = if c = NAK ∨ c = ACK then 0 else c := by
  unfold handshake
  rw [if_pos h7]
  simp only [ACK, NAK]
  by_cases hn : c = 33 <;> by_cases hk : c = 6 <;> simp [ACK, NAK, hn, hk]

theorem handshake_latch (t : State) (c : Nat) (h7 : t.raw_datacount = 7 + t.data_length) :
    (handshake t c).1.filtering_packet = false := by
  unfold handshake
  rw [if_pos h7]
  simp only [ACK, NAK]
  by_cases hn : c = 33 <;> by_cases hk : c = 6 <;> simp [ACK, NAK, hn, hk]

theorem handshake_skipping (t : State) (c : Nat) :
    (handshake t c).1.skipping_packet = t.skipping_packet := by
  unfold handshake
  simp only [ACK, NAK]
  by_cases hf : t.filtering_packet = false <;> by_cases hn : c = 33 <;>
    by_cases hk : c = 6 <;> split_ifs <;> simp [ACK, NAK, hf, decode_packet, clamp_length, newline, showtime]
  all_goals split_ifs <;> rfl

theorem handshake_unit (t : State) (c : Nat) :
    (handshake t c).1.filter_unit = t.filter_unit := by
  unfold handshake
  simp only [ACK, NAK]
  by_cases hf : t.filtering_packet = false <;> by_cases hn : c = 33 <;>
    by_cases hk : c = 6 <;> split_ifs <;> simp [ACK, NAK, hf, decode_packet, clamp_length, newline, showtime]
  all_goals split_ifs <;> rfl

theorem handshake_length (t : State) (c : Nat) :
    (handshake t c).1.rawdata.length = t.rawdata.length := by
  unfold handshake
  simp only [ACK, NAK]
  by_cases hf : t.filtering_packet = false <;> by_cases hn : c = 33 <;>
    by_cases hk : c = 6 <;> split_ifs <;> simp [ACK, NAK, hf, decode_packet, clamp_length, newline, showtime_rawdata]

theorem handshake_newline (t : State) (c : Nat) (h7 : t.raw_datacount = 7 + t.data_length) :
    (handshake t c).1.did_newline = if t.filtering_packet = false then true else t.did_newline := by
  unfold handshake
  rw [if_pos h7]
  simp only [ACK, NAK]
  by_cases hf : t.filtering_packet = false <;> by_cases hn : c = 33 <;>
    by_cases hk : c = 6 <;> simp [ACK, NAK, hf, hn, hk, decode_packet, clamp_length, newline]

theorem handshake_byte0 (t : State) (c : Nat) (h7 : t.raw_datacount = 7 + t.data_length)
    (hn : c ≠ NAK) (hk : c ≠ ACK) (hl : 0 < t.rawdata.length) :
    (handshake t c).1.byte 0 = c := by
  unfold handshake
  rw [if_pos h7]
  by_cases hf : t.filtering_packet = false <;>
    simp [hf, hn, hk, State.byte, decode_packet_rawdata, showtime_rawdata, hl]

/-! ## The invariant of the main loop -/

theorem inv_init (u : Int) : Inv u (init u) := by
  constructor <;> simp [init, RAW_SIZE, MAX_DATA]

theorem inv_mid (u : Int) (s : State) (h : Inv u s) (hs : s.skipping_packet = false) :
    Mid s (s.rawdata.take s.raw_datacount) s := by
  have hle : s.raw_datacount ≤ s.rawdata.length := by
    have := h.cnt; rw [h.len]; simp [RAW_SIZE, MAX_DATA] at *; omega
  have hl : (s.rawdata.take s.raw_datacount).length = s.raw_datacount :=
    List.length_take_of_le hle
  constructor
  · rw [hl]
  · exact h.sum hs
  · rw [hl]
  · rfl
  · exact hs
  · rfl
  · rfl
  · rfl
  · rfl

theorem accept_eq (s : State) (c : Nat) :
    accept s c =
      if s.raw_datacount < MAX_DATA then
        ({ s with crc := (s.crc + c) % 256, rawdata := s.rawdata.set s.raw_datacount c,
                  raw_datacount := s.raw_datacount + 1 }, [])
      else if s.skipping_packet = false then
        ({ s with crc := (s.crc + c) % 256, skipping_packet := true }, [Event.overflow])
      else ({ s with crc := (s.crc + c) % 256 }, []) := rfl

theorem accept_skipping_mono (s : State) (c : Nat) (h : s.skipping_packet = true) :
    (accept s c).1.skipping_packet = true := by
  rw [accept_eq]; split_ifs <;> simp_all

theorem accept_latch (s : State) (c : Nat) :
    (accept s c).1.filtering_packet = s.filtering_packet := by
  rw [accept_eq]; split_ifs <;> rfl

theorem accept_unit (s : State) (c : Nat) : (accept s c).1.filter_unit = s.filter_unit := by
  rw [accept_eq]; split_ifs <;> rfl

theorem accept_newline (s : State) (c : Nat) : (accept s c).1.did_newline = s.did_newline := by
  rw [accept_eq]; split_ifs <;> rfl

theorem accept_length (s : State) (c : Nat) :
    (accept s c).1.rawdata.length = s.rawdata.length := by
  rw [accept_eq]; split_ifs <;> simp

theorem accept_crc (s : State) (c : Nat) : (accept s c).1.crc = (s.crc + c) % 256 := by
  rw [accept_eq]; split_ifs <;> rfl

theorem accept_count_le (s : State) (c : Nat) (h : s.raw_datacount ≤ MAX_DATA) :
    (accept s c).1.raw_datacount ≤ MAX_DATA := by
  rw [accept_eq]; split_ifs <;> simp <;> omega

theorem accept_bytes (s : State) (c : Nat) (hc : c < 256) (h : ∀ b ∈ s.rawdata, b < 256) :
    ∀ b ∈ (accept s c).1.rawdata, b < 256 := by
  rw [accept_eq]
  split_ifs
  · intro b hb
    rcases List.mem_or_eq_of_mem_set hb with hb | hb
    · exact h b hb
    · rw [hb]; exact hc
  · exact h
  · exact h

theorem do_filters_latch_off (t : State) (h : t.filter_unit = -1) : do_filters t = t := by
  simp [do_filters, h]

/-- A turn in which the packet is being skipped (or starts to be skipped because
there is too much data) keeps the invariant and prints what `accept` printed. -/
theorem inv_skipping (u : Int) (s : State) (c : Nat) (h : Inv u s) (hc : c < 256)
    (hk : (accept s c).1.skipping_packet = true) :
    mnet_byte s c = ((accept s c).1, (accept s c).2) ∧ Inv u (accept s c).1 := by
  refine ⟨?_, ?_⟩
  · rw [mnet_byte_pass s c (Or.inl hk), do_filters_off _ (Or.inl hk)]
  · constructor
    · rw [accept_length, h.len]
    · exact accept_count_le s c h.cnt
    · rw [accept_unit, h.unit]
    · rw [accept_newline, h.nl]
    · exact accept_bytes s c hc h.bytes
    · rw [accept_crc]; exact Nat.mod_lt _ (by norm_num)
    · intro hu; rw [accept_latch]; exact h.latch hu
    · intro hf; rw [hk] at hf; cases hf
    · intro hf; rw [hk] at hf; cases hf
    · intro hf; rw [hk] at hf; cases hf

theorem inv_take_length (u : Int) (s : State) (h : Inv u s) :
    (s.rawdata.take s.raw_datacount).length = s.raw_datacount := by
  apply List.length_take_of_le
  have := h.cnt; rw [h.len]; simp [RAW_SIZE, MAX_DATA] at *; omega

/-- The invariant for a state in which one more byte has been stored. -/
theorem inv_stored (u : Int) (s t : State) (c : Nat) (h : Inv u s) (hc : c < 256)
    (hlt : s.raw_datacount < MAX_DATA)
    (hm : Mid s (s.rawdata.take s.raw_datacount ++ [c]) t)
    (hraw : t.rawdata = (accept s c).1.rawdata)
    (hlat : u = -1 → t.filtering_packet = false)
    (hpos : 5 ≤ t.raw_datacount → t.raw_datacount ≤ 6 + t.data_length)
    (hchk : t.raw_datacount = 6 + t.data_length → t.crc = 0) : Inv u t := by
  have hl := inv_take_length u s h
  have hcount : t.raw_datacount = s.raw_datacount + 1 := by
    rw [hm.count, List.length_append, hl]; rfl
  constructor
  · rw [hm.len, h.len]
  · rw [hcount]; omega
  · rw [hm.unit, h.unit]
  · rw [hm.nl, h.nl]
  · rw [hraw]; exact accept_bytes s c hc h.bytes
  · rw [hm.crc]; exact Nat.mod_lt _ (by norm_num)
  · exact hlat
  · intro _
    have hb := hm.buf
    rw [← hm.count] at hb
    rw [hb, hm.crc]
  · intro _; exact hpos
  · intro _; exact hchk

/-- The invariant for a state in which one more byte has been stored and the
checksum test has failed. -/
theorem inv_stored_skip (u : Int) (s t : State) (c : Nat) (h : Inv u s) (hc : c < 256)
    (hlt : s.raw_datacount < MAX_DATA)
    (hm : Mid s (s.rawdata.take s.raw_datacount ++ [c]) t)
    (hraw : t.rawdata = (accept s c).1.rawdata)
    (hlat : u = -1 → t.filtering_packet = false) :
    Inv u { t with skipping_packet := true, crc := 0 } := by
  have hl := inv_take_length u s h
  have hcount : t.raw_datacount = s.raw_datacount + 1 := by
    rw [hm.count, List.length_append, hl]; rfl
  constructor
  · show t.rawdata.length = RAW_SIZE
    rw [hm.len, h.len]
  · show t.raw_datacount ≤ MAX_DATA
    rw [hcount]; omega
  · show t.filter_unit = u
    rw [hm.unit, h.unit]
  · show t.did_newline = true
    rw [hm.nl, h.nl]
  · show ∀ b ∈ t.rawdata, b < 256
    rw [hraw]; exact accept_bytes s c hc h.bytes
  · show 0 < 256
    norm_num
  · exact hlat
  · intro hf; cases hf
  · intro hf; cases hf
  · intro hf; cases hf

theorem handshake_bytes (t : State) (c : Nat) (hc : c < 256) (h : ∀ b ∈ t.rawdata, b < 256) :
    ∀ b ∈ (handshake t c).1.rawdata, b < 256 := by
  have h16 : ∀ b ∈ (decode_packet (showtime t)).1.rawdata, b < 256 := by
    intro b hb
    rw [decode_packet_rawdata, showtime_rawdata] at hb
    rcases List.mem_or_eq_of_mem_set hb with hb | hb
    · exact h b hb
    · rw [hb]; exact lt_of_le_of_lt (Nat.min_le_left _ _) (by norm_num)
  have hset : ∀ (l : List Nat), (∀ b ∈ l, b < 256) → ∀ b ∈ l.set 0 c, b < 256 := by
    intro l hl b hb
    rcases List.mem_or_eq_of_mem_set hb with hb | hb
    · exact hl b hb
    · rw [hb]; exact hc
  unfold handshake
  by_cases hf : t.filtering_packet = false
  · split_ifs <;> first | exact h | exact h16 | exact hset _ h16
  · split_ifs <;> first | exact h | exact h16 | exact hset _ h16 | exact hset _ h

theorem handshake_take (t : State) (c : Nat) (h7 : t.raw_datacount = 7 + t.data_length)
    (hl : 0 < t.rawdata.length) (hc : c < 256) :
    (handshake t c).1.crc =
      ((handshake t c).1.rawdata.take (handshake t c).1.raw_datacount).sum % 256 := by
  rw [handshake_count t c h7, handshake_crc t c h7]
  by_cases hx : c = NAK ∨ c = ACK
  · simp [hx]
  · rw [if_neg hx, if_neg hx]
    have hb := handshake_byte0 t c h7 (fun e => hx (Or.inl e)) (fun e => hx (Or.inr e)) hl
    have hlen := handshake_length t c
    unfold State.byte at hb
    cases hr : (handshake t c).1.rawdata with
    | nil => rw [hr] at hlen; simp at hlen; omega
    | cons a rest =>
      rw [hr] at hb
      simp at hb
      simp [hb]
      omega

/-- The turn of the loop in which a byte is stored: the invariant is kept and
every packet printed is complete with a valid checksum. -/
theorem inv_store (u : Int) (s : State) (c : Nat) (h : Inv u s) (hc : c < 256)
    (hs : s.skipping_packet = false) (hlt : s.raw_datacount < MAX_DATA) :
    Inv u (mnet_byte s c).1 ∧
      ∀ tm b d, Event.frameReady tm b d ∈ (mnet_byte s c).2 → Sound b := by
  have hl := inv_take_length u s h
  have hmid := inv_mid u s h hs
  have hlt' : (s.rawdata.take s.raw_datacount).length < MAX_DATA := by rw [hl]; exact hlt
  have hacc := mid_accept s s _ c hmid h.len hlt'
  have hlat : u = -1 → (do_filters (accept s c).1).filtering_packet = false := by
    intro hu
    rw [do_filters_latch_off _ (by rw [accept_unit, h.unit, hu]), accept_latch]
    exact h.latch hu
  have hraw : (do_filters (accept s c).1).rawdata = (accept s c).1.rawdata := by simp
  have hlen1 : (s.rawdata.take s.raw_datacount ++ [c]).length = s.raw_datacount + 1 := by
    rw [List.length_append, hl]; rfl
  have hcount : (do_filters (accept s c).1).raw_datacount = s.raw_datacount + 1 := by
    rw [hacc.1.count, hlen1]
  -- the data length seen after this byte
  by_cases h5 : 5 ≤ s.raw_datacount + 1
  swap
  · -- still in the header
    have hstep := mid_step s s _ c hmid h.len hlt' (by rw [hl]; intro h'; omega)
    rw [hstep]
    refine ⟨inv_stored u s _ c h hc hlt hacc.1 hraw hlat ?_ ?_, ?_⟩
    · rw [hcount]; intro h'; omega
    · rw [hcount]; intro h'; omega
    · intro tm b d hmem; simp at hmem
  have hdl := mid_data_length s _ _ hacc.1 (by rw [hlen1]; exact h5)
  have hposs : s.raw_datacount + 1 ≤
      7 + (s.rawdata.take s.raw_datacount ++ [c]).getD 4 0 := by
    by_cases h4 : s.raw_datacount = 4
    · omega
    · have h5' : 5 ≤ s.raw_datacount := by omega
      have := h.pos hs h5'
      rw [mid_data_length s _ _ hmid (by rw [hl]; exact h5')] at this
      rw [getD_append_left _ c 4 (by rw [hl]; omega)]
      omega
  rcases Nat.lt_or_ge (s.raw_datacount + 1) (6 + (s.rawdata.take s.raw_datacount ++ [c]).getD 4 0)
    with hlow | hhigh
  · -- a data byte
    have hstep := mid_step s s _ c hmid h.len hlt' (by rw [hl]; intro _; omega)
    rw [hstep]
    refine ⟨inv_stored u s _ c h hc hlt hacc.1 hraw hlat ?_ ?_, ?_⟩
    · rw [hcount, hdl]; intro _; omega
    · rw [hcount, hdl]; intro h'; omega
    · intro tm b d hmem; simp at hmem
  have h5' : 5 ≤ s.raw_datacount := by
    by_contra hn
    have h4 : s.raw_datacount = 4 := by omega
    omega
  have hD : (s.rawdata.take s.raw_datacount ++ [c]).getD 4 0 =
      (s.rawdata.take s.raw_datacount).getD 4 0 :=
    getD_append_left _ c 4 (by rw [hl]; omega)
  rw [hD] at hhigh hposs
  rcases Nat.eq_or_lt_of_le hhigh with heq | hgt
  · -- the checksum byte
    have hstep := checksum_step s s _ c hmid h.len hlt' (by rw [hl]; omega)
    rw [hstep]
    by_cases hz : (s.rawdata.take s.raw_datacount ++ [c]).sum % 256 = 0
    · rw [if_pos hz]
      refine ⟨inv_stored u s _ c h hc hlt hacc.1 hraw hlat ?_ ?_, ?_⟩
      · rw [hcount, hdl, hD]; intro _; omega
      · intro _; rw [hacc.1.crc]; exact hz
      · intro tm b d hmem; simp at hmem
    · rw [if_neg hz]
      refine ⟨inv_stored_skip u s _ c h hc hlt hacc.1 hraw hlat, ?_⟩
      intro tm b d hmem; simp at hmem
  · -- the handshake byte
    have hn : (s.rawdata.take s.raw_datacount).length =
        6 + (s.rawdata.take s.raw_datacount).getD 4 0 := by rw [hl]; omega
    obtain ⟨hstep, hm, h7⟩ := handshake_step s s _ c hmid h.len hlt' hn
    have hlen0 : 0 < (accept s c).1.rawdata.length := by
      rw [accept_length, h.len]; simp [RAW_SIZE]
    rw [hstep]
    refine ⟨?_, ?_⟩
    · have hcnt : (handshake (accept s c).1 c).1.raw_datacount ≤ 1 := by
        rw [handshake_count _ c h7]; split_ifs <;> omega
      constructor
      · rw [handshake_length, accept_length, h.len]
      · simp [MAX_DATA]; omega
      · rw [handshake_unit, accept_unit, h.unit]
      · rw [handshake_newline _ c h7, accept_newline, h.nl]; simp
      · exact handshake_bytes _ c hc (accept_bytes s c hc h.bytes)
      · rw [handshake_crc _ c h7]; split_ifs <;> omega
      · intro _; exact handshake_latch _ c h7
      · intro _; exact handshake_take _ c h7 hlen0 hc
      · intro _ h'; omega
      · intro _ h'; omega
    · intro tm b d hmem
      rw [handshake_events _ c h7] at hmem
      have hb : b = dump (accept s c).1 := by
        by_cases hf : (accept s c).1.filtering_packet = false
        · rw [if_pos hf] at hmem
          by_cases h33 : c = NAK
          · rw [if_pos h33] at hmem; simp at hmem; exact hmem.2.1
          · rw [if_neg h33] at hmem
            by_cases h6 : c = ACK
            · rw [if_pos h6] at hmem; simp at hmem; exact hmem.2.1
            · rw [if_neg h6] at hmem; simp at hmem; exact hmem.2.1
        · rw [if_neg hf] at hmem
          by_cases h33 : c = NAK
          · rw [if_pos h33] at hmem; simp at hmem
          · rw [if_neg h33] at hmem
            by_cases h6 : c = ACK
            · rw [if_pos h6] at hmem; simp at hmem
            · rw [if_neg h6] at hmem; simp at hmem
      have hdump := mid_dump s _ _ hm (by
        rw [hlen1, accept_length, h.len]; simp [RAW_SIZE, MAX_DATA] at *; omega)
      rw [hb, hdump]
      have hcrc0 : s.crc = 0 := by
        apply h.chk hs
        rw [mid_data_length s _ _ hmid (by rw [hl]; exact h5')]
        omega
      have hsum := h.sum hs
      rw [hcrc0] at hsum
      refine ⟨?_, ?_⟩
      · rw [hlen1, hD]; omega
      · rw [hD, List.take_left' (by rw [hl]; omega)]
        exact hsum.symm

theorem accept_no_frame (s : State) (c : Nat) (tm : Bool) (b : List Nat) (d : Decoded) :
    Event.frameReady tm b d ∉ (accept s c).2 := by
  rw [accept_eq]; split_ifs <;> simp

/-- Every turn in which a byte came in keeps the invariant, and every packet it
prints is complete with a valid checksum. -/
theorem inv_byte (u : Int) (s : State) (c : Nat) (h : Inv u s) (hc : c < 256) :
    Inv u (mnet_byte s c).1 ∧
      ∀ tm b d, Event.frameReady tm b d ∈ (mnet_byte s c).2 → Sound b := by
  cases hk : (accept s c).1.skipping_packet with
  | true =>
    obtain ⟨he, hi⟩ := inv_skipping u s c h hc hk
    rw [he]
    exact ⟨hi, fun tm b d hmem => absurd hmem (accept_no_frame s c tm b d)⟩
  | false =>
    have hs : s.skipping_packet = false := by
      cases hs : s.skipping_packet with
      | false => rfl
      | true => rw [accept_skipping_mono s c hs] at hk; cases hk
    have hlt : s.raw_datacount < MAX_DATA := by
      by_contra hn
      rw [accept_full s c hn] at hk
      cases hk
    exact inv_store u s c h hc hs hlt

/-- With the invariant, a turn in which no byte came in changes nothing. -/
theorem idle_noop (u : Int) (s : State) (h : Inv u s) : mnet_idle s = (s, []) := by
  simp [mnet_idle, h.nl]

theorem inv_poll (u : Int) (s : State) (i : Option Nat) (h : Inv u s)
    (hi : ∀ c, i = some c → c < 256) :
    Inv u (poll s i).1 ∧ ∀ tm b d, Event.frameReady tm b d ∈ (poll s i).2 → Sound b := by
  cases i with
  | none =>
    show Inv u (mnet_idle s).1 ∧ ∀ tm b d, Event.frameReady tm b d ∈ (mnet_idle s).2 → Sound b
    rw [idle_noop u s h]
    exact ⟨h, fun tm b d hmem => by simp at hmem⟩
  | some c => exact inv_byte u s c h (hi c rfl)

theorem bytes_cons (i : Option Nat) (rest : List (Option Nat)) (h : Bytes (i :: rest)) :
    (∀ c, i = some c → c < 256) ∧ Bytes rest := by
  refine ⟨?_, ?_⟩
  · intro c hc; exact h c (by simp [hc])
  · intro c hc; exact h c (by simp [hc])

theorem inv_run (u : Int) (ins : List (Option Nat)) :
    ∀ s, Inv u s → Bytes ins →
      Inv u (run s ins).1 ∧ ∀ tm b d, Event.frameReady tm b d ∈ (run s ins).2 → Sound b := by
  induction ins with
  | nil => intro s h _; exact ⟨h, fun tm b d hmem => by simp [run] at hmem⟩
  | cons i rest ih =>
    intro s h hb
    obtain ⟨hi, hrest⟩ := bytes_cons i rest hb
    have hp := inv_poll u s i h hi
    have hr := ih (poll s i).1 hp.1 hrest
    refine ⟨hr.1, ?_⟩
    intro tm b d hmem
    simp only [run, List.mem_append] at hmem
    rcases hmem with hmem | hmem
    · exact hp.2 tm b d hmem
    · exact hr.2 tm b d hmem

theorem reachable_inv (u : Int) (s : State) (hr : Reachable u s) : Inv u s := by
  obtain ⟨ins, hb, rfl⟩ := hr
  exact (inv_run u ins (init u) (inv_init u) hb).1

theorem reachable_init (u : Int) : Reachable u (init u) :=
  ⟨[], fun c hc => by simp at hc, rfl⟩

/-- From an idle state, a packet with at most 13 data bytes and a valid
checksum reaches the handshake position with all its bytes stored. -/
theorem feed_frame (s0 : State) (hc : s0.raw_datacount = 0) (hcrc : s0.crc = 0)
    (hs : s0.skipping_packet = false) (hlen : s0.rawdata.length = RAW_SIZE)
    (body : List Nat) (cs c : Nat) (hbody : body.length = 5 + body.getD 4 0)
    (hlt : body.length + 2 ≤ MAX_DATA) (hsum : (body ++ [cs]).sum % 256 = 0) :
    ∃ t : State, feed s0 (body ++ [cs] ++ [c]) = handshake t c ∧
      Mid s0 (body ++ [cs] ++ [c]) t ∧ Latch s0 (body ++ [cs] ++ [c]) t ∧
      t.raw_datacount = 7 + t.data_length := by
  obtain ⟨hm1, hl1, he1⟩ := feed_mid s0 hc hcrc hs hlen body (by omega) (by intro _; omega)
  have hk := checksum_step s0 (feed s0 body).1 body cs hm1 hlen (by omega) hbody
  rw [if_pos hsum] at hk
  have ha2 := mid_accept s0 (feed s0 body).1 body cs hm1 hlen (by omega)
  have hl2 := latch_accept s0 (feed s0 body).1 body cs hm1 hl1 hlen (by omega)
  have hlen2 : (body ++ [cs]).length = body.length + 1 := by simp
  have hd2 : (body ++ [cs]).length = 6 + (body ++ [cs]).getD 4 0 := by
    rw [hlen2, getD_append_left body cs 4 (by omega)]; omega
  obtain ⟨hstep, hm3, h7⟩ := handshake_step s0 (do_filters (accept (feed s0 body).1 cs).1)
    (body ++ [cs]) c ha2.1 hlen (by rw [hlen2]; omega) hd2
  have hl3 := latch_accept s0 _ (body ++ [cs]) c ha2.1 hl2 hlen (by rw [hlen2]; omega)
  rw [do_filters_off _ (Or.inr (by rw [hm3.count]; simp; omega))] at hl3
  refine ⟨_, ?_, hm3, hl3, h7⟩
  rw [feed_snoc, feed_snoc, he1, hk, hstep]
  simp

/-- Claim C1. With filtering disabled and the framer idle (byte count 0, running
sum 0, not skipping), ingesting the nine bytes role, source, destination,
unclassified byte, 0x02, 0x25, 0x01, a checksum byte that makes the first eight
bytes sum to 0 modulo 256, and ACK prints exactly one packet, whose raw bytes are
those nine and whose command decode is "get setpoint temp", prints no
diagnostic, and leaves the framer idle. -/
theorem valid_getsetpoint_frame (s : State) (hr : Reachable (-1) s)
    (hc : s.raw_datacount = 0) (hcrc : s.crc = 0) (hs : s.skipping_packet = false)
    (role src dst unk cs : Nat)
    (hsum : (role + src + dst + unk + 0x02 + 0x25 + 0x01 + cs) % 256 = 0) :
    ∃ dec : Decoded,
      (feed s [role, src, dst, unk, 0x02, 0x25, 0x01, cs, ACK]).2 =
        [Event.frameReady true [role, src, dst, unk, 0x02, 0x25, 0x01, cs, ACK] dec] ∧
      dec.text = [⟨"get setpoint temp", []⟩] ∧
      (feed s [role, src, dst, unk, 0x02, 0x25, 0x01, cs, ACK]).1.raw_datacount = 0 ∧
      (feed s [role, src, dst, unk, 0x02, 0x25, 0x01, cs, ACK]).1.crc = 0 ∧
      (feed s [role, src, dst, unk, 0x02, 0x25, 0x01, cs, ACK]).1.skipping_packet = false ∧
      (feed s [role, src, dst, unk, 0x02, 0x25, 0x01, cs, ACK]).1.filtering_packet = false := by
  have hi := reachable_inv (-1) s hr
  have hsum' : ([role, src, dst, unk, 0x02, 0x25, 0x01] ++ [cs]).sum % 256 = 0 := by
    simp only [List.cons_append, List.nil_append, List.sum_cons, List.sum_nil]
    rw [← hsum]; congr 1; omega
  obtain ⟨t, hfeed, hm, hl, h7⟩ := feed_frame s hc hcrc hs hi.len
    [role, src, dst, unk, 0x02, 0x25, 0x01] cs ACK (by rfl) (by simp [MAX_DATA]) hsum'
  have hlist : [role, src, dst, unk, 0x02, 0x25, 0x01] ++ [cs] ++ [ACK] =
      [role, src, dst, unk, 0x02, 0x25, 0x01, cs, ACK] := rfl
  rw [hlist] at hfeed hm hl
  have hfilt : t.filtering_packet = false := by
    rw [hl]
    simp [latched, hi.unit, hi.latch rfl]
  have hnl : t.did_newline = true := by rw [hm.nl, hi.nl]
  have hdump : dump t = [role, src, dst, unk, 0x02, 0x25, 0x01, cs, ACK] :=
    mid_dump s t _ hm (by rw [hm.len, hi.len]; simp [RAW_SIZE, MAX_DATA])
  have hlen : 4 < t.rawdata.length := by rw [hm.len, hi.len]; simp [RAW_SIZE, MAX_DATA]
  have hb : ∀ i, i < 9 → t.rawdata.getD i 0 =
      [role, src, dst, unk, 0x02, 0x25, 0x01, cs, ACK].getD i 0 :=
    fun i h => getD_of_take _ _ _ i hm.buf h
  have hb4 := hb 4 (by norm_num)
  have hb5 := hb 5 (by norm_num)
  have hb6 := hb 6 (by norm_num)
  rw [hfeed]
  refine ⟨(decode_packet (showtime t)).2, ?_, ?_, ?_, ?_, ?_, ?_⟩
  · rw [handshake_events t ACK h7, if_pos hfilt, hnl, hdump]
    simp [ACK, NAK]
  · rw [decode_packet_text, showtime_rawdata]
    have hdl : (showtime t).data_length = 2 := by
      show (showtime t).byte 4 = 2
      rw [showtime_byte]; exact hb4
    rw [hdl, search_getsetpoint _
      (by rw [getD_set_eq _ _ _ hlen]; rfl)
      (by rw [getD_set_ne _ _ _ _ (by norm_num)]; exact hb5)
      (by rw [getD_set_ne _ _ _ _ (by norm_num)]; exact hb6)]
    rfl
  · rw [handshake_count t ACK h7]; simp
  · rw [handshake_crc t ACK h7]; simp
  · rw [handshake_skipping, hm.skip]
  · exact handshake_latch t ACK h7

/-- Claim C1, instance: from the initial state with no unit filter, the packet
BD 01 02 3F 02 25 01 D9 followed by ACK (source 0x01, destination 0x02). -/
theorem valid_getsetpoint_frame_witness :
    Reachable (-1) (init (-1)) ∧ (0xBD + 0x01 + 0x02 + 0x3F + 0x02 + 0x25 + 0x01 + 0xD9) % 256 = 0 ∧
    ∃ dec : Decoded,
      (feed (init (-1)) [0xBD, 0x01, 0x02, 0x3F, 0x02, 0x25, 0x01, 0xD9, ACK]).2 =
        [Event.frameReady true [0xBD, 0x01, 0x02, 0x3F, 0x02, 0x25, 0x01, 0xD9, ACK] dec] ∧
      dec.text = [⟨"get setpoint temp", []⟩] ∧
      (feed (init (-1)) [0xBD, 0x01, 0x02, 0x3F, 0x02, 0x25, 0x01, 0xD9, ACK]).1.raw_datacount = 0 ∧
      (feed (init (-1)) [0xBD, 0x01, 0x02, 0x3F, 0x02, 0x25, 0x01, 0xD9, ACK]).1.crc = 0 ∧
      (feed (init (-1)) [0xBD, 0x01, 0x02, 0x3F, 0x02, 0x25, 0x01, 0xD9, ACK]).1.skipping_packet
        = false ∧
      (feed (init (-1)) [0xBD, 0x01, 0x02, 0x3F, 0x02, 0x25, 0x01, 0xD9, ACK]).1.filtering_packet
        = false :=
  ⟨reachable_init (-1), by decide,
   valid_getsetpoint_frame (init (-1)) (reachable_init (-1)) rfl rfl rfl
     0xBD 0x01 0x02 0x3F 0xD9 (by decide)⟩

/-- Claim C2, at a data length of 14: from the initial state with no unit
filter, the packet BD 01 02 3F 0E, fourteen zero data bytes and the checksum F3
that makes the sum 0 modulo 256, followed by ACK. The twenty bytes through the
checksum fill `MAX_DATA` places, so the ACK is not stored: the only thing printed
is the too-much-data message, no packet is printed, and the framer is left
skipping with byte count 20. -/
theorem data_length_14_overflows :
    (0xBD + 0x01 + 0x02 + 0x3F + 14 + 0xF3) % 256 = 0 ∧
    (feed (init (-1))
      [0xBD, 0x01, 0x02, 0x3F, 14, 0, 0, 0, 0, 0, 0, 0, 0, 0, 0, 0, 0, 0, 0, 0xF3, ACK]).2
      = [Event.overflow] ∧
    (feed (init (-1))
      [0xBD, 0x01, 0x02, 0x3F, 14, 0, 0, 0, 0, 0, 0, 0, 0, 0, 0, 0, 0, 0, 0, 0xF3, ACK]).1.skipping_packet
      = true ∧
    (feed (init (-1))
      [0xBD, 0x01, 0x02, 0x3F, 14, 0, 0, 0, 0, 0, 0, 0, 0, 0, 0, 0, 0, 0, 0, 0xF3, ACK]).1.raw_datacount
      = 20 := by
  refine ⟨by decide, by rfl, by rfl, by rfl⟩

/-- Claim C3. In every execution from the initial state, over any sequence of
bytes and no-data turns, every packet printed (raw bytes followed by
`decode_packet`) has exactly `7 + data_length` raw bytes, and its bytes from the
role byte through the checksum byte, the first `6 + data_length`, sum to 0
modulo 256. -/
theorem frame_ready_sound (u : Int) (ins : List (Option Nat)) (hb : Bytes ins)
    (tm : Bool) (b : List Nat) (d : Decoded)
    (hmem : Event.frameReady tm b d ∈ (run (init u) ins).2) :
    b.length = 7 + b.getD 4 0 ∧ (b.take (6 + b.getD 4 0)).sum % 256 = 0 :=
  (inv_run u ins (init u) (inv_init u) hb).2 tm b d hmem

/-- Claim C3, instance: a no-data turn, then the packet BD 01 02 3F 02 25 01 D9
and ACK; the packet printed has 9 = 7 + 2 bytes and its first 8 sum to 0. -/
theorem frame_ready_sound_witness :
    Bytes [none, some 0xBD, some 0x01, some 0x02, some 0x3F, some 0x02, some 0x25, some 0x01,
      some 0xD9, some 0x06] ∧
    Event.frameReady true [0xBD, 0x01, 0x02, 0x3F, 0x02, 0x25, 0x01, 0xD9, 0x06]
        (decode_packet (feed (init (-1)) [0xBD, 0x01, 0x02, 0x3F, 0x02, 0x25, 0x01, 0xD9]).1).2 ∈
      (run (init (-1)) [none, some 0xBD, some 0x01, some 0x02, some 0x3F, some 0x02, some 0x25,
        some 0x01, some 0xD9, some 0x06]).2 ∧
    [0xBD, 0x01, 0x02, 0x3F, 0x02, 0x25, 0x01, 0xD9, 0x06].length =
      7 + [0xBD, 0x01, 0x02, 0x3F, 0x02, 0x25, 0x01, 0xD9, 0x06].getD 4 0 ∧
    ([0xBD, 0x01, 0x02, 0x3F, 0x02, 0x25, 0x01, 0xD9, 0x06].take
      (6 + [0xBD, 0x01, 0x02, 0x3F, 0x02, 0x25, 0x01, 0xD9, 0x06].getD 4 0)).sum % 256 = 0 :=
  have hb : Bytes [none, some 0xBD, some 0x01, some 0x02, some 0x3F, some 0x02, some 0x25,
      some 0x01, some 0xD9, some 0x06] := by
    intro c hc
    simp at hc
    omega
  have hm : Event.frameReady true [0xBD, 0x01, 0x02, 0x3F, 0x02, 0x25, 0x01, 0xD9, 0x06]
        (decode_packet (feed (init (-1)) [0xBD, 0x01, 0x02, 0x3F, 0x02, 0x25, 0x01, 0xD9]).1).2 ∈
      (run (init (-1)) [none, some 0xBD, some 0x01, some 0x02, some 0x3F, some 0x02, some 0x25,
        some 0x01, some 0xD9, some 0x06]).2 := by
    decide
  ⟨hb, hm, frame_ready_sound (-1) _ hb _ _ _ hm⟩

theorem accept_crc_add (s : State) (c : Nat) : (accept s c).1.crc = crc_add s.crc c :=
  accept_crc s c

theorem foldl_crc_add (bs : List Nat) (a : Nat) :
    bs.foldl crc_add a = if bs = [] then a else (a + bs.sum) % 256 := by
  induction bs generalizing a with
  | nil => simp
  | cons b rest ih =>
    simp only [List.foldl_cons, ih, List.sum_cons]
    by_cases hr : rest = []
    · simp [hr, crc_add]
    · simp [hr, crc_add, Nat.add_assoc]

/-- Claim C4. For every byte sequence `bs`, starting from a reset accumulator
(sum 0) and adding with 8-bit wraparound every byte of `bs` and then the byte
`(256 - sum bs) mod 256`, the running sum is 0; so the test made at the checksum
position, `crc != 0`, does not fire: on any state at that position holding this
sum, `check_crc` prints nothing and does not start skipping. -/
theorem checksum_round_trip (bs : List Nat) :
    (bs ++ [((256 - (bs.sum : Int)) % 256).toNat]).foldl crc_add 0 = 0 ∧
    ∀ t : State, t.crc = (bs ++ [((256 - (bs.sum : Int)) % 256).toNat]).foldl crc_add 0 →
      check_crc t = (t, []) := by
  have h0 : (bs ++ [((256 - (bs.sum : Int)) % 256).toNat]).foldl crc_add 0 = 0 := by
    rw [foldl_crc_add, if_neg (by simp), List.sum_append]
    simp only [List.sum_cons, List.sum_nil, Nat.zero_add, Nat.add_zero]
    omega
  refine ⟨h0, ?_⟩
  intro t ht
  rw [h0] at ht
  unfold check_crc
  split_ifs <;> simp_all

/-- Claim C4, instance: the header and data BD 01 02 3F 02 25 01, whose checksum
byte is D9, and the state of the framer after those eight bytes. -/
theorem checksum_round_trip_witness :
    ((256 - (([0xBD, 0x01, 0x02, 0x3F, 0x02, 0x25, 0x01] : List Nat).sum : Int)) % 256).toNat
      = 0xD9 ∧
    ([0xBD, 0x01, 0x02, 0x3F, 0x02, 0x25, 0x01] ++
      [((256 - (([0xBD, 0x01, 0x02, 0x3F, 0x02, 0x25, 0x01] : List Nat).sum : Int)) % 256).toNat]
      ).foldl crc_add 0 = 0 ∧
    check_crc (feed (init (-1)) [0xBD, 0x01, 0x02, 0x3F, 0x02, 0x25, 0x01, 0xD9]).1 =
      ((feed (init (-1)) [0xBD, 0x01, 0x02, 0x3F, 0x02, 0x25, 0x01, 0xD9]).1, []) :=
  ⟨by decide, (checksum_round_trip [0xBD, 0x01, 0x02, 0x3F, 0x02, 0x25, 0x01]).1,
   (checksum_round_trip [0xBD, 0x01, 0x02, 0x3F, 0x02, 0x25, 0x01]).2
     (feed (init (-1)) [0xBD, 0x01, 0x02, 0x3F, 0x02, 0x25, 0x01, 0xD9]).1 (by decide)⟩

/-! ## Skipping -/

theorem feed_cons (s : State) (c : Nat) (bs : List Nat) :
    feed s (c :: bs) =
      ((feed (mnet_byte s c).1 bs).1, (mnet_byte s c).2 ++ (feed (mnet_byte s c).1 bs).2) := rfl

/-- While a packet is being skipped, a byte is only added to the checksum and,
if there is room, stored; nothing is printed. -/
theorem byte_skipping (s : State) (c : Nat) (hs : s.skipping_packet = true) :
    mnet_byte s c = ((accept s c).1, []) ∧ Skip s (accept s c).1 := by
  have hk := accept_skipping_mono s c hs
  have he : (accept s c).2 = [] := by
    rw [accept_eq]; split_ifs <;> simp_all
  refine ⟨?_, ?_⟩
  · rw [mnet_byte_pass s c (Or.inl hk), do_filters_off _ (Or.inl hk), he]
  · by_cases hlt : s.raw_datacount < MAX_DATA
    · rw [accept_store s c hlt]
      constructor
      · exact hs
      · rfl
      · rfl
      · rfl
      · rfl
      · rfl
      · show s.raw_datacount ≤ s.raw_datacount + 1
        omega
      · exact take_set_ge _ _ _ _ (Nat.le_refl _)
      · intro h; exact absurd hlt h
    · rw [accept_full s c hlt]
      constructor
      · rfl
      · rfl
      · rfl
      · rfl
      · rfl
      · rfl
      · exact Nat.le_refl _
      · rfl
      · intro _; exact ⟨rfl, rfl⟩

theorem skip_refl (s : State) (hs : s.skipping_packet = true) : Skip s s :=
  ⟨hs, rfl, rfl, rfl, rfl, rfl, Nat.le_refl _, rfl, fun _ => ⟨rfl, rfl⟩⟩

theorem skip_trans (s t v : State) (h1 : Skip s t) (h2 : Skip t v) : Skip s v := by
  constructor
  · exact h2.skip
  · rw [h2.latch, h1.latch]
  · rw [h2.pf, h1.pf]
  · rw [h2.pt, h1.pt]
  · rw [h2.unit, h1.unit]
  · rw [h2.nl, h1.nl]
  · exact Nat.le_trans h1.count h2.count
  · have := congrArg (List.take s.raw_datacount) h2.kept
    rw [List.take_take, List.take_take, Nat.min_eq_left h1.count] at this
    rw [this, h1.kept]
  · intro hf
    obtain ⟨hr, hc⟩ := h1.full hf
    obtain ⟨hr2, hc2⟩ := h2.full (by rw [hc]; exact hf)
    exact ⟨by rw [hr2, hr], by rw [hc2, hc]⟩

/-- Any number of bytes coming in while a packet is being skipped print nothing
and leave the framer skipping. -/
theorem feed_skipping (bs : List Nat) :
    ∀ s : State, s.skipping_packet = true → (feed s bs).2 = [] ∧ Skip s (feed s bs).1 := by
  induction bs with
  | nil => intro s hs; exact ⟨rfl, skip_refl s hs⟩
  | cons c rest ih =>
    intro s hs
    obtain ⟨he, hk⟩ := byte_skipping s c hs
    obtain ⟨he2, hk2⟩ := ih (accept s c).1 hk.skip
    rw [feed_cons, he]
    exact ⟨by simpa using he2, skip_trans _ _ _ hk hk2⟩

/-- Claim C5, as stated, fails. After the packet BD 01 02 3F 02 25 01 with the
corrupted checksum byte DA has been reported as a bad checksum, the framer is
skipping at byte count 8; an ACK then leaves it skipping with byte count 9 and
running sum 6, and a valid packet sent after the ACK prints nothing. -/
theorem ack_does_not_end_skip :
    (feed (init (-1)) [0xBD, 0x01, 0x02, 0x3F, 0x02, 0x25, 0x01, 0xDA]).2 =
      [Event.badChecksum [0xBD, 0x01, 0x02, 0x3F, 0x02, 0x25, 0x01, 0xDA]] ∧
    (feed (init (-1)) [0xBD, 0x01, 0x02, 0x3F, 0x02, 0x25, 0x01, 0xDA]).1.skipping_packet = true ∧
    (feed (init (-1)) [0xBD, 0x01, 0x02, 0x3F, 0x02, 0x25, 0x01, 0xDA]).1.raw_datacount = 8 ∧
    ¬ ((mnet_byte (feed (init (-1)) [0xBD, 0x01, 0x02, 0x3F, 0x02, 0x25, 0x01, 0xDA]).1 ACK).1.raw_datacount = 0 ∧
       (mnet_byte (feed (init (-1)) [0xBD, 0x01, 0x02, 0x3F, 0x02, 0x25, 0x01, 0xDA]).1 ACK).1.crc = 0 ∧
       (mnet_byte (feed (init (-1)) [0xBD, 0x01, 0x02, 0x3F, 0x02, 0x25, 0x01, 0xDA]).1 ACK).1.skipping_packet
         = false) ∧
    (mnet_byte (feed (init (-1)) [0xBD, 0x01, 0x02, 0x3F, 0x02, 0x25, 0x01, 0xDA]).1 ACK).1.skipping_packet
      = true ∧
    (mnet_byte (feed (init (-1)) [0xBD, 0x01, 0x02, 0x3F, 0x02, 0x25, 0x01, 0xDA]).1 ACK).1.raw_datacount
      = 9 ∧
    (feed (mnet_byte (feed (init (-1)) [0xBD, 0x01, 0x02, 0x3F, 0x02, 0x25, 0x01, 0xDA]).1 ACK).1
      [0xBD, 0x01, 0x02, 0x3F, 0x02, 0x25, 0x01, 0xD9, ACK]).2 = [] := by
  decide

/-- Claim C5, amended. Once the framer is skipping (as after a bad checksum at
byte position `6 + data_length`), no byte ends the skip, ACK included: for every
sequence of bytes that comes in, nothing is printed (so a valid packet among
them is not printed), the framer is still skipping, the byte count has not been
reset, the bytes already stored are still in the buffer, and the filter latch
and the remembered addresses are unchanged, so no byte was taken as a new
header. -/
theorem skipping_persists (s : State) (hs : s.skipping_packet = true) (bs : List Nat) :
    (feed s bs).2 = [] ∧
    (feed s bs).1.skipping_packet = true ∧
    s.raw_datacount ≤ (feed s bs).1.raw_datacount ∧
    (feed s bs).1.rawdata.take s.raw_datacount = s.rawdata.take s.raw_datacount ∧
    (feed s bs).1.filtering_packet = s.filtering_packet ∧
    (feed s bs).1.prev_from_addr = s.prev_from_addr ∧
    (feed s bs).1.prev_to_addr = s.prev_to_addr := by
  obtain ⟨he, hk⟩ := feed_skipping bs s hs
  exact ⟨he, hk.skip, hk.count, hk.kept, hk.latch, hk.pf, hk.pt⟩

/-- Claim C5, amended, instance: the state after the bad checksum above, then
ACK and a valid packet. -/
theorem skipping_persists_witness :
    (feed (init (-1)) [0xBD, 0x01, 0x02, 0x3F, 0x02, 0x25, 0x01, 0xDA]).1.skipping_packet = true ∧
    (feed (feed (init (-1)) [0xBD, 0x01, 0x02, 0x3F, 0x02, 0x25, 0x01, 0xDA]).1
      [ACK, 0xBD, 0x01, 0x02, 0x3F, 0x02, 0x25, 0x01, 0xD9, ACK]).2 = [] ∧
    (feed (feed (init (-1)) [0xBD, 0x01, 0x02, 0x3F, 0x02, 0x25, 0x01, 0xDA]).1
      [ACK, 0xBD, 0x01, 0x02, 0x3F, 0x02, 0x25, 0x01, 0xD9, ACK]).1.skipping_packet = true :=
  ⟨by decide,
   (skipping_persists (feed (init (-1)) [0xBD, 0x01, 0x02, 0x3F, 0x02, 0x25, 0x01, 0xDA]).1
      (by decide) [ACK, 0xBD, 0x01, 0x02, 0x3F, 0x02, 0x25, 0x01, 0xD9, ACK]).1,
   (skipping_persists (feed (init (-1)) [0xBD, 0x01, 0x02, 0x3F, 0x02, 0x25, 0x01, 0xDA]).1
      (by decide) [ACK, 0xBD, 0x01, 0x02, 0x3F, 0x02, 0x25, 0x01, 0xD9, ACK]).2.1⟩

/-- Claim C6, at a concrete run from the initial state: one byte BD, then a
no-data turn. The no-data turn prints nothing and resets nothing (byte count 1,
running sum BD), and the byte 01 that follows is stored as the second byte of
the same packet. The same holds while skipping: after a bad checksum, a no-data
turn leaves the framer skipping. -/
theorem no_data_turn_resets_nothing :
    (run (init (-1)) [some 0xBD]).1.raw_datacount = 1 ∧
    (run (init (-1)) [some 0xBD, none]).2 = [] ∧
    (run (init (-1)) [some 0xBD, none]).1 = (run (init (-1)) [some 0xBD]).1 ∧
    (run (init (-1)) [some 0xBD, none]).1.raw_datacount = 1 ∧
    (run (init (-1)) [some 0xBD, none]).1.crc = 0xBD ∧
    (run (init (-1)) [some 0xBD, none, some 0x01]).1.raw_datacount = 2 ∧
    (run (init (-1)) [some 0xBD, none, some 0x01]).1.crc = 0xBE ∧
    (run (init (-1)) [some 0xBD, some 0x01, some 0x02, some 0x3F, some 0x02, some 0x25,
      some 0x01, some 0xDA, none]).1.skipping_packet = true ∧
    (run (init (-1)) [some 0xBD, some 0x01, some 0x02, some 0x3F, some 0x02, some 0x25,
      some 0x01, some 0xDA, none]).1.raw_datacount = 8 := by
  decide

/-- Checksum test for packets that fit the `MAX_DATA` places the store guard
admits (`d ≤ 14`; longer packets overflow before the test, as evaluated for
`d = 15` further down). From an idle, not skipping framer, for
every `5 + d` bytes `body` whose fifth byte is `d` and every further byte `c`,
with `6 + d ≤ MAX_DATA`: the bytes of `body` print nothing, and
ingesting `c`, the byte at position `6 + d`, prints, when the `6 + d` bytes sum
to a non-zero value modulo 256, exactly one bad-checksum diagnostic listing
those `6 + d` bytes in arrival order and no packet, sets skipping, resets the
running sum to 0 and keeps the byte count and the stored bytes; when the sum is
0 it prints nothing and does not set skipping. -/
theorem bad_checksum_within_max_data (u : Int) (s : State) (hr : Reachable u s)
    (hc : s.raw_datacount = 0) (hcrc : s.crc = 0) (hs : s.skipping_packet = false)
    (body : List Nat) (c : Nat) (hbody : body.length = 5 + body.getD 4 0)
    (hcap : body.length + 1 ≤ MAX_DATA) :
    (feed s body).2 = [] ∧
    ((body ++ [c]).sum % 256 ≠ 0 →
      (mnet_byte (feed s body).1 c).2 = [Event.badChecksum (body ++ [c])] ∧
      (mnet_byte (feed s body).1 c).1.skipping_packet = true ∧
      (mnet_byte (feed s body).1 c).1.crc = 0 ∧
      (mnet_byte (feed s body).1 c).1.raw_datacount = 6 + body.getD 4 0 ∧
      (mnet_byte (feed s body).1 c).1.rawdata.take (6 + body.getD 4 0) = body ++ [c]) ∧
    ((body ++ [c]).sum % 256 = 0 →
      (mnet_byte (feed s body).1 c).2 = [] ∧
      (mnet_byte (feed s body).1 c).1.skipping_packet = false) := by
  have hi := reachable_inv u s hr
  obtain ⟨hm1, _, he1⟩ := feed_mid s hc hcrc hs hi.len body (by omega) (by intro _; omega)
  have hk := checksum_step s (feed s body).1 body c hm1 hi.len (by omega) hbody
  have ha := mid_accept s (feed s body).1 body c hm1 hi.len (by omega)
  have hlen1 : (body ++ [c]).length = 6 + body.getD 4 0 := by
    rw [List.length_append, hbody]; simp; omega
  refine ⟨he1, ?_, ?_⟩
  · intro hz
    rw [hk, if_neg hz]
    refine ⟨rfl, rfl, rfl, ?_, ?_⟩
    · show (do_filters (accept (feed s body).1 c).1).raw_datacount = _
      rw [ha.1.count, hlen1]
    · show (do_filters (accept (feed s body).1 c).1).rawdata.take _ = _
      rw [← hlen1]; exact ha.1.buf
  · intro hz
    rw [hk, if_pos hz]
    exact ⟨rfl, ha.1.skip⟩

/-- Instance of the checksum test for a packet that fits: BD 01 02 3F 02 25 01
and then DA (sum not 0) from the initial state. -/
theorem bad_checksum_within_max_data_witness :
    Reachable (-1) (init (-1)) ∧
    ([0xBD, 0x01, 0x02, 0x3F, 0x02, 0x25, 0x01] ++ [0xDA]).sum % 256 ≠ 0 ∧
    (mnet_byte (feed (init (-1)) [0xBD, 0x01, 0x02, 0x3F, 0x02, 0x25, 0x01]).1 0xDA).2 =
      [Event.badChecksum ([0xBD, 0x01, 0x02, 0x3F, 0x02, 0x25, 0x01] ++ [0xDA])] ∧
    (mnet_byte (feed (init (-1)) [0xBD, 0x01, 0x02, 0x3F, 0x02, 0x25, 0x01]).1 0xDA).1.skipping_packet
      = true :=
  ⟨reachable_init (-1), by decide,
   ((bad_checksum_within_max_data (-1) (init (-1)) (reachable_init (-1)) rfl rfl rfl
      [0xBD, 0x01, 0x02, 0x3F, 0x02, 0x25, 0x01] 0xDA (by decide) (by decide)).2.1
        (by decide)).1,
   ((bad_checksum_within_max_data (-1) (init (-1)) (reachable_init (-1)) rfl rfl rfl
      [0xBD, 0x01, 0x02, 0x3F, 0x02, 0x25, 0x01] 0xDA (by decide) (by decide)).2.1
        (by decide)).2.1⟩

theorem reachable_feed (u : Int) (bs : List Nat) (h : ∀ b ∈ bs, b < 256) :
    Reachable u (feed (init u) bs).1 := by
  refine ⟨bs.map some, ?_, rfl⟩
  intro c hc
  simp at hc
  exact h c hc

/-- Handshake byte of packets whose handshake fits the `MAX_DATA` places the
store guard admits (`data_length ≤ 13`; at byte count 20 the byte is not stored,
as evaluated for `data_length = 14` further down). For every reachable, not skipping
state at the handshake position (byte count `6 + data_length < MAX_DATA`) and
every byte `c`: if `c` is neither ACK nor NAK, ingesting
`c` prints the missing-handshake message and leaves byte count 1, `rawdata[0] = c`,
running sum `c`, skipping clear and the filter latch clear, which are the values
these have after a framer in its initial state ingests `c` alone; if `c` is ACK
or NAK the framer is left with byte count 0 and running sum 0 and the
missing-handshake message is not printed. -/
theorem handshake_step_within_max_data (u : Int) (s : State) (hr : Reachable u s)
    (hs : s.skipping_packet = false) (h6 : s.raw_datacount = 6 + s.data_length)
    (hlt : s.raw_datacount < MAX_DATA) (c : Nat) (hc : c < 256) :
    (c ≠ ACK → c ≠ NAK →
      Event.missingHandshake ∈ (mnet_byte s c).2 ∧
      (mnet_byte s c).1.raw_datacount = 1 ∧
      (mnet_byte s c).1.byte 0 = c ∧
      (mnet_byte s c).1.crc = c ∧
      (mnet_byte s c).1.skipping_packet = false ∧
      (mnet_byte s c).1.filtering_packet = false ∧
      (mnet_byte s c).1.raw_datacount = (mnet_byte (init u) c).1.raw_datacount ∧
      (mnet_byte s c).1.byte 0 = (mnet_byte (init u) c).1.byte 0 ∧
      (mnet_byte s c).1.crc = (mnet_byte (init u) c).1.crc ∧
      (mnet_byte s c).1.skipping_packet = (mnet_byte (init u) c).1.skipping_packet ∧
      (mnet_byte s c).1.filtering_packet = (mnet_byte (init u) c).1.filtering_packet) ∧
    ((c = ACK ∨ c = NAK) →
      Event.missingHandshake ∉ (mnet_byte s c).2 ∧
      (mnet_byte s c).1.raw_datacount = 0 ∧
      (mnet_byte s c).1.crc = 0 ∧
      (mnet_byte s c).1.skipping_packet = false ∧
      (mnet_byte s c).1.filtering_packet = false) := by
  have hi := reachable_inv u s hr
  have hl := inv_take_length u s hi
  have hmid := inv_mid u s hi hs
  have hd := mid_data_length s s _ hmid (by rw [hl]; omega)
  obtain ⟨hstep, hm, h7⟩ := handshake_step s s _ c hmid hi.len (by rw [hl]; exact hlt)
    (by rw [hl, ← hd]; exact h6)
  have hlen0 : 0 < (accept s c).1.rawdata.length := by
    rw [accept_length, hi.len]; simp [RAW_SIZE]
  have hfresh : mnet_byte (init u) c =
      ({ init u with crc := c % 256, rawdata := (init u).rawdata.set 0 c, raw_datacount := 1 },
       []) := by
    rw [mnet_byte_pass (init u) c (Or.inr (Or.inl (by simp [accept_eq, init, MAX_DATA])))]
    rw [do_filters_off _ (Or.inr (by simp [accept_eq, init, MAX_DATA]))]
    simp [accept_eq, init, MAX_DATA]
  rw [hstep]
  refine ⟨?_, ?_⟩
  · intro hk hn
    have hcnt : (handshake (accept s c).1 c).1.raw_datacount = 1 := by
      rw [handshake_count _ c h7, if_neg (by rintro (h | h) <;> contradiction)]
    have hcrc : (handshake (accept s c).1 c).1.crc = c := by
      rw [handshake_crc _ c h7, if_neg (by rintro (h | h) <;> contradiction)]
    have hb0 := handshake_byte0 _ c h7 hn hk hlen0
    have hsk : (handshake (accept s c).1 c).1.skipping_packet = false := by
      rw [handshake_skipping, hm.skip]
    have hla := handshake_latch (accept s c).1 c h7
    refine ⟨?_, hcnt, hb0, hcrc, hsk, hla, ?_, ?_, ?_, ?_, ?_⟩
    · rw [handshake_events _ c h7, if_neg hn, if_neg hk]
      simp
    · rw [hcnt, hfresh]
    · rw [hb0, hfresh]; simp [State.byte, init, RAW_SIZE, MAX_DATA]
    · rw [hcrc, hfresh]; exact (Nat.mod_eq_of_lt hc).symm
    · rw [hsk, hfresh]; rfl
    · rw [hla, hfresh]; rfl
  · intro hx
    refine ⟨?_, ?_, ?_, ?_, ?_⟩
    · rw [handshake_events _ c h7]
      rcases hx with hx | hx
      · have hne : c ≠ NAK := by rw [hx]; decide
        rw [if_neg hne, if_pos hx]
        split_ifs <;> simp
      · rw [if_pos hx]
        split_ifs <;> simp
    · rw [handshake_count _ c h7, if_pos (by tauto)]
    · rw [handshake_crc _ c h7, if_pos (by tauto)]
    · rw [handshake_skipping, hm.skip]
    · exact handshake_latch _ c h7

/-- Instance of the handshake step for a packet that fits: the state after
BD 01 02 3F 02 25 01 D9 (byte count 8 = 6 + 2), and the byte 41, which is neither
ACK nor NAK. -/
theorem handshake_step_within_max_data_witness :
    Reachable (-1) (feed (init (-1)) [0xBD, 0x01, 0x02, 0x3F, 0x02, 0x25, 0x01, 0xD9]).1 ∧
    (feed (init (-1)) [0xBD, 0x01, 0x02, 0x3F, 0x02, 0x25, 0x01, 0xD9]).1.raw_datacount =
      6 + (feed (init (-1)) [0xBD, 0x01, 0x02, 0x3F, 0x02, 0x25, 0x01, 0xD9]).1.data_length ∧
    Event.missingHandshake ∈
      (mnet_byte (feed (init (-1)) [0xBD, 0x01, 0x02, 0x3F, 0x02, 0x25, 0x01, 0xD9]).1 0x41).2 ∧
    (mnet_byte (feed (init (-1)) [0xBD, 0x01, 0x02, 0x3F, 0x02, 0x25, 0x01, 0xD9]).1 0x41
      ).1.raw_datacount = 1 :=
  have hr : Reachable (-1) (feed (init (-1)) [0xBD, 0x01, 0x02, 0x3F, 0x02, 0x25, 0x01, 0xD9]).1 :=
    reachable_feed (-1) _ (by decide)
  ⟨hr, by decide,
   ((handshake_step_within_max_data (-1) _ hr (by decide) (by decide) (by decide) 0x41 (by decide)).1
      (by decide) (by decide)).1,
   ((handshake_step_within_max_data (-1) _ hr (by decide) (by decide) (by decide) 0x41 (by decide)).1
      (by decide) (by decide)).2.1⟩

theorem hit_iff (f : Format) (rd : List Nat) :
    f.hit rd = true ↔
      ∀ i, i < 6 → rd.getD (4 + i) 0 &&& f.mask.getD i 0 = f.val.getD i 0 := by
  simp [Format.hit, MAX_CMDSIZE]

/-- The search loop, for any table: it calls the function of entry `k` exactly
when `k` is the first entry that matches and no entry up to `k` is the
end-of-table entry. -/
theorem search_call_iff (rd : List Nat) (d : Format) (v : Variant) :
    ∀ t : List Format, search rd t = Dispatch.call v ↔
      ∃ k, k < t.length ∧ (t.getD k d).fct = some v ∧ (t.getD k d).hit rd = true ∧
        ∀ j, j < k → (t.getD j d).fct ≠ none ∧ (t.getD j d).hit rd = false := by
  intro t
  induction t with
  | nil => simp [search]
  | cons f rest ih =>
    cases hf : f.fct with
    | none =>
      simp only [search, hf]
      constructor
      · intro h; cases h
      · rintro ⟨k, _, hk, _, hall⟩
        cases k with
        | zero => simp [hf] at hk
        | succ k => have := (hall 0 (by omega)).1; simp [hf] at this
    | some w =>
      simp only [search, hf]
      by_cases hh : f.hit rd = true
      · rw [if_pos hh]
        constructor
        · intro h
          cases h
          exact ⟨0, by simp, by simp [hf], by simpa using hh, fun j hj => by omega⟩
        · rintro ⟨k, _, hk, _, hall⟩
          cases k with
          | zero => simp [hf] at hk; rw [hk]
          | succ k => have := (hall 0 (by omega)).2; simp [hh] at this
      · rw [if_neg hh, ih]
        constructor
        · rintro ⟨k, hlt, hk, hhit, hall⟩
          refine ⟨k + 1, by simpa using hlt, by simpa using hk, by simpa using hhit, ?_⟩
          intro j hj
          cases j with
          | zero => simp [hf]; simpa using hh
          | succ j => simpa using hall j (by omega)
        · rintro ⟨k, hlt, hk, hhit, hall⟩
          cases k with
          | zero => simp at hhit; exact absurd hhit hh
          | succ k =>
            refine ⟨k, by simpa using hlt, by simpa using hk, by simpa using hhit, ?_⟩
            intro j hj
            simpa using hall (j + 1) (by omega)

/-- The search loop, for any table: it ends at the end-of-table entry exactly
when no entry before the first end-of-table entry matches. -/
theorem search_unknown_iff (rd : List Nat) (d : Format) :
    ∀ t : List Format, search rd t = Dispatch.unknown ↔
      ∃ k, k < t.length ∧ (t.getD k d).fct = none ∧
        ∀ j, j < k → (t.getD j d).fct ≠ none ∧ (t.getD j d).hit rd = false := by
  intro t
  induction t with
  | nil => simp [search]
  | cons f rest ih =>
    cases hf : f.fct with
    | none =>
      simp only [search, hf]
      constructor
      · intro _
        exact ⟨0, by simp, by simp [hf], fun j hj => by omega⟩
      · intro _; trivial
    | some w =>
      simp only [search, hf]
      by_cases hh : f.hit rd = true
      · rw [if_pos hh]
        constructor
        · intro h; cases h
        · rintro ⟨k, _, hk, hall⟩
          cases k with
          | zero => simp [hf] at hk
          | succ k => have := (hall 0 (by omega)).2; simp [hh] at this
      · rw [if_neg hh, ih]
        constructor
        · rintro ⟨k, hlt, hk, hall⟩
          refine ⟨k + 1, by simpa using hlt, by simpa using hk, ?_⟩
          intro j hj
          cases j with
          | zero => simp [hf]; simpa using hh
          | succ j => simpa using hall j (by omega)
        · rintro ⟨k, hlt, hk, hall⟩
          cases k with
          | zero => simp [hf] at hk
          | succ k =>
            refine ⟨k, by simpa using hlt, by simpa using hk, ?_⟩
            intro j hj
            simpa using hall (j + 1) (by omega)

/-- The search loop never walks past a table that has an end-of-table entry. -/
theorem search_not_overrun (rd : List Nat) :
    ∀ t : List Format, (∃ f, f ∈ t ∧ f.fct = none) → search rd t ≠ Dispatch.overrun := by
  intro t
  induction t with
  | nil => rintro ⟨f, hf, _⟩; simp at hf
  | cons g rest ih =>
    rintro ⟨f, hf, hn⟩
    cases hg : g.fct with
    | none => simp [search, hg]
    | some w =>
      simp only [search, hg]
      split_ifs
      · simp
      · apply ih
        rcases List.mem_cons.mp hf with h | h
        · rw [h, hg] at hn; cases hn
        · exact ⟨f, h, hn⟩

theorem table_length : pkt_formats.length = 19 := by decide

theorem table_fct (j : Nat) (hj : j < 18) : (entry j).fct ≠ none := by
  have h : ∀ j, j < 18 → (entry j).fct ≠ none := by decide
  exact h j hj

theorem table_end : (entry 18).fct = none := by decide

theorem table_first (k : Nat) (hk : k < 18) :
    (entry k).mask.getD 0 0 = 255 ∧ (entry k).val.getD 0 0 < 16 := by
  have h : ∀ k, k < 18 → (entry k).mask.getD 0 0 = 255 ∧ (entry k).val.getD 0 0 < 16 := by
    decide
  exact h k hk

theorem matches_iff_hit (rd : List Nat) (k : Nat) : Matches rd k ↔ (entry k).hit rd = true :=
  (hit_iff (entry k) rd).symm

theorem clamp_byte4 (s : State) :
    (clamp_length s).rawdata.getD 4 0 = min 16 (s.rawdata.getD 4 0) := by
  show (s.rawdata.set 4 (min 16 (s.rawdata.getD 4 0))).getD 4 0 = _
  by_cases h : 4 < s.rawdata.length
  · exact getD_set_eq _ _ _ h
  · have h0 : s.rawdata.getD 4 0 = 0 := by
      simp only [List.getD_eq_getElem?_getD]
      rw [List.getElem?_eq_none (by omega)]; rfl
    have h1 : (s.rawdata.set 4 (min 16 (s.rawdata.getD 4 0))).getD 4 0 = 0 := by
      simp only [List.getD_eq_getElem?_getD]
      rw [List.getElem?_eq_none (by simp; omega)]; rfl
    rw [h1, h0]; rfl

theorem and_255 (x : Nat) (h : x < 256) : x &&& 255 = x := by
  have := Nat.and_pow_two_sub_one_eq_mod x 8
  norm_num at this
  rw [this]
  exact Nat.mod_eq_of_lt h

/-- Clamping the data length to 16 changes no match: every entry asks for a
first byte below 16 under a complete mask. -/
theorem matches_clamp (s : State) (hb : s.data_length < 256) (k : Nat) (hk : k < 18) :
    Matches (clamp_length s).rawdata k ↔ Matches s.rawdata k := by
  obtain ⟨hm, hv⟩ := table_first k hk
  have hx : s.rawdata.getD 4 0 < 256 := hb
  have h16 : min 16 (s.rawdata.getD 4 0) < 256 :=
    lt_of_le_of_lt (Nat.min_le_left _ _) (by norm_num)
  have hrest : ∀ i, 0 < i → (clamp_length s).rawdata.getD (4 + i) 0 = s.rawdata.getD (4 + i) 0 :=
    fun i hi => getD_set_ne _ _ _ _ (by omega)
  have hzero : ((clamp_length s).rawdata.getD (4 + 0) 0 &&& (entry k).mask.getD 0 0 =
        (entry k).val.getD 0 0) ↔
      (s.rawdata.getD (4 + 0) 0 &&& (entry k).mask.getD 0 0 = (entry k).val.getD 0 0) := by
    show ((clamp_length s).rawdata.getD 4 0 &&& _ = _) ↔ (s.rawdata.getD 4 0 &&& _ = _)
    rw [clamp_byte4, hm, and_255 _ hx, and_255 _ h16]
    constructor
    · intro h
      rcases Nat.le_total 16 (s.rawdata.getD 4 0) with hle | hle
      · rw [Nat.min_eq_left hle] at h; omega
      · rw [Nat.min_eq_right hle] at h; exact h
    · intro h
      rw [h, Nat.min_eq_right (by omega)]
  constructor
  · intro h i hi
    rcases Nat.eq_zero_or_pos i with h0 | hpos
    · subst h0; exact hzero.mp (h 0 hi)
    · rw [← hrest i hpos]; exact h i hi
  · intro h i hi
    rcases Nat.eq_zero_or_pos i with h0 | hpos
    · subst h0; exact hzero.mpr (h 0 hi)
    · rw [hrest i hpos]; exact h i hi

theorem hit_false_iff (rd : List Nat) (k : Nat) : (entry k).hit rd = false ↔ ¬ Matches rd k := by
  rw [matches_iff_hit]; simp

/-- Claim C10. For every packet buffer (whose data-length byte is a byte), the
search of `decode_packet` ends inside the table, and: it calls the decode
function `v` exactly when `v` is the function of the lowest-index entry `k` of
the 18 entries, in declaration order, with `(rawdata[4+i] & mask_k[i]) == val_k[i]`
for all `i` in 0..5; it prints "???" exactly when none of the 18 entries
satisfies this. So when two entries match, the earlier-declared one is taken. -/
theorem dispatch_first_match (s : State) (hb : s.data_length < 256) :
    (decode_packet s).2.text = (dispatch s).text (clamp_length s) ∧
    dispatch s ≠ Dispatch.overrun ∧
    (∀ v, dispatch s = Dispatch.call v ↔
      ∃ k, k < 18 ∧ (entry k).fct = some v ∧ Matches s.rawdata k ∧
        ∀ j, j < k → ¬ Matches s.rawdata j) ∧
    (dispatch s = Dispatch.unknown ↔ ∀ k, k < 18 → ¬ Matches s.rawdata k) ∧
    (dispatch s = Dispatch.unknown → (decode_packet s).2.text = [⟨"???", []⟩]) := by
  refine ⟨rfl, ?_, ?_, ?_, ?_⟩
  · exact search_not_overrun _ pkt_formats ⟨entry 18, by decide, table_end⟩
  · intro v
    unfold dispatch
    rw [search_call_iff _ ⟨[0], [0], none⟩ v pkt_formats, table_length]
    constructor
    · rintro ⟨k, hlt, hf, hh, hall⟩
      have hk : k < 18 := by
        rcases Nat.lt_or_ge k 18 with h | h
        · exact h
        · have h18 : k = 18 := by omega
          rw [h18] at hf
          have := table_end
          unfold entry at this
          rw [this] at hf; cases hf
      refine ⟨k, hk, hf, ?_, ?_⟩
      · exact (matches_clamp s hb k hk).mp ((matches_iff_hit _ k).mpr hh)
      · intro j hj hm
        have h1 := (matches_clamp s hb j (by omega)).mpr hm
        have h2 := (hall j hj).2
        exact (hit_false_iff _ j).mp h2 h1
    · rintro ⟨k, hk, hf, hm, hall⟩
      refine ⟨k, by omega, hf, ?_, ?_⟩
      · exact (matches_iff_hit _ k).mp ((matches_clamp s hb k hk).mpr hm)
      · intro j hj
        refine ⟨table_fct j (by omega), ?_⟩
        apply (hit_false_iff _ j).mpr
        intro hmj
        exact hall j hj ((matches_clamp s hb j (by omega)).mp hmj)
  · unfold dispatch
    rw [search_unknown_iff _ ⟨[0], [0], none⟩ pkt_formats, table_length]
    constructor
    · rintro ⟨k, hlt, hf, hall⟩ j hj hm
      have hk : 18 ≤ k := by
        by_contra hn
        exact table_fct k (by omega) hf
      have h1 := (matches_clamp s hb j hj).mpr hm
      exact (hit_false_iff _ j).mp (hall j (by omega)).2 h1
    · intro hall
      refine ⟨18, by norm_num, table_end, ?_⟩
      intro j hj
      refine ⟨table_fct j hj, ?_⟩
      apply (hit_false_iff _ j).mpr
      intro hmj
      exact hall j hj ((matches_clamp s hb j hj).mp hmj)
  · intro h
    show (dispatch s).text (clamp_length s) = _
    rw [h]
    rfl

/-- Claim C10, instance: the buffer BD 01 02 3F 02 25 01 D9 06 of a
get-setpoint packet; entry 12 (`getsetpoint`) is the first that matches. -/
theorem dispatch_first_match_witness :
    (feed (init (-1)) [0xBD, 0x01, 0x02, 0x3F, 0x02, 0x25, 0x01, 0xD9]).1.data_length < 256 ∧
    Matches (feed (init (-1)) [0xBD, 0x01, 0x02, 0x3F, 0x02, 0x25, 0x01, 0xD9]).1.rawdata 12 ∧
    dispatch (feed (init (-1)) [0xBD, 0x01, 0x02, 0x3F, 0x02, 0x25, 0x01, 0xD9]).1 =
      Dispatch.call Variant.getsetpoint :=
  ⟨by decide, by decide,
   ((dispatch_first_match (feed (init (-1)) [0xBD, 0x01, 0x02, 0x3F, 0x02, 0x25, 0x01, 0xD9]).1
      (by decide)).2.2.1 Variant.getsetpoint).mpr
     ⟨12, by decide, by decide, by decide, by decide⟩⟩

/-! ## The search reads six bytes -/

theorem hit_congr (f : Format) (rd rd2 : List Nat)
    (h : ∀ i, i < 6 → rd.getD (4 + i) 0 = rd2.getD (4 + i) 0) : f.hit rd = f.hit rd2 := by
  cases h1 : f.hit rd <;> cases h2 : f.hit rd2 <;> try rfl
  · rw [hit_iff] at h2
    have : f.hit rd = true := by
      rw [hit_iff]; intro i hi; rw [h i hi]; exact h2 i hi
    rw [h1] at this; cases this
  · rw [hit_iff] at h1
    have : f.hit rd2 = true := by
      rw [hit_iff]; intro i hi; rw [← h i hi]; exact h1 i hi
    rw [h2] at this; cases this

theorem search_congr (rd rd2 : List Nat)
    (h : ∀ i, i < 6 → rd.getD (4 + i) 0 = rd2.getD (4 + i) 0) :
    ∀ t : List Format, search rd t = search rd2 t := by
  intro t
  induction t with
  | nil => rfl
  | cons f rest ih =>
    cases hf : f.fct with
    | none => simp [search, hf]
    | some v => simp only [search, hf, hit_congr f rd rd2 h, ih]

theorem clamp_window (s t : State)
    (h : ∀ i, 4 ≤ i → i ≤ 9 → s.rawdata.getD i 0 = t.rawdata.getD i 0) :
    ∀ i, i < 6 → (clamp_length s).rawdata.getD (4 + i) 0 =
      (clamp_length t).rawdata.getD (4 + i) 0 := by
  intro i hi
  rcases Nat.eq_zero_or_pos i with h0 | hpos
  · subst h0
    show (clamp_length s).rawdata.getD 4 0 = (clamp_length t).rawdata.getD 4 0
    rw [clamp_byte4, clamp_byte4, h 4 (by omega) (by omega)]
  · show (s.rawdata.set 4 _).getD (4 + i) 0 = (t.rawdata.set 4 _).getD (4 + i) 0
    rw [getD_set_ne _ _ _ _ (by omega), getD_set_ne _ _ _ _ (by omega)]
    exact h (4 + i) (by omega) (by omega)

/-- Claim C11. For any two states whose packet buffers agree on byte offsets 4
through 9, whatever their other bytes, byte counts, remembered addresses and
filter setting, the search of `decode_packet` selects the same entry. -/
theorem dispatch_window_only (s t : State)
    (h : ∀ i, 4 ≤ i → i ≤ 9 → s.rawdata.getD i 0 = t.rawdata.getD i 0) :
    dispatch s = dispatch t :=
  search_congr _ _ (clamp_window s t h) pkt_formats

/-- Claim C11, instance: the buffers after BD 01 02 3F 02 25 01 D9 with no unit
filter and after BE 09 08 7F 02 25 01 D9 with unit filter 7 differ in their
first four bytes, agree on offsets 4 to 9, and select the same entry. -/
theorem dispatch_window_only_witness :
    (∀ i, 4 ≤ i → i ≤ 9 →
      (feed (init (-1)) [0xBD, 0x01, 0x02, 0x3F, 0x02, 0x25, 0x01, 0xD9]).1.rawdata.getD i 0 =
      (feed (init 7) [0xBE, 0x09, 0x08, 0x7F, 0x02, 0x25, 0x01, 0xD9]).1.rawdata.getD i 0) ∧
    (feed (init (-1)) [0xBD, 0x01, 0x02, 0x3F, 0x02, 0x25, 0x01, 0xD9]).1.rawdata ≠
      (feed (init 7) [0xBE, 0x09, 0x08, 0x7F, 0x02, 0x25, 0x01, 0xD9]).1.rawdata ∧
    dispatch (feed (init (-1)) [0xBD, 0x01, 0x02, 0x3F, 0x02, 0x25, 0x01, 0xD9]).1 =
      dispatch (feed (init 7) [0xBE, 0x09, 0x08, 0x7F, 0x02, 0x25, 0x01, 0xD9]).1 :=
  have h : ∀ i, 4 ≤ i → i ≤ 9 →
      (feed (init (-1)) [0xBD, 0x01, 0x02, 0x3F, 0x02, 0x25, 0x01, 0xD9]).1.rawdata.getD i 0 =
      (feed (init 7) [0xBE, 0x09, 0x08, 0x7F, 0x02, 0x25, 0x01, 0xD9]).1.rawdata.getD i 0 := by
    intro i h1 h2
    interval_cases i <;> rfl
  ⟨h, by decide, dispatch_window_only _ _ h⟩

set_option maxRecDepth 100000 in
/-- Claim C12, at the data bytes 01 95 of the claim. The get-setpoint
acknowledgement BE 02 01 3F 05 25 81 01 95 00 with checksum BF and ACK is printed
as one packet whose decode output is `" %d.%d deg C"` with 19 and 5, and
`", %.1f deg F"` with the value of `degc*9/5+32` for `degc = 19`: the tenths are
lost in the integer division `(.. & 0xf)/10`, so the Fahrenheit value is
331/5 = 66.2 and not 671/10 = 67.1, the value for 19.5 deg C. -/
theorem fahrenheit_drops_tenths :
    (∃ dec : Decoded,
      (feed (init (-1))
        [0xBE, 0x02, 0x01, 0x3F, 0x05, 0x25, 0x81, 0x01, 0x95, 0x00, 0xBF, 0x06]).2 =
        [Event.frameReady true
          [0xBE, 0x02, 0x01, 0x3F, 0x05, 0x25, 0x81, 0x01, 0x95, 0x00, 0xBF, 0x06] dec] ∧
      dec.text =
        [⟨" %d.%d deg C", [Arg.int 19, Arg.int 5]⟩, ⟨", %.1f deg F", [Arg.flt (331 / 5)]⟩]) ∧
    (331 / 5 : ℚ) = 66.2 ∧
    ((19 : ℚ) + 5 / 10) * 9 / 5 + 32 = 67.1 := by
  refine ⟨⟨(decode_packet (showtime (accept (feed (init (-1))
    [0xBE, 0x02, 0x01, 0x3F, 0x05, 0x25, 0x81, 0x01, 0x95, 0x00, 0xBF]).1 0x06).1)).2,
    by rfl, ?_⟩, by norm_num, by norm_num⟩
  have e1 : (0x95 >>> 4 : ℕ) = 9 := by decide
  have e2 : (0x95 &&& 0xf : ℕ) = 5 := by decide
  show showtemp (clamp_length (showtime (accept (feed (init (-1))
    [0xBE, 0x02, 0x01, 0x3F, 0x05, 0x25, 0x81, 0x01, 0x95, 0x00, 0xBF]).1 0x06).1)) 2 = _
  have h2 : (clamp_length (showtime (accept (feed (init (-1))
      [0xBE, 0x02, 0x01, 0x3F, 0x05, 0x25, 0x81, 0x01, 0x95, 0x00, 0xBF]).1 0x06).1)).data 2
      = 0x01 := by rfl
  have h3 : (clamp_length (showtime (accept (feed (init (-1))
      [0xBE, 0x02, 0x01, 0x3F, 0x05, 0x25, 0x81, 0x01, 0x95, 0x00, 0xBF]).1 0x06).1)).data (2 + 1)
      = 0x95 := by rfl
  simp only [showtemp, h2, h3, e1, e2]
  norm_num

/-! ## The filter latch -/

theorem latch_clear_init (u : Int) : LatchClear (init u) := fun _ _ => rfl

theorem latch_clear_byte (s : State) (c : Nat) (h : LatchClear s) :
    LatchClear (mnet_byte s c).1 := by
  rw [mnet_byte_eq]
  by_cases hg : (do_filters (accept s c).1).skipping_packet = false ∧
      5 ≤ (do_filters (accept s c).1).raw_datacount
  · rw [if_pos hg]
    by_cases h7 : (check_crc (do_filters (accept s c).1)).1.raw_datacount =
        7 + (check_crc (do_filters (accept s c).1)).1.data_length
    · intro _ _
      exact handshake_latch _ c h7
    · rw [handshake_off _ c h7]
      intro _ hlt
      rw [check_crc_count] at hlt
      omega
  · rw [if_neg hg]
    intro hsk hcnt
    rw [do_filters_skipping] at hsk
    rw [do_filters_count] at hcnt
    rw [do_filters_off _ (Or.inr (by omega)), accept_latch]
    have hs : s.skipping_packet = false := by
      cases hs : s.skipping_packet with
      | false => rfl
      | true => rw [accept_skipping_mono s c hs] at hsk; cases hsk
    by_cases hlt : s.raw_datacount < MAX_DATA
    · rw [accept_store s c hlt] at hcnt
      exact h hs (by simp at hcnt; omega)
    · rw [accept_full s c hlt] at hsk
      cases hsk

theorem latch_clear_run (u : Int) (ins : List (Option Nat)) :
    ∀ s, Inv u s → LatchClear s → Bytes ins → LatchClear (run s ins).1 := by
  induction ins with
  | nil => intro s _ h _; exact h
  | cons i rest ih =>
    intro s hi h hb
    obtain ⟨hc, hrest⟩ := bytes_cons i rest hb
    have hp := (inv_poll u s i hi hc).1
    have hl : LatchClear (poll s i).1 := by
      cases i with
      | none =>
        show LatchClear (mnet_idle s).1
        rw [idle_noop u s hi]; exact h
      | some c => exact latch_clear_byte s c h
    exact ih (poll s i).1 hp hl hrest

theorem reachable_latch_clear (u : Int) (s : State) (hr : Reachable u s) : LatchClear s := by
  obtain ⟨ins, hb, rfl⟩ := hr
  exact latch_clear_run u ins (init u) (inv_init u) (latch_clear_init u) hb

/-- Claim C13. In every reachable, not skipping state that holds three bytes of
a packet, ingesting the fourth header byte leaves the filter latch clear (the
packet passes) if and only if the configured unit is unset (-1), or equals the
packet's source address (byte 1), or equals its destination address (byte 2);
the byte count is then 4 and nothing is printed. -/
theorem unit_filter_latch (u : Int) (s : State) (hr : Reachable u s)
    (hs : s.skipping_packet = false) (h3 : s.raw_datacount = 3) (c : Nat) :
    ((mnet_byte s c).1.filtering_packet = false ↔
      (u = -1 ∨ (s.from_addr : Int) = u ∨ (s.to_addr : Int) = u)) ∧
    (mnet_byte s c).1.raw_datacount = 4 ∧
    (mnet_byte s c).1.from_addr = s.from_addr ∧
    (mnet_byte s c).1.to_addr = s.to_addr ∧
    (mnet_byte s c).2 = [] := by
  have hi := reachable_inv u s hr
  have hl := reachable_latch_clear u s hr hs (by omega)
  have hlt : s.raw_datacount < MAX_DATA := by rw [h3]; simp [MAX_DATA]
  have ha := accept_store s c hlt
  have hpass := mnet_byte_pass s c (Or.inr (Or.inl (by rw [ha, h3]; simp)))
  rw [hpass, ha, h3]
  have e1 : (s.rawdata.set 3 c).getD 1 0 = s.rawdata.getD 1 0 := getD_set_ne _ _ _ _ (by omega)
  have e2 : (s.rawdata.set 3 c).getD 2 0 = s.rawdata.getD 2 0 := getD_set_ne _ _ _ _ (by omega)
  refine ⟨?_, ?_, ?_, ?_, rfl⟩
  · simp only [do_filters, hs, State.from_addr, State.to_addr, State.byte, e1, e2, hi.unit, hl]
    split_ifs with h1 h2
    · exact iff_of_true rfl h2
    · exact iff_of_false (fun h => h) h2
    · exact absurd ⟨trivial, trivial⟩ h1
  · simp
  · simp only [State.from_addr, State.byte, do_filters_rawdata]; exact e1
  · simp only [State.to_addr, State.byte, do_filters_rawdata]; exact e2

/-- Claim C13, instances: with unit 5 the header BD 05 09 3F passes and the
header BD 09 0A 3F is suppressed; with the unit unset BD 09 0A 3F passes. -/
theorem unit_filter_latch_witness :
    (Reachable 5 (feed (init 5) [0xBD, 5, 9]).1 ∧
      (mnet_byte (feed (init 5) [0xBD, 5, 9]).1 0x3F).1.filtering_packet = false) ∧
    (Reachable 5 (feed (init 5) [0xBD, 9, 10]).1 ∧
      (mnet_byte (feed (init 5) [0xBD, 9, 10]).1 0x3F).1.filtering_packet ≠ false) ∧
    (Reachable (-1) (feed (init (-1)) [0xBD, 9, 10]).1 ∧
      (mnet_byte (feed (init (-1)) [0xBD, 9, 10]).1 0x3F).1.filtering_packet = false) :=
  have r1 : Reachable 5 (feed (init 5) [0xBD, 5, 9]).1 := reachable_feed 5 _ (by decide)
  have r2 : Reachable 5 (feed (init 5) [0xBD, 9, 10]).1 := reachable_feed 5 _ (by decide)
  have r3 : Reachable (-1) (feed (init (-1)) [0xBD, 9, 10]).1 :=
    reachable_feed (-1) _ (by decide)
  ⟨⟨r1, (unit_filter_latch 5 _ r1 (by decide) (by decide) 0x3F).1.mpr (by decide)⟩,
   ⟨r2, fun h => absurd ((unit_filter_latch 5 _ r2 (by decide) (by decide) 0x3F).1.mp h)
      (by decide)⟩,
   ⟨r3, (unit_filter_latch (-1) _ r3 (by decide) (by decide) 0x3F).1.mpr (by decide)⟩⟩

/-- A packet that fits the buffer (at most 13 data bytes), has a valid checksum
and is followed by ACK, but is neither from nor to the configured unit: it is
read to its end, nothing is printed, and the framer is left idle with the
filter latch cleared. -/
theorem filtered_frame_processed (u : Int) (s : State) (hr : Reachable u s)
    (hc : s.raw_datacount = 0) (hcrc : s.crc = 0) (hs : s.skipping_packet = false)
    (body : List Nat) (cs : Nat) (hbody : body.length = 5 + body.getD 4 0)
    (hfit : body.length + 2 ≤ MAX_DATA) (hsum : (body ++ [cs]).sum % 256 = 0)
    (hu : u ≠ -1) (hsrc : (body.getD 1 0 : Int) ≠ u) (hdst : (body.getD 2 0 : Int) ≠ u) :
    (feed s (body ++ [cs] ++ [ACK])).2 = [] ∧
    (feed s (body ++ [cs] ++ [ACK])).1.raw_datacount = 0 ∧
    (feed s (body ++ [cs] ++ [ACK])).1.crc = 0 ∧
    (feed s (body ++ [cs] ++ [ACK])).1.skipping_packet = false ∧
    (feed s (body ++ [cs] ++ [ACK])).1.filtering_packet = false := by
  have hi := reachable_inv u s hr
  obtain ⟨t, hfeed, hm, hl, h7⟩ := feed_frame s hc hcrc hs hi.len body cs ACK hbody hfit hsum
  have hlen : (body ++ [cs] ++ [ACK]).length = body.length + 2 := by simp
  have e1 : (body ++ [cs] ++ [ACK]).getD 1 0 = body.getD 1 0 := by
    rw [getD_append_left _ _ 1 (by simp; omega), getD_append_left _ _ 1 (by omega)]
  have e2 : (body ++ [cs] ++ [ACK]).getD 2 0 = body.getD 2 0 := by
    rw [getD_append_left _ _ 2 (by simp; omega), getD_append_left _ _ 2 (by omega)]
  have hfilt : t.filtering_packet = true := by
    rw [hl, if_pos (by rw [hlen]; omega), e1, e2]
    unfold latched
    rw [hi.unit, if_neg (by
      rintro (h | h | h)
      · exact hu h
      · exact hsrc h
      · exact hdst h)]
  rw [hfeed]
  refine ⟨?_, ?_, ?_, ?_, ?_⟩
  · rw [handshake_events t ACK h7, if_neg (by rw [hfilt]; decide)]
    simp [ACK, NAK]
  · rw [handshake_count t ACK h7]; simp
  · rw [handshake_crc t ACK h7]; simp
  · rw [handshake_skipping, hm.skip]
  · exact handshake_latch t ACK h7

set_option maxRecDepth 100000 in
/-- Claim C14, at its own instance and at a data length of 14, with unit filter
7, source 3 and destination 4. The get-setpoint packet BD 03 04 3F 02 25 01 D5
with ACK prints nothing and leaves the framer idle with the latch cleared, as
claimed. The packet BD 03 04 3F 0E, fourteen zero data bytes and checksum EF,
with ACK does not: its twenty bytes through the checksum fill the `MAX_DATA`
places, the ACK is not stored, the too-much-data message is printed and the
framer is left skipping with byte count 20 and the latch still set. -/
theorem filtered_long_frame_overflows :
    (feed (init 7) [0xBD, 0x03, 0x04, 0x3F, 0x02, 0x25, 0x01, 0xD5, ACK]).2 = [] ∧
    (feed (init 7) [0xBD, 0x03, 0x04, 0x3F, 0x02, 0x25, 0x01, 0xD5, ACK]).1.raw_datacount = 0 ∧
    (feed (init 7) [0xBD, 0x03, 0x04, 0x3F, 0x02, 0x25, 0x01, 0xD5, ACK]).1.crc = 0 ∧
    (feed (init 7) [0xBD, 0x03, 0x04, 0x3F, 0x02, 0x25, 0x01, 0xD5, ACK]).1.skipping_packet
      = false ∧
    (feed (init 7) [0xBD, 0x03, 0x04, 0x3F, 0x02, 0x25, 0x01, 0xD5, ACK]).1.filtering_packet
      = false ∧
    (0xBD + 0x03 + 0x04 + 0x3F + 14 + 0xEF) % 256 = 0 ∧
    (feed (init 7)
      [0xBD, 0x03, 0x04, 0x3F, 14, 0, 0, 0, 0, 0, 0, 0, 0, 0, 0, 0, 0, 0, 0, 0xEF, ACK]).2
      = [Event.overflow] ∧
    (feed (init 7)
      [0xBD, 0x03, 0x04, 0x3F, 14, 0, 0, 0, 0, 0, 0, 0, 0, 0, 0, 0, 0, 0, 0, 0xEF, ACK]).1.skipping_packet
      = true ∧
    (feed (init 7)
      [0xBD, 0x03, 0x04, 0x3F, 14, 0, 0, 0, 0, 0, 0, 0, 0, 0, 0, 0, 0, 0, 0, 0xEF, ACK]).1.raw_datacount
      = 20 ∧
    (feed (init 7)
      [0xBD, 0x03, 0x04, 0x3F, 14, 0, 0, 0, 0, 0, 0, 0, 0, 0, 0, 0, 0, 0, 0, 0xEF, ACK]).1.filtering_packet
      = true := by
  refine ⟨by rfl, by rfl, by rfl, by rfl, by rfl, by decide, by rfl, by rfl, by rfl, by rfl⟩

/-! ## The remembered addresses -/

theorem accept_prev (s : State) (c : Nat) :
    (accept s c).1.prev_from_addr = s.prev_from_addr ∧
    (accept s c).1.prev_to_addr = s.prev_to_addr := by
  rw [accept_eq]; split_ifs <;> exact ⟨rfl, rfl⟩

theorem check_crc_prev (t : State) :
    (check_crc t).1.prev_from_addr = t.prev_from_addr ∧
    (check_crc t).1.prev_to_addr = t.prev_to_addr := by
  unfold check_crc; split_ifs <;> exact ⟨rfl, rfl⟩

theorem check_crc_latch (t : State) :
    (check_crc t).1.filtering_packet = t.filtering_packet := by
  unfold check_crc; split_ifs <;> rfl

theorem check_crc_no_frame (t : State) (tm : Bool) (b : List Nat) (d : Decoded) :
    Event.frameReady tm b d ∉ (check_crc t).2 := by
  unfold check_crc; split_ifs <;> simp

theorem do_filters_latch_mono (t : State) (h : t.filtering_packet = true) :
    (do_filters t).filtering_packet = true := by
  unfold do_filters; split_ifs <;> simp [h]

theorem print_addr_ne_blank (a : Nat) : print_addr a ≠ ⟨"  ", []⟩ := by
  unfold print_addr
  split_ifs
  · intro h
    have h2 : ("CM" : String) = "  " := congrArg Tok.fmt h
    exact absurd h2 (by decide)
  · intro h
    have h2 : ("%02X" : String) = "  " := congrArg Tok.fmt h
    exact absurd h2 (by decide)

theorem getD_map_range (f : Nat → Nat) (n i : Nat) (h : i < n) :
    ((List.range n).map f).getD i 0 = f i := by
  simp [List.getD_eq_getElem?_getD, List.getElem?_range, h]

/-- What a printed packet says about the turn that printed it. -/
theorem handshake_frame (t : State) (c : Nat) (tm : Bool) (b : List Nat) (d : Decoded)
    (hmem : Event.frameReady tm b d ∈ (handshake t c).2) :
    t.raw_datacount = 7 + t.data_length ∧ t.filtering_packet = false ∧ b = dump t ∧
      d = (decode_packet (showtime t)).2 := by
  by_cases h7 : t.raw_datacount = 7 + t.data_length
  · rw [handshake_events t c h7] at hmem
    by_cases hf : t.filtering_packet = false
    · rw [if_pos hf] at hmem
      refine ⟨h7, hf, ?_⟩
      split_ifs at hmem <;> simp at hmem <;> exact ⟨hmem.2.1, hmem.2.2⟩
    · rw [if_neg hf] at hmem
      split_ifs at hmem <;> simp at hmem
  · rw [handshake_off t c h7] at hmem
    simp at hmem

theorem handshake_prev (t : State) (c : Nat) :
    (handshake t c).1.prev_from_addr =
      (if t.raw_datacount = 7 + t.data_length ∧ t.filtering_packet = false
        then (decode_packet (showtime t)).1.prev_from_addr else t.prev_from_addr) ∧
    (handshake t c).1.prev_to_addr =
      (if t.raw_datacount = 7 + t.data_length ∧ t.filtering_packet = false
        then (decode_packet (showtime t)).1.prev_to_addr else t.prev_to_addr) := by
  unfold handshake
  simp only [ACK, NAK]
  by_cases h7 : t.raw_datacount = 7 + t.data_length <;>
    by_cases hf : t.filtering_packet = false <;>
    by_cases hn : c = 33 <;> by_cases hk : c = 6 <;> simp [h7, hf, hn, hk]

theorem decode_packet_prev (t : State) :
    (decode_packet t).1.prev_from_addr = t.from_addr ∧
    (decode_packet t).1.prev_to_addr = t.to_addr :=
  ⟨getD_set_ne _ _ _ _ (by omega), getD_set_ne _ _ _ _ (by omega)⟩

theorem showtime_prev (t : State) :
    (showtime t).prev_from_addr = t.prev_from_addr ∧
    (showtime t).prev_to_addr = t.prev_to_addr := by
  unfold showtime; split_ifs <;> exact ⟨rfl, rfl⟩

theorem handshake_prev_kept (t : State) (c : Nat)
    (h : ¬ (t.raw_datacount = 7 + t.data_length ∧ t.filtering_packet = false)) :
    (handshake t c).1.prev_from_addr = t.prev_from_addr ∧
    (handshake t c).1.prev_to_addr = t.prev_to_addr := by
  have hp := handshake_prev t c
  rw [if_neg h, if_neg h] at hp
  exact hp

theorem handshake_prev_shown (t : State) (c : Nat)
    (h7 : t.raw_datacount = 7 + t.data_length) (hf : t.filtering_packet = false) :
    (handshake t c).1.prev_from_addr = t.from_addr ∧
    (handshake t c).1.prev_to_addr = t.to_addr := by
  have hp := handshake_prev t c
  rw [if_pos ⟨h7, hf⟩, if_pos ⟨h7, hf⟩, (decode_packet_prev _).1, (decode_packet_prev _).2] at hp
  have e1 : (showtime t).from_addr = t.from_addr := showtime_byte t 1
  have e2 : (showtime t).to_addr = t.to_addr := showtime_byte t 2
  rw [e1, e2] at hp
  exact hp

/-- What a printed packet says about the turn of the loop that printed it. -/
theorem byte_frame (s : State) (c : Nat) (tm : Bool) (b : List Nat) (d : Decoded)
    (hmem : Event.frameReady tm b d ∈ (mnet_byte s c).2) :
    ∃ t : State, t.raw_datacount = 7 + t.data_length ∧ b = dump t ∧
      d = (decode_packet (showtime t)).2 ∧
      (mnet_byte s c).1.prev_from_addr = t.from_addr ∧
      (mnet_byte s c).1.prev_to_addr = t.to_addr ∧
      t.prev_from_addr = s.prev_from_addr ∧ t.prev_to_addr = s.prev_to_addr ∧
      s.filtering_packet = false ∧ s.skipping_packet = false := by
  rw [mnet_byte_eq] at hmem ⊢
  by_cases hg : (do_filters (accept s c).1).skipping_packet = false ∧
      5 ≤ (do_filters (accept s c).1).raw_datacount
  · rw [if_pos hg] at hmem ⊢
    simp only [List.mem_append] at hmem
    rcases hmem with (hmem | hmem) | hmem
    · exact absurd hmem (accept_no_frame s c tm b d)
    · exact absurd hmem (check_crc_no_frame _ tm b d)
    · obtain ⟨h7, hf, hb, hd⟩ := handshake_frame _ c tm b d hmem
      refine ⟨_, h7, hb, hd, ?_, ?_, ?_, ?_, ?_, ?_⟩
      · exact (handshake_prev_shown _ c h7 hf).1
      · exact (handshake_prev_shown _ c h7 hf).2
      · rw [(check_crc_prev _).1, do_filters_prev_from, (accept_prev s c).1]
      · rw [(check_crc_prev _).2, do_filters_prev_to, (accept_prev s c).2]
      · rw [check_crc_latch] at hf
        cases hsf : s.filtering_packet with
        | false => rfl
        | true =>
          rw [do_filters_latch_mono _ (by rw [accept_latch]; exact hsf)] at hf
          cases hf
      · have hsk := hg.1
        rw [do_filters_skipping] at hsk
        cases hs : s.skipping_packet with
        | false => rfl
        | true => rw [accept_skipping_mono s c hs] at hsk; cases hsk
  · rw [if_neg hg] at hmem
    exact absurd hmem (accept_no_frame s c tm b d)

/-- A turn in which a byte came in and no packet was printed keeps the
remembered addresses. -/
theorem byte_prev_kept (s : State) (c : Nat)
    (h : ∀ tm b d, Event.frameReady tm b d ∉ (mnet_byte s c).2) :
    (mnet_byte s c).1.prev_from_addr = s.prev_from_addr ∧
    (mnet_byte s c).1.prev_to_addr = s.prev_to_addr := by
  rw [mnet_byte_eq] at h ⊢
  by_cases hg : (do_filters (accept s c).1).skipping_packet = false ∧
      5 ≤ (do_filters (accept s c).1).raw_datacount
  · rw [if_pos hg] at h ⊢
    have hk : ¬ ((check_crc (do_filters (accept s c).1)).1.raw_datacount =
          7 + (check_crc (do_filters (accept s c).1)).1.data_length ∧
        (check_crc (do_filters (accept s c).1)).1.filtering_packet = false) := by
      rintro ⟨h7, hf⟩
      apply h (check_crc (do_filters (accept s c).1)).1.did_newline
        (dump (check_crc (do_filters (accept s c).1)).1)
        (decode_packet (showtime (check_crc (do_filters (accept s c).1)).1)).2
      simp only [List.mem_append]
      right
      rw [handshake_events _ c h7, if_pos hf]
      simp
    obtain ⟨h1, h2⟩ := handshake_prev_kept _ c hk
    show (handshake _ c).1.prev_from_addr = _ ∧ (handshake _ c).1.prev_to_addr = _
    rw [h1, h2, (check_crc_prev _).1, (check_crc_prev _).2, do_filters_prev_from,
      do_filters_prev_to]
    exact accept_prev s c
  · rw [if_neg hg]
    show (do_filters _).prev_from_addr = _ ∧ (do_filters _).prev_to_addr = _
    rw [do_filters_prev_from, do_filters_prev_to]
    exact accept_prev s c

theorem idle_prev (s : State) :
    (mnet_idle s).1.prev_from_addr = s.prev_from_addr ∧
    (mnet_idle s).1.prev_to_addr = s.prev_to_addr ∧
    ∀ tm b d, Event.frameReady tm b d ∉ (mnet_idle s).2 := by
  unfold mnet_idle
  split_ifs
  · refine ⟨?_, ?_, ?_⟩
    · exact (showtime_prev _).1
    · exact (showtime_prev _).2
    · intro tm b d; simp
  · exact ⟨rfl, rfl, fun tm b d => by simp⟩

theorem poll_prev_kept (s : State) (i : Option Nat)
    (h : ∀ tm b d, Event.frameReady tm b d ∉ (poll s i).2) :
    (poll s i).1.prev_from_addr = s.prev_from_addr ∧
    (poll s i).1.prev_to_addr = s.prev_to_addr := by
  cases i with
  | none => exact ⟨(idle_prev s).1, (idle_prev s).2.1⟩
  | some c => exact byte_prev_kept s c h

theorem run_prev_kept (ins : List (Option Nat)) :
    ∀ s : State, (∀ tm b d, Event.frameReady tm b d ∉ (run s ins).2) →
      (run s ins).1.prev_from_addr = s.prev_from_addr ∧
      (run s ins).1.prev_to_addr = s.prev_to_addr := by
  induction ins with
  | nil => intro s _; exact ⟨rfl, rfl⟩
  | cons i rest ih =>
    intro s h
    have h1 : ∀ tm b d, Event.frameReady tm b d ∉ (poll s i).2 := by
      intro tm b d hm
      exact h tm b d (by simp only [run, List.mem_append]; exact Or.inl hm)
    have h2 : ∀ tm b d, Event.frameReady tm b d ∉ (run (poll s i).1 rest).2 := by
      intro tm b d hm
      exact h tm b d (by simp only [run, List.mem_append]; exact Or.inr hm)
    obtain ⟨p1, p2⟩ := poll_prev_kept s i h1
    obtain ⟨r1, r2⟩ := ih (poll s i).1 h2
    exact ⟨by show (run (poll s i).1 rest).1.prev_from_addr = _; rw [r1, p1],
      by show (run (poll s i).1 rest).1.prev_to_addr = _; rw [r2, p2]⟩

theorem decode_packet_src (x : State) :
    (decode_packet x).2.src =
      if x.from_addr = x.prev_to_addr ∧ x.to_addr = x.prev_from_addr then ⟨"  ", []⟩
      else print_addr x.from_addr := by
  have e1 : (clamp_length x).from_addr = x.from_addr := getD_set_ne _ _ _ _ (by omega)
  have e2 : (clamp_length x).to_addr = x.to_addr := getD_set_ne _ _ _ _ (by omega)
  show (if (clamp_length x).from_addr = x.prev_to_addr ∧
      (clamp_length x).to_addr = x.prev_from_addr then (⟨"  ", []⟩ : Tok)
    else print_addr (clamp_length x).from_addr) = _
  rw [e1, e2]

/-- Claim C15. The remembered (source, destination) pair changes only when a
packet is decoded and displayed. Over any sequence of turns in which no packet
is printed (bytes of a filter-suppressed packet, of a packet abandoned for a bad
checksum or for too much data, no-data turns) the pair is unchanged. A turn
that prints a packet is one in which the framer is neither skipping nor
filtering; after it the pair is that packet's source and destination (bytes 1
and 2), and the source address was replaced by blanks in the display if and only
if the packet's source equals the remembered destination and its destination
equals the remembered source. -/
theorem session_context (s : State) :
    (∀ ins : List (Option Nat), (∀ tm b d, Event.frameReady tm b d ∉ (run s ins).2) →
      (run s ins).1.prev_from_addr = s.prev_from_addr ∧
      (run s ins).1.prev_to_addr = s.prev_to_addr) ∧
    (∀ (i : Option Nat) (tm : Bool) (b : List Nat) (d : Decoded),
      Event.frameReady tm b d ∈ (poll s i).2 →
      s.filtering_packet = false ∧ s.skipping_packet = false ∧
      (poll s i).1.prev_from_addr = b.getD 1 0 ∧
      (poll s i).1.prev_to_addr = b.getD 2 0 ∧
      (d.src = ⟨"  ", []⟩ ↔ (b.getD 1 0 = s.prev_to_addr ∧ b.getD 2 0 = s.prev_from_addr))) := by
  refine ⟨fun ins h => run_prev_kept ins s h, ?_⟩
  intro i tm b d hmem
  cases i with
  | none => exact absurd hmem ((idle_prev s).2.2 tm b d)
  | some c =>
    obtain ⟨t, h7, hb, hd, hpf, hpt, htf, htt, hf, hs⟩ := byte_frame s c tm b d hmem
    have b1 : b.getD 1 0 = t.from_addr := by
      rw [hb]; exact getD_map_range _ _ 1 (by omega)
    have b2 : b.getD 2 0 = t.to_addr := by
      rw [hb]; exact getD_map_range _ _ 2 (by omega)
    refine ⟨hf, hs, ?_, ?_, ?_⟩
    · rw [b1]; exact hpf
    · rw [b2]; exact hpt
    · have e1 : (showtime t).from_addr = t.from_addr := showtime_byte t 1
      have e2 : (showtime t).to_addr = t.to_addr := showtime_byte t 2
      rw [hd, decode_packet_src, e1, e2, (showtime_prev t).1, (showtime_prev t).2, htf, htt,
        b1, b2]
      split_ifs with hc
      · exact iff_of_true rfl hc
      · exact iff_of_false (print_addr_ne_blank _) hc

set_option maxRecDepth 100000 in
/-- Claim C15, instances: with unit filter 7, the whole of the suppressed packet
BD 03 04 3F 02 25 01 D5 and its ACK leaves the remembered pair as it was; with no
filter, the ACK after BD 01 02 3F 02 25 01 D9 prints the packet and sets the pair
to (01, 02). -/
theorem session_context_witness :
    ((run (init 7) ([0xBD, 0x03, 0x04, 0x3F, 0x02, 0x25, 0x01, 0xD5, 0x06].map some)).1.prev_from_addr
        = (init 7).prev_from_addr ∧
      (run (init 7) ([0xBD, 0x03, 0x04, 0x3F, 0x02, 0x25, 0x01, 0xD5, 0x06].map some)).1.prev_to_addr
        = (init 7).prev_to_addr) ∧
    Event.frameReady true [0xBD, 0x01, 0x02, 0x3F, 0x02, 0x25, 0x01, 0xD9, 0x06]
        (decode_packet (feed (init (-1)) [0xBD, 0x01, 0x02, 0x3F, 0x02, 0x25, 0x01, 0xD9]).1).2 ∈
      (poll (feed (init (-1)) [0xBD, 0x01, 0x02, 0x3F, 0x02, 0x25, 0x01, 0xD9]).1 (some 0x06)).2 ∧
    (poll (feed (init (-1)) [0xBD, 0x01, 0x02, 0x3F, 0x02, 0x25, 0x01, 0xD9]).1
      (some 0x06)).1.prev_from_addr = 0x01 ∧
    (poll (feed (init (-1)) [0xBD, 0x01, 0x02, 0x3F, 0x02, 0x25, 0x01, 0xD9]).1
      (some 0x06)).1.prev_to_addr = 0x02 :=
  have hm : Event.frameReady true [0xBD, 0x01, 0x02, 0x3F, 0x02, 0x25, 0x01, 0xD9, 0x06]
        (decode_packet (feed (init (-1)) [0xBD, 0x01, 0x02, 0x3F, 0x02, 0x25, 0x01, 0xD9]).1).2 ∈
      (poll (feed (init (-1)) [0xBD, 0x01, 0x02, 0x3F, 0x02, 0x25, 0x01, 0xD9]).1
        (some 0x06)).2 := by
    decide
  ⟨(session_context (init 7)).1 _ (by
      intro tm b d h
      have he : (run (init 7)
          ([0xBD, 0x03, 0x04, 0x3F, 0x02, 0x25, 0x01, 0xD5, 0x06].map some)).2 = [] := by rfl
      rw [he] at h
      simp at h),
   hm,
   ((session_context _).2 _ _ _ _ hm).2.2.1,
   ((session_context _).2 _ _ _ _ hm).2.2.2.1⟩

set_option maxRecDepth 100000 in
/-- Claim C16, at the mode byte 0x20 (32). The set-mode command
BD 01 02 3F 03 0D 02 20 CF with ACK is decoded as `"set mode %s"` with "auto",
but the get-mode acknowledgement BE 02 01 3F 03 2D 82 20 2E with ACK, carrying
the same mode byte, is decoded as "???": `getmode_ack` has no case for auto, and
no mode byte makes it print anything but " heat", " cool" or "???". -/
theorem getmode_ack_lacks_auto :
    (∃ dec : Decoded,
      (feed (init (-1)) [0xBD, 0x01, 0x02, 0x3F, 0x03, 0x0D, 0x02, 0x20, 0xCF, 0x06]).2 =
        [Event.frameReady true
          [0xBD, 0x01, 0x02, 0x3F, 0x03, 0x0D, 0x02, 0x20, 0xCF, 0x06] dec] ∧
      dec.text = [⟨"set mode %s", [Arg.str "auto"]⟩]) ∧
    (∃ dec : Decoded,
      (feed (init (-1)) [0xBE, 0x02, 0x01, 0x3F, 0x03, 0x2D, 0x82, 0x20, 0x2E, 0x06]).2 =
        [Event.frameReady true
          [0xBE, 0x02, 0x01, 0x3F, 0x03, 0x2D, 0x82, 0x20, 0x2E, 0x06] dec] ∧
      dec.text = [⟨"???", []⟩]) ∧
    (∀ s : State, Variant.getmode_ack.run s = [⟨" heat", []⟩] ∨
      Variant.getmode_ack.run s = [⟨" cool", []⟩] ∨
      Variant.getmode_ack.run s = [⟨"???", []⟩]) := by
  refine ⟨⟨(decode_packet (showtime (accept (feed (init (-1))
      [0xBD, 0x01, 0x02, 0x3F, 0x03, 0x0D, 0x02, 0x20, 0xCF]).1 0x06).1)).2, by rfl, by rfl⟩,
    ⟨(decode_packet (showtime (accept (feed (init (-1))
      [0xBE, 0x02, 0x01, 0x3F, 0x03, 0x2D, 0x82, 0x20, 0x2E]).1 0x06).1)).2, by rfl, by rfl⟩,
    ?_⟩
  · intro s
    simp only [Variant.run]
    split_ifs
    · exact Or.inl rfl
    · exact Or.inr (Or.inl rfl)
    · exact Or.inr (Or.inr rfl)

/-- Claim C17. For every value `v` of the byte `data[pos]`, `showfanspeed`
prints one string: " low" exactly when `v = 4`, " medium" exactly when `v = 5`,
" high" exactly when `v = 6`, " auto" exactly when `v = 0x0B`, and "???" exactly
for all other values. The get-fan-speed acknowledgement prints `showfanspeed(2)`
and the set-fan-speed command prints "set fan speed" followed by
`showfanspeed(2)`. -/
theorem fan_speed_decoding (s : State) (pos : Nat) :
    (∃ txt : String, showfanspeed s pos = [⟨txt, []⟩] ∧
      (txt = " low" ↔ s.data pos = 4) ∧
      (txt = " medium" ↔ s.data pos = 5) ∧
      (txt = " high" ↔ s.data pos = 6) ∧
      (txt = " auto" ↔ s.data pos = 0x0b) ∧
      (txt = "???" ↔ (s.data pos ≠ 4 ∧ s.data pos ≠ 5 ∧ s.data pos ≠ 6 ∧ s.data pos ≠ 0x0b))) ∧
    Variant.getfanspeed_ack.run s = showfanspeed s 2 ∧
    Variant.setfanspeed.run s = ⟨"set fan speed", []⟩ :: showfanspeed s 2 := by
  refine ⟨?_, rfl, rfl⟩
  unfold showfanspeed
  by_cases h4 : s.data pos = 4
  · refine ⟨" low", by simp [h4], ?_⟩
    rw [h4]; decide
  by_cases h5 : s.data pos = 5
  · refine ⟨" medium", by simp [h5], ?_⟩
    rw [h5]; decide
  by_cases h6 : s.data pos = 6
  · refine ⟨" high", by simp [h6], ?_⟩
    rw [h6]; decide
  by_cases hb : s.data pos = 0x0b
  · refine ⟨" auto", by simp [hb], ?_⟩
    rw [hb]; decide
  · refine ⟨"???", by simp [h4, h5, h6, hb], ?_, ?_, ?_, ?_, ?_⟩
    · exact iff_of_false (by decide) h4
    · exact iff_of_false (by decide) h5
    · exact iff_of_false (by decide) h6
    · exact iff_of_false (by decide) hb
    · exact iff_of_true rfl ⟨h4, h5, h6, hb⟩

/-! ## The table is unambiguous -/

set_option maxRecDepth 100000 in
theorem table_masks (j : Nat) (hj : j < 18) :
    (entry j).mask.getD 0 0 = 255 ∧ (entry j).mask.getD 1 0 = 255 ∧
      (entry j).mask.getD 2 0 = 255 := by
  have h : ∀ j, j < 18 → (entry j).mask.getD 0 0 = 255 ∧ (entry j).mask.getD 1 0 = 255 ∧
      (entry j).mask.getD 2 0 = 255 := by decide
  exact h j hj

set_option maxRecDepth 100000 in
theorem table_vals_distinct (j k : Nat) (hj : j < 18) (hk : k < 18)
    (h0 : (entry j).val.getD 0 0 = (entry k).val.getD 0 0)
    (h1 : (entry j).val.getD 1 0 = (entry k).val.getD 1 0)
    (h2 : (entry j).val.getD 2 0 = (entry k).val.getD 2 0) : j = k := by
  have h : ∀ j, j < 18 → ∀ k, k < 18 →
      (entry j).val.getD 0 0 = (entry k).val.getD 0 0 →
      (entry j).val.getD 1 0 = (entry k).val.getD 1 0 →
      (entry j).val.getD 2 0 = (entry k).val.getD 2 0 → j = k := by decide
  exact h j hj k hk h0 h1 h2

/-- No buffer is matched by two of the 18 entries. -/
theorem matches_unique (rd : List Nat) (j k : Nat) (hj : j < 18) (hk : k < 18)
    (mj : Matches rd j) (mk : Matches rd k) : j = k := by
  obtain ⟨a0, a1, a2⟩ := table_masks j hj
  obtain ⟨b0, b1, b2⟩ := table_masks k hk
  apply table_vals_distinct j k hj hk
  · have x := mj 0 (by omega); have y := mk 0 (by omega)
    rw [a0] at x; rw [b0] at y; rw [← x, ← y]
  · have x := mj 1 (by omega); have y := mk 1 (by omega)
    rw [a1] at x; rw [b1] at y; rw [← x, ← y]
  · have x := mj 2 (by omega); have y := mk 2 (by omega)
    rw [a2] at x; rw [b2] at y; rw [← x, ← y]

theorem search_none_hit (rd : List Nat) (e : Format) (he : e.fct = none) :
    ∀ t : List Format, (∀ f, f ∈ t → f.hit rd = false) →
      search rd (t ++ [e]) = Dispatch.unknown := by
  intro t
  induction t with
  | nil => intro _; simp [search, he]
  | cons g rest ih =>
    intro h
    cases hg : g.fct with
    | none => simp [search, hg]
    | some w =>
      have hh : g.hit rd = false := h g (by simp)
      simp only [List.cons_append, search, hg, hh]
      exact ih (fun f hf => h f (by simp [hf]))

theorem search_one_hit (rd : List Nat) (e f : Format) (v : Variant) (hf : f.hit rd = true)
    (hv : f.fct = some v) :
    ∀ t : List Format, f ∈ t → (∀ g, g ∈ t → g.fct ≠ none) →
      (∀ g, g ∈ t → g.hit rd = true → g = f) → search rd (t ++ [e]) = Dispatch.call v := by
  intro t
  induction t with
  | nil => intro h; simp at h
  | cons g rest ih =>
    intro hmem hsome huniq
    cases hg : g.fct with
    | none => exact absurd hg (hsome g (by simp))
    | some w =>
      by_cases hh : g.hit rd = true
      · have hgf : g = f := huniq g (by simp) hh
        rw [hgf, hv] at hg
        cases hg
        simp only [List.cons_append, search]
        rw [hgf, hv]
        simp [hf]
      · have hne : f ≠ g := fun h => hh (h ▸ hf)
        have hin : f ∈ rest := by
          rcases List.mem_cons.mp hmem with h | h
          · exact absurd h hne
          · exact h
        simp only [List.cons_append, search, hg, hh]
        exact ih hin (fun x hx => hsome x (by simp [hx]))
          (fun x hx => huniq x (by simp [hx]))

set_option maxRecDepth 100000 in
theorem table_split : pkt_formats = pkt_formats.take 18 ++ [entry 18] := by decide

set_option maxRecDepth 100000 in
theorem table_index (f : Format) (hf : f ∈ pkt_formats.take 18) :
    ∃ j, j < 18 ∧ f = entry j := by
  have h : ∀ f, f ∈ pkt_formats.take 18 → ∃ j, j < 18 ∧ f = entry j := by decide
  exact h f hf

/-- With the 18 entries in any order before the end-of-table entry, the search
gives what it gives on the table as declared. -/
theorem search_reordered (rd : List Nat) (t : List Format)
    (hp : t.Perm (pkt_formats.take 18)) :
    search rd (t ++ [entry 18]) = search rd pkt_formats := by
  have hsome : ∀ g, g ∈ pkt_formats.take 18 → g.fct ≠ none := by
    intro g hg
    obtain ⟨k, hk, rfl⟩ := table_index g hg
    exact table_fct k hk
  by_cases hex : ∃ f, f ∈ pkt_formats.take 18 ∧ f.hit rd = true
  · obtain ⟨f, hf, hh⟩ := hex
    obtain ⟨j, hj, rfl⟩ := table_index f hf
    have huniq : ∀ g, g ∈ pkt_formats.take 18 → g.hit rd = true → g = entry j := by
      intro g hg hgh
      obtain ⟨k, hk, rfl⟩ := table_index g hg
      rw [matches_unique rd k j hk hj ((matches_iff_hit rd k).mpr hgh)
        ((matches_iff_hit rd j).mpr hh)]
    cases hv : (entry j).fct with
    | none => exact absurd hv (table_fct j hj)
    | some v =>
      rw [search_one_hit rd (entry 18) (entry j) v hh hv t (hp.mem_iff.mpr hf)
        (fun g hg => hsome g (hp.mem_iff.mp hg))
        (fun g hg => huniq g (hp.mem_iff.mp hg))]
      conv => rhs; rw [table_split]
      rw [search_one_hit rd (entry 18) (entry j) v hh hv _ hf hsome huniq]
  · have hnone : ∀ f, f ∈ pkt_formats.take 18 → f.hit rd = false := by
      intro f hf
      cases h : f.hit rd with
      | false => rfl
      | true => exact absurd ⟨f, hf, h⟩ hex
    rw [search_none_hit rd (entry 18) table_end t (fun f hf => hnone f (hp.mem_iff.mp hf))]
    conv => rhs; rw [table_split]
    rw [search_none_hit rd (entry 18) table_end _ hnone]

/-- Claim C18. No 6-byte window is matched by two different entries among the
18 of the table. So the search of `decode_packet` gives the same result if the
18 entries are put in any other order before the end-of-table entry: the
first-match rule never has to choose between two matching entries. -/
theorem table_unambiguous :
    (∀ (rd : List Nat) (j k : Nat), j < 18 → k < 18 → j ≠ k →
      ¬ (Matches rd j ∧ Matches rd k)) ∧
    (∀ (rd : List Nat) (t : List Format), t.Perm (pkt_formats.take 18) →
      search rd (t ++ [entry 18]) = search rd pkt_formats) ∧
    (∀ (s : State) (t : List Format), t.Perm (pkt_formats.take 18) →
      search (clamp_length s).rawdata (t ++ [entry 18]) = dispatch s) :=
  ⟨fun rd j k hj hk hne h => hne (matches_unique rd j k hj hk h.1 h.2),
   fun rd t hp => search_reordered rd t hp,
   fun _ t hp => search_reordered _ t hp⟩

set_option maxRecDepth 100000 in
/-- Claim C18, instance: the buffer BD 01 02 3F 02 25 01 D9 is matched by entry
12 and therefore not by entry 8, and searching the 18 entries in reverse order
selects `getsetpoint` as the declared order does. -/
theorem table_unambiguous_witness :
    Matches (feed (init (-1)) [0xBD, 0x01, 0x02, 0x3F, 0x02, 0x25, 0x01, 0xD9]).1.rawdata 12 ∧
    ¬ Matches (feed (init (-1)) [0xBD, 0x01, 0x02, 0x3F, 0x02, 0x25, 0x01, 0xD9]).1.rawdata 8 ∧
    (pkt_formats.take 18).reverse.Perm (pkt_formats.take 18) ∧
    search (feed (init (-1)) [0xBD, 0x01, 0x02, 0x3F, 0x02, 0x25, 0x01, 0xD9]).1.rawdata
      ((pkt_formats.take 18).reverse ++ [entry 18]) = Dispatch.call Variant.getsetpoint :=
  have hm : Matches
      (feed (init (-1)) [0xBD, 0x01, 0x02, 0x3F, 0x02, 0x25, 0x01, 0xD9]).1.rawdata 12 := by
    decide
  ⟨hm,
   fun h8 => table_unambiguous.1 _ 12 8 (by decide) (by decide) (by decide) ⟨hm, h8⟩,
   List.reverse_perm _,
   (table_unambiguous.2.1 _ _ (List.reverse_perm _)).trans (by rfl)⟩

/-- Claim C19. In every execution from the initial state, `did_newline` is true
at the start of every turn of the loop; so a turn in which no byte came in finds
the guard `!did_newline` false, prints nothing and leaves the whole state, with
byte count, running sum, buffer, skipping flag and filter latch, unchanged. -/
theorem did_newline_always (u : Int) (ins : List (Option Nat)) (hb : Bytes ins) :
    (run (init u) ins).1.did_newline = true ∧
    poll (run (init u) ins).1 none = ((run (init u) ins).1, []) := by
  have hi := (inv_run u ins (init u) (inv_init u) hb).1
  exact ⟨hi.nl, idle_noop u _ hi⟩

/-- Claim C19, instance: after BD 01 02 3F 02 25 01 D9 06 (a packet has been
printed) and then BD 01, `did_newline` is true and a no-data turn changes
nothing. -/
theorem did_newline_always_witness :
    Bytes [some 0xBD, some 0x01, some 0x02, some 0x3F, some 0x02, some 0x25, some 0x01,
      some 0xD9, some 0x06, some 0xBD, some 0x01] ∧
    (run (init (-1)) [some 0xBD, some 0x01, some 0x02, some 0x3F, some 0x02, some 0x25,
      some 0x01, some 0xD9, some 0x06, some 0xBD, some 0x01]).1.did_newline = true ∧
    poll (run (init (-1)) [some 0xBD, some 0x01, some 0x02, some 0x3F, some 0x02, some 0x25,
      some 0x01, some 0xD9, some 0x06, some 0xBD, some 0x01]).1 none =
      ((run (init (-1)) [some 0xBD, some 0x01, some 0x02, some 0x3F, some 0x02, some 0x25,
        some 0x01, some 0xD9, some 0x06, some 0xBD, some 0x01]).1, []) :=
  have hb : Bytes [some 0xBD, some 0x01, some 0x02, some 0x3F, some 0x02, some 0x25, some 0x01,
      some 0xD9, some 0x06, some 0xBD, some 0x01] := by
    intro c hc
    simp at hc
    omega
  ⟨hb, (did_newline_always (-1) _ hb).1, (did_newline_always (-1) _ hb).2⟩

/-- Once the framer is skipping, every later turn of the loop prints nothing and
leaves it skipping. -/
theorem run_skipping (u : Int) (ins : List (Option Nat)) :
    ∀ s : State, Inv u s → Bytes ins → s.skipping_packet = true →
      (run s ins).2 = [] ∧ (run s ins).1.skipping_packet = true := by
  induction ins with
  | nil => intro s _ _ hs; exact ⟨rfl, hs⟩
  | cons i rest ih =>
    intro s hi hb hs
    obtain ⟨hc, hrest⟩ := bytes_cons i rest hb
    have hp := (inv_poll u s i hi hc).1
    have hstep : (poll s i).2 = [] ∧ (poll s i).1.skipping_packet = true := by
      cases i with
      | none =>
        show (mnet_idle s).2 = [] ∧ (mnet_idle s).1.skipping_packet = true
        rw [idle_noop u s hi]; exact ⟨rfl, hs⟩
      | some c =>
        obtain ⟨he, hk⟩ := byte_skipping s c hs
        show (mnet_byte s c).2 = [] ∧ (mnet_byte s c).1.skipping_packet = true
        rw [he]; exact ⟨rfl, hk.skip⟩
    obtain ⟨r1, r2⟩ := ih (poll s i).1 hp hrest hstep.2
    exact ⟨by show (poll s i).2 ++ (run (poll s i).1 rest).2 = []; rw [hstep.1, r1]; rfl, r2⟩

/-- Claim C20. In every execution from the initial state, once `skipping_packet`
has been set it is still set after any number of further turns of the loop,
with a byte or with no data, and those turns print nothing: no packet, no bad
checksum, no too-much-data and no missing-handshake message ever again. -/
theorem skipping_absorbing (u : Int) (before after : List (Option Nat))
    (hb1 : Bytes before) (hb2 : Bytes after)
    (hsk : (run (init u) before).1.skipping_packet = true) :
    (run (run (init u) before).1 after).1.skipping_packet = true ∧
    (run (run (init u) before).1 after).2 = [] ∧
    (run (init u) (before ++ after)).2 = (run (init u) before).2 := by
  have hi := (inv_run u before (init u) (inv_init u) hb1).1
  obtain ⟨he, hs⟩ := run_skipping u after _ hi hb2 hsk
  refine ⟨hs, he, ?_⟩
  rw [run_append, he]
  simp

set_option maxRecDepth 100000 in
/-- Claim C20, instance: the bad checksum of BD 01 02 3F 02 25 01 DA sets
skipping; an ACK, a no-data turn and the valid packet BD 01 02 3F 02 25 01 D9 06
that follow print nothing and leave the framer skipping. -/
theorem skipping_absorbing_witness :
    (run (init (-1)) [some 0xBD, some 0x01, some 0x02, some 0x3F, some 0x02, some 0x25,
      some 0x01, some 0xDA]).1.skipping_packet = true ∧
    (run (run (init (-1)) [some 0xBD, some 0x01, some 0x02, some 0x3F, some 0x02, some 0x25,
        some 0x01, some 0xDA]).1
      [some 0x06, none, some 0xBD, some 0x01, some 0x02, some 0x3F, some 0x02, some 0x25,
        some 0x01, some 0xD9, some 0x06]).1.skipping_packet = true ∧
    (run (run (init (-1)) [some 0xBD, some 0x01, some 0x02, some 0x3F, some 0x02, some 0x25,
        some 0x01, some 0xDA]).1
      [some 0x06, none, some 0xBD, some 0x01, some 0x02, some 0x3F, some 0x02, some 0x25,
        some 0x01, some 0xD9, some 0x06]).2 = [] :=
  have hb1 : Bytes [some 0xBD, some 0x01, some 0x02, some 0x3F, some 0x02, some 0x25,
      some 0x01, some 0xDA] := by
    intro c hc
    simp at hc
    omega
  have hb2 : Bytes [some 0x06, none, some 0xBD, some 0x01, some 0x02, some 0x3F, some 0x02,
      some 0x25, some 0x01, some 0xD9, some 0x06] := by
    intro c hc
    simp at hc
    omega
  have hsk : (run (init (-1)) [some 0xBD, some 0x01, some 0x02, some 0x3F, some 0x02,
      some 0x25, some 0x01, some 0xDA]).1.skipping_packet = true := by rfl
  ⟨hsk, (skipping_absorbing (-1) _ _ hb1 hb2 hsk).1, (skipping_absorbing (-1) _ _ hb1 hb2 hsk).2.1⟩

/-! ## The checked code never fails -/

theorem rd_ok (a : List Nat) (i : Nat) (hl : a.length = RAW_SIZE) (hi : i < RAW_SIZE) :
    rd a i = some (a.getD i 0) := by
  unfold rd
  rw [if_pos hi, List.getD_eq_getElem?_getD, List.getElem?_eq_getElem (by omega)]
  rfl

theorem wr_ok (a : List Nat) (i v : Nat) (hl : a.length = RAW_SIZE) (hi : i < RAW_SIZE) :
    wr a i v = some (a.set i v) := by
  unfold wr
  rw [if_pos ⟨hi, by omega⟩]

theorem rd_all_ok (a : List Nat) (hl : a.length = RAW_SIZE) :
    ∀ idx : List Nat, (∀ i, i ∈ idx → i < RAW_SIZE) →
      rd_all a idx = some (idx.map fun i => a.getD i 0) := by
  intro idx
  induction idx with
  | nil => intro _; rfl
  | cons i rest ih =>
    intro h
    simp only [rd_all, rd_ok a i hl (h i (by simp)), ih (fun j hj => h j (by simp [hj])),
      Option.some_bind, List.map_cons]

theorem dump_chk_ok (s : State) (hl : s.rawdata.length = RAW_SIZE)
    (hc : s.raw_datacount ≤ RAW_SIZE) : dump_chk s = some (dump s) := by
  unfold dump_chk dump
  rw [rd_all_ok s.rawdata hl _ (fun i hi => by
    have := List.mem_range.mp hi; omega)]
  rfl

theorem showtemp_chk_ok (s : State) (pos : Nat) (hl : s.rawdata.length = RAW_SIZE)
    (hp : pos ≤ 3) : showtemp_chk s pos = some (showtemp s pos) := by
  unfold showtemp_chk
  rw [rd_ok _ _ hl (by simp [RAW_SIZE, MAX_DATA]; omega),
    rd_ok _ _ hl (by simp [RAW_SIZE, MAX_DATA]; omega)]
  rfl

theorem showfanspeed_chk_ok (s : State) (pos : Nat) (hl : s.rawdata.length = RAW_SIZE)
    (hp : pos ≤ 3) : showfanspeed_chk s pos = some (showfanspeed s pos) := by
  unfold showfanspeed_chk
  rw [rd_ok _ _ hl (by simp [RAW_SIZE, MAX_DATA]; omega)]
  rfl

theorem run_chk_variant_ok (v : Variant) (s : State) (hl : s.rawdata.length = RAW_SIZE) :
    v.run_chk s = some (v.run s) := by
  have h7 : rd s.rawdata (5 + 2) = some (s.rawdata.getD (5 + 2) 0) :=
    rd_ok _ _ hl (by simp [RAW_SIZE, MAX_DATA])
  cases v <;>
    simp only [Variant.run_chk, h7, showtemp_chk_ok s 2 hl (by omega),
      showtemp_chk_ok s 3 hl (by omega), showfanspeed_chk_ok s 2 hl (by omega),
      Option.some_bind] <;> rfl

theorem hit_chk_ok (f : Format) (a : List Nat) (hl : a.length = RAW_SIZE) :
    ∀ idx : List Nat, (∀ i, i ∈ idx → 4 + i < RAW_SIZE) →
      hit_chk f a idx =
        some (idx.all fun i => (a.getD (4 + i) 0 &&& f.mask.getD i 0) == f.val.getD i 0) := by
  intro idx
  induction idx with
  | nil => intro _; rfl
  | cons i rest ih =>
    intro h
    simp only [hit_chk, rd_ok a _ hl (h i (by simp)), Option.some_bind, List.all_cons,
      ih (fun j hj => h j (by simp [hj]))]
    cases (a.getD (4 + i) 0 &&& f.mask.getD i 0) == f.val.getD i 0 <;> simp

theorem hit_chk_table (f : Format) (a : List Nat) (hl : a.length = RAW_SIZE) :
    hit_chk f a (List.range MAX_CMDSIZE) = some (f.hit a) :=
  hit_chk_ok f a hl _ (fun i hi => by
    have := List.mem_range.mp hi
    simp [MAX_CMDSIZE, RAW_SIZE, MAX_DATA] at *; omega)

theorem search_chk_ok (a : List Nat) (hl : a.length = RAW_SIZE) :
    ∀ t : List Format, search a t ≠ Dispatch.overrun → search_chk a t = some (search a t) := by
  intro t
  induction t with
  | nil => intro h; exact absurd rfl h
  | cons f rest ih =>
    intro h
    cases hf : f.fct with
    | none => simp [search, search_chk, hf]
    | some v =>
      simp only [search, hf] at h
      simp only [search, search_chk, hf, hit_chk_table f a hl, Option.some_bind]
      by_cases hh : f.hit a = true
      · simp [hh]
      · rw [if_neg hh] at h
        simp only [hh, if_false]
        exact ih h

theorem text_chk_ok (d : Dispatch) (s : State) (hl : s.rawdata.length = RAW_SIZE)
    (hd : d ≠ Dispatch.overrun) : d.text_chk s = some (d.text s) := by
  cases d with
  | call v => exact run_chk_variant_ok v s hl
  | unknown => rfl
  | overrun => exact absurd rfl hd

theorem decode_packet_chk_ok (s : State) (hl : s.rawdata.length = RAW_SIZE) :
    decode_packet_chk s = some (decode_packet s) := by
  have hl1 : (s.rawdata.set 4 (min 16 (s.rawdata.getD 4 0))).length = RAW_SIZE := by
    rw [List.length_set]; exact hl
  have hno : search (s.rawdata.set 4 (min 16 (s.rawdata.getD 4 0))) pkt_formats ≠
      Dispatch.overrun :=
    search_not_overrun _ pkt_formats ⟨entry 18, by decide, table_end⟩
  unfold decode_packet_chk
  rw [rd_ok _ 4 hl (by simp [RAW_SIZE, MAX_DATA])]
  simp only [Option.some_bind]
  rw [wr_ok _ 4 _ hl (by simp [RAW_SIZE, MAX_DATA])]
  simp only [Option.some_bind]
  rw [rd_ok _ 4 hl1 (by simp [RAW_SIZE, MAX_DATA]), rd_ok _ 1 hl1 (by simp [RAW_SIZE, MAX_DATA]),
    rd_ok _ 2 hl1 (by simp [RAW_SIZE, MAX_DATA])]
  simp only [Option.some_bind]
  rw [search_chk_ok _ hl1 pkt_formats hno]
  simp only [Option.some_bind]
  rw [text_chk_ok _ _ hl1 hno]
  rfl

theorem accept_chk_ok (s : State) (c : Nat) (hl : s.rawdata.length = RAW_SIZE) :
    accept_chk s c = some (accept s c) := by
  unfold accept_chk
  rw [accept_eq]
  by_cases hlt : s.raw_datacount < MAX_DATA
  · simp only [hlt, if_true]
    rw [wr_ok _ _ _ hl (by simp [RAW_SIZE, MAX_DATA] at *; omega)]
    rfl
  · simp only [hlt, if_false]
    split_ifs <;> rfl

theorem do_filters_chk_ok (s : State) (hl : s.rawdata.length = RAW_SIZE) :
    do_filters_chk s = some (do_filters s) := by
  unfold do_filters_chk do_filters
  rw [rd_ok _ 1 hl (by simp [RAW_SIZE, MAX_DATA]), rd_ok _ 2 hl (by simp [RAW_SIZE, MAX_DATA])]
  simp only [Option.some_bind, State.from_addr, State.to_addr, State.byte]
  by_cases hg : s.skipping_packet = false ∧ s.raw_datacount = 4
  · rw [if_pos hg, if_pos hg]
    by_cases hu : s.filter_unit = -1
    · simp [hu]
    · by_cases h1 : ((s.rawdata.getD 1 0 : Nat) : Int) = s.filter_unit
      · rw [if_neg hu, if_pos h1, if_pos (Or.inr (Or.inl h1))]
      · by_cases h2 : ((s.rawdata.getD 2 0 : Nat) : Int) = s.filter_unit
        · rw [if_neg hu, if_neg h1, if_pos h2, if_pos (Or.inr (Or.inr h2))]
        · rw [if_neg hu, if_neg h1, if_neg h2, if_neg (by
            rintro (h | h | h)
            · exact hu h
            · exact h1 h
            · exact h2 h)]
  · rw [if_neg hg, if_neg hg]

theorem check_crc_chk_ok (s : State) (hl : s.rawdata.length = RAW_SIZE)
    (hc : s.raw_datacount ≤ RAW_SIZE) : check_crc_chk s = some (check_crc s) := by
  unfold check_crc_chk check_crc
  rw [rd_ok _ 4 hl (by simp [RAW_SIZE, MAX_DATA]), dump_chk_ok s hl hc]
  simp only [Option.some_bind, State.data_length, State.byte]
  split_ifs <;> rfl

theorem showtime_count (t : State) : (showtime t).raw_datacount = t.raw_datacount := by
  unfold showtime; split_ifs <;> rfl

theorem handshake_chk_ok (s : State) (c : Nat) (hl : s.rawdata.length = RAW_SIZE)
    (hc : s.raw_datacount ≤ RAW_SIZE) : handshake_chk s c = some (handshake s c) := by
  have hls : (showtime s).rawdata.length = RAW_SIZE := by rw [showtime_rawdata]; exact hl
  have hcs : (showtime s).raw_datacount ≤ RAW_SIZE := by rw [showtime_count]; exact hc
  have hld : (decode_packet (showtime s)).1.rawdata.length = RAW_SIZE := by
    rw [decode_packet_rawdata, List.length_set]; exact hls
  unfold handshake_chk handshake
  rw [rd_ok _ 4 hl (by simp [RAW_SIZE, MAX_DATA]), dump_chk_ok _ hls hcs,
    decode_packet_chk_ok _ hls]
  simp only [Option.some_bind, State.data_length, State.byte]
  by_cases h7 : s.raw_datacount = 7 + s.rawdata.getD 4 0
  · rw [if_pos h7, if_pos h7]
    by_cases hf : s.filtering_packet = false
    · simp only [if_pos hf, Option.some_bind]
      rw [wr_ok _ 0 c hld (by simp [RAW_SIZE, MAX_DATA])]
      split_ifs <;> rfl
    · simp only [if_neg hf, Option.some_bind]
      rw [wr_ok _ 0 c hl (by simp [RAW_SIZE, MAX_DATA])]
      split_ifs <;> rfl
  · rw [if_neg h7, if_neg h7]

theorem do_filters_length (t : State) : (do_filters t).rawdata.length = t.rawdata.length := by
  rw [do_filters_rawdata]

/-- With a 26-byte buffer and at most 26 bytes counted, a turn of the checked
code in which a byte came in does not fail and does what the code does. -/
theorem mnet_byte_chk_ok (s : State) (c : Nat) (hl : s.rawdata.length = RAW_SIZE)
    (hc : s.raw_datacount ≤ MAX_DATA) : mnet_byte_chk s c = some (mnet_byte s c) := by
  have hla : (accept s c).1.rawdata.length = RAW_SIZE := by rw [accept_length]; exact hl
  have hca : (accept s c).1.raw_datacount ≤ RAW_SIZE := by
    have := accept_count_le s c hc
    simp [RAW_SIZE, MAX_DATA] at *; omega
  have hlf : (do_filters (accept s c).1).rawdata.length = RAW_SIZE := by
    rw [do_filters_length]; exact hla
  have hcf : (do_filters (accept s c).1).raw_datacount ≤ RAW_SIZE := by
    rw [do_filters_count]; exact hca
  have hlk : (check_crc (do_filters (accept s c).1)).1.rawdata.length = RAW_SIZE := by
    rw [check_crc_rawdata]; exact hlf
  have hck : (check_crc (do_filters (accept s c).1)).1.raw_datacount ≤ RAW_SIZE := by
    rw [check_crc_count]; exact hcf
  unfold mnet_byte_chk
  rw [accept_chk_ok s c hl]
  simp only [Option.some_bind]
  rw [do_filters_chk_ok _ hla]
  simp only [Option.some_bind]
  rw [check_crc_chk_ok _ hlf hcf]
  simp only [Option.some_bind]
  rw [handshake_chk_ok _ c hlk hck, mnet_byte_eq]
  simp only [Option.some_bind]
  split_ifs <;> rfl

theorem poll_chk_ok (u : Int) (s : State) (i : Option Nat) (h : Inv u s) :
    poll_chk s i = some (poll s i) := by
  cases i with
  | none => rfl
  | some c => exact mnet_byte_chk_ok s c h.len h.cnt

theorem run_chk_ok (u : Int) (ins : List (Option Nat)) :
    ∀ s : State, Inv u s → Bytes ins → run_chk s ins = some (run s ins) := by
  induction ins with
  | nil => intro s _ _; rfl
  | cons i rest ih =>
    intro s h hb
    obtain ⟨hi, hrest⟩ := bytes_cons i rest hb
    have hp := (inv_poll u s i h hi).1
    simp only [run_chk, poll_chk_ok u s i h, Option.some_bind, ih (poll s i).1 hp hrest]
    rfl

/-- Claim C21. In every state reached from the initial state, the byte count is
at most 20 (`MAX_DATA`) and the buffer has its 26 bytes; and the code with every
array access checked (the stores `rawdata[raw_datacount]` and `rawdata[0]`, the
raw dumps, the reads of the address and data-length fields, the reads
`rawdata[4+i]` of the search, the reads `data[pos]` and `data[pos+1]` of the
command decodes, and the walk through the table) never fails on any execution:
it produces exactly the states and output of the unchecked code, in the next
turn of the loop as well, with a byte or with no data. -/
theorem buffer_bounds (u : Int) (ins : List (Option Nat)) (hb : Bytes ins) :
    (run (init u) ins).1.raw_datacount ≤ MAX_DATA ∧
    (run (init u) ins).1.rawdata.length = RAW_SIZE ∧
    run_chk (init u) ins = some (run (init u) ins) ∧
    (∀ i : Option Nat, poll_chk (run (init u) ins).1 i = some (poll (run (init u) ins).1 i)) := by
  have hi := (inv_run u ins (init u) (inv_init u) hb).1
  exact ⟨hi.cnt, hi.len, run_chk_ok u ins (init u) (inv_init u) hb,
    fun i => poll_chk_ok u _ i hi⟩

/-- Claim C21, instance: a no-data turn, the packet BD 01 02 3F 02 25 01 D9 with
ACK, then BD 01; the checked run succeeds with the result of the unchecked run
and the byte count is 2. The checks are real: a checked read at index 26 of the
initial buffer fails. -/
theorem buffer_bounds_witness :
    Bytes [none, some 0xBD, some 0x01, some 0x02, some 0x3F, some 0x02, some 0x25, some 0x01,
      some 0xD9, some 0x06, some 0xBD, some 0x01] ∧
    (run (init (-1)) [none, some 0xBD, some 0x01, some 0x02, some 0x3F, some 0x02, some 0x25,
      some 0x01, some 0xD9, some 0x06, some 0xBD, some 0x01]).1.raw_datacount ≤ MAX_DATA ∧
    run_chk (init (-1)) [none, some 0xBD, some 0x01, some 0x02, some 0x3F, some 0x02, some 0x25,
      some 0x01, some 0xD9, some 0x06, some 0xBD, some 0x01] =
      some (run (init (-1)) [none, some 0xBD, some 0x01, some 0x02, some 0x3F, some 0x02,
        some 0x25, some 0x01, some 0xD9, some 0x06, some 0xBD, some 0x01]) ∧
    rd (init (-1)).rawdata 26 = none :=
  have hb : Bytes [none, some 0xBD, some 0x01, some 0x02, some 0x3F, some 0x02, some 0x25,
      some 0x01, some 0xD9, some 0x06, some 0xBD, some 0x01] := by
    intro c hc
    simp at hc
    omega
  ⟨hb, (buffer_bounds (-1) _ hb).1, (buffer_bounds (-1) _ hb).2.2.1, by decide⟩

set_option maxRecDepth 100000 in
/-- Claim C7, at a data length of 15. From the initial state, the 21 = 6 + 15
bytes BD 01 02 3F 0F, fifteen zero data bytes and the checksum byte 00 sum to 14
modulo 256, not 0, and fit the 26-byte buffer. But the first twenty bytes fill
the `MAX_DATA` places, so the byte at the checksum position is not stored and
the checksum test never runs: the only thing printed is the too-much-data
message, no bad-checksum diagnostic is printed, the running sum is not reset
and the byte count stays 20, not 6 + 15. -/
theorem bad_checksum_long_frame_overflows :
    [0xBD, 0x01, 0x02, 0x3F, 15, 0, 0, 0, 0, 0, 0, 0, 0, 0, 0, 0, 0, 0, 0, 0, 0].length
      = 6 + 15 ∧
    6 + 15 ≤ RAW_SIZE ∧
    [0xBD, 0x01, 0x02, 0x3F, 15, 0, 0, 0, 0, 0, 0, 0, 0, 0, 0, 0, 0, 0, 0, 0, 0].sum % 256
      = 14 ∧
    (feed (init (-1))
      [0xBD, 0x01, 0x02, 0x3F, 15, 0, 0, 0, 0, 0, 0, 0, 0, 0, 0, 0, 0, 0, 0, 0]).2 = [] ∧
    (mnet_byte (feed (init (-1))
      [0xBD, 0x01, 0x02, 0x3F, 15, 0, 0, 0, 0, 0, 0, 0, 0, 0, 0, 0, 0, 0, 0, 0]).1 0).2
      = [Event.overflow] ∧
    Event.badChecksum
        [0xBD, 0x01, 0x02, 0x3F, 15, 0, 0, 0, 0, 0, 0, 0, 0, 0, 0, 0, 0, 0, 0, 0, 0] ∉
      (feed (init (-1))
        [0xBD, 0x01, 0x02, 0x3F, 15, 0, 0, 0, 0, 0, 0, 0, 0, 0, 0, 0, 0, 0, 0, 0, 0]).2 ∧
    (mnet_byte (feed (init (-1))
      [0xBD, 0x01, 0x02, 0x3F, 15, 0, 0, 0, 0, 0, 0, 0, 0, 0, 0, 0, 0, 0, 0, 0]).1
      0).1.skipping_packet = true ∧
    (mnet_byte (feed (init (-1))
      [0xBD, 0x01, 0x02, 0x3F, 15, 0, 0, 0, 0, 0, 0, 0, 0, 0, 0, 0, 0, 0, 0, 0]).1
      0).1.raw_datacount = 20 ∧
    (mnet_byte (feed (init (-1))
      [0xBD, 0x01, 0x02, 0x3F, 15, 0, 0, 0, 0, 0, 0, 0, 0, 0, 0, 0, 0, 0, 0, 0]).1
      0).1.crc = 14 := by
  refine ⟨by rfl, by decide, by rfl, by rfl, by rfl, ?_, by rfl, by rfl, by rfl⟩
  have he : (feed (init (-1))
      [0xBD, 0x01, 0x02, 0x3F, 15, 0, 0, 0, 0, 0, 0, 0, 0, 0, 0, 0, 0, 0, 0, 0, 0]).2
      = [Event.overflow] := by rfl
  rw [he]
  simp

set_option maxRecDepth 100000 in
/-- Claim C8, at the handshake position of a packet with 14 data bytes. After
BD 01 02 3F 0E, fourteen zero data bytes and the valid checksum F3, the framer is
not skipping and its byte count is 20 = 6 + 14, the handshake position, with
all `MAX_DATA` places taken. The next byte is not stored: for 41, neither ACK
nor NAK, the too-much-data message is printed instead of the missing-handshake
message, and the framer is left skipping with byte count 20, `rawdata[0]` still
BD and running sum 41, not re-seeded; for ACK the too-much-data message is
printed as well and the framer is left skipping with byte count 20, not idle. -/
theorem handshake_at_full_buffer_overflows :
    Reachable (-1) (feed (init (-1))
      [0xBD, 0x01, 0x02, 0x3F, 14, 0, 0, 0, 0, 0, 0, 0, 0, 0, 0, 0, 0, 0, 0, 0xF3]).1 ∧
    (feed (init (-1))
      [0xBD, 0x01, 0x02, 0x3F, 14, 0, 0, 0, 0, 0, 0, 0, 0, 0, 0, 0, 0, 0, 0, 0xF3]).2 = [] ∧
    (feed (init (-1))
      [0xBD, 0x01, 0x02, 0x3F, 14, 0, 0, 0, 0, 0, 0, 0, 0, 0, 0, 0, 0, 0, 0, 0xF3]).1.skipping_packet
      = false ∧
    (feed (init (-1))
      [0xBD, 0x01, 0x02, 0x3F, 14, 0, 0, 0, 0, 0, 0, 0, 0, 0, 0, 0, 0, 0, 0, 0xF3]).1.raw_datacount
      = 6 + (feed (init (-1))
        [0xBD, 0x01, 0x02, 0x3F, 14, 0, 0, 0, 0, 0, 0, 0, 0, 0, 0, 0, 0, 0, 0, 0xF3]).1.data_length ∧
    (mnet_byte (feed (init (-1))
      [0xBD, 0x01, 0x02, 0x3F, 14, 0, 0, 0, 0, 0, 0, 0, 0, 0, 0, 0, 0, 0, 0, 0xF3]).1 0x41).2
      = [Event.overflow] ∧
    (mnet_byte (feed (init (-1))
      [0xBD, 0x01, 0x02, 0x3F, 14, 0, 0, 0, 0, 0, 0, 0, 0, 0, 0, 0, 0, 0, 0, 0xF3]).1
      0x41).1.raw_datacount = 20 ∧
    (mnet_byte (feed (init (-1))
      [0xBD, 0x01, 0x02, 0x3F, 14, 0, 0, 0, 0, 0, 0, 0, 0, 0, 0, 0, 0, 0, 0, 0xF3]).1
      0x41).1.byte 0 = 0xBD ∧
    (mnet_byte (feed (init (-1))
      [0xBD, 0x01, 0x02, 0x3F, 14, 0, 0, 0, 0, 0, 0, 0, 0, 0, 0, 0, 0, 0, 0, 0xF3]).1
      0x41).1.crc = 0x41 ∧
    (mnet_byte (feed (init (-1))
      [0xBD, 0x01, 0x02, 0x3F, 14, 0, 0, 0, 0, 0, 0, 0, 0, 0, 0, 0, 0, 0, 0, 0xF3]).1
      0x41).1.skipping_packet = true ∧
    (mnet_byte (feed (init (-1))
      [0xBD, 0x01, 0x02, 0x3F, 14, 0, 0, 0, 0, 0, 0, 0, 0, 0, 0, 0, 0, 0, 0, 0xF3]).1 ACK).2
      = [Event.overflow] ∧
    (mnet_byte (feed (init (-1))
      [0xBD, 0x01, 0x02, 0x3F, 14, 0, 0, 0, 0, 0, 0, 0, 0, 0, 0, 0, 0, 0, 0, 0xF3]).1
      ACK).1.raw_datacount = 20 ∧
    (mnet_byte (feed (init (-1))
      [0xBD, 0x01, 0x02, 0x3F, 14, 0, 0, 0, 0, 0, 0, 0, 0, 0, 0, 0, 0, 0, 0, 0xF3]).1
      ACK).1.skipping_packet = true := by
  refine ⟨reachable_feed (-1) _ (by decide), by rfl, by rfl, by rfl, by rfl, by rfl, by rfl,
    by rfl, by rfl, by rfl, by rfl, by rfl⟩

end MNet
